import Mathlib

/-!
# ADLUtil: a shallow embedding of `ADLUtil.cpp` / `ADLUtil.h`

The development embeds the string handling of `GetDriverVersion` and of the
adapter loop of `GetAsicInfoList`, and the load / cache state machine of
`AMDTADLUtils` (`LoadAndInit`, `Unload`, `Reset`, the three queries), and
proves properties of these definitions.

Conventions of the embedding.

* A C string (a `char` array read up to its terminating NUL) is a `List Char`
  holding the characters before the NUL.
* `size_t` is 64 bits wide (`_WIN64`); arithmetic on it is taken modulo `2 ^ 64`.
* A `std::string_view` is the C string starting at `data()` together with its
  `size()`; this keeps what `data()` really points at, which matters because
  the source hands `strToken.data()` to `std::stringstream::str`.
* Code that can throw, abort or run into undefined behaviour returns
  `Except Fault _`.
* The platform loader, the allocator and the vendor library are an `Env`:
  their answers may depend on the number of external calls made so far, so
  an `Env` stands for an arbitrary deterministic behaviour.
-/

namespace ADLUtil

/-! ## Machine integers and faults -/

/-- Modulus of `size_t` arithmetic (64-bit build). -/
def SIZE_MOD : Nat := 2 ^ 64

/-- The constant `std::string_view::npos`, that is `size_t(-1)`. -/
def npos : Nat := 2 ^ 64 - 1

/-- Modulus of `unsigned int` arithmetic. -/
def UINT_MOD : Nat := 2 ^ 32

/-- Abnormal ways in which the embedded code can stop. -/
inductive Fault
  /-- The exception `std::out_of_range` thrown by `string_view::substr` when `pos > size()` -/
  | out_of_range
  /-- The member `string_view::operator[]` used with `pos >= size()` (undefined behaviour) -/
  | out_of_bounds
  /-- The statement `assert(false)` reached in `adl_from_chars` (builds without `NDEBUG`) -/
  | assert_failed
  /-- a call through an entry point that is `nullptr` -/
  | null_call
  /-- the iteration bound of the embedding was reached (see `trimLoop`) -/
  | out_of_fuel
  deriving DecidableEq, Repr

deriving instance DecidableEq for Except

/-! ## `std::string_view` -/

/-- A `std::string_view`: `data` is the C string found at `data()` (it may run
past the view), `size` is `size()`. -/
structure string_view where
  data : List Char
  size : Nat
  deriving DecidableEq, Repr

namespace string_view

/-- Construction from a NUL-terminated `char` array (`string_view(const char*)`). -/
def ofCStr (s : List Char) : string_view := ⟨s, s.length⟩

/-- The characters of the view, `[data(), data() + size())`. -/
def chars (sv : string_view) : List Char := sv.data.take sv.size

/-- Index of the first element equal to `c`, if any. -/
def findCharIdx (c : Char) : List Char → Option Nat
  | [] => none
  | x :: xs => if x = c then some 0 else (findCharIdx c xs).map (· + 1)

/-- Index of the first position at which `needle` starts, if any. -/
def findStrIdx (needle : List Char) : List Char → Option Nat
  | [] => if needle.isPrefixOf [] then some 0 else none
  | x :: xs =>
    if needle.isPrefixOf (x :: xs) then some 0 else (findStrIdx needle xs).map (· + 1)

/-- The member `find(char)`: position of the first occurrence in the view, else `npos`. -/
def find (sv : string_view) (c : Char) : Nat :=
  (findCharIdx c sv.chars).getD npos

/-- The member `find(const char*)`: position of the first occurrence of the
string in the view, else `npos`. -/
def findStr (sv : string_view) (needle : List Char) : Nat :=
  (findStrIdx needle sv.chars).getD npos

/-- The member `substr(pos, n)`: throws `std::out_of_range` when `pos > size()`,
otherwise the view of `min(n, size() - pos)` characters starting at `pos`. -/
def substr (sv : string_view) (pos n : Nat) : Except Fault string_view :=
  if pos > sv.size then .error .out_of_range
  else .ok ⟨sv.data.drop pos, min n (sv.size - pos)⟩

/-- The member `remove_prefix(n)`: moves the start of the view forward by `n`. -/
def removePrefix (sv : string_view) (n : Nat) : string_view :=
  ⟨sv.data.drop n, sv.size - n⟩

/-- The member `operator[]`: undefined behaviour unless `pos < size()`. -/
def index (sv : string_view) (pos : Nat) : Except Fault Char :=
  if pos < sv.size then
    match sv.data.get? pos with
    | some c => .ok c
    | none => .error .out_of_bounds
  else .error .out_of_bounds

end string_view

/-! ## Number parsing -/

/-- The function `isspace` in the "C" locale. -/
def isspace (c : Char) : Bool :=
  c = ' ' || c = '\t' || c = '\n' || c = '\x0b' || c = '\x0c' || c = '\r'

/-- Value of a character as a digit (`0-9`, `a-z`, `A-Z`), if it is one. -/
def digitOf (c : Char) : Option Nat :=
  let n := c.toNat
  if 48 ≤ n ∧ n ≤ 57 then some (n - 48)
  else if 97 ≤ n ∧ n ≤ 122 then some (n - 97 + 10)
  else if 65 ≤ n ∧ n ≤ 90 then some (n - 65 + 10)
  else none

/-- Whether `c` is a digit of the given base. -/
def isDigitIn (base : Nat) (c : Char) : Bool :=
  match digitOf c with
  | some d => decide (d < base)
  | none => false

/-- Value of a digit string in the given base (most significant digit first). -/
def digitsValue (base : Nat) (ds : List Char) : Nat :=
  ds.foldl (fun acc c => base * acc + (digitOf c).getD 0) 0

/-- The optional sign read by formatted extraction: whether it is a minus, and
the rest of the input. -/
def readSign : List Char → Bool × List Char
  | '-' :: r => (true, r)
  | '+' :: r => (false, r)
  | t => (false, t)

/-- Formatted extraction `stream >> unsignedInt` from a stream holding the C
string `s`, with the default flags (`skipws`, `dec`): leading white space is
skipped, one optional sign is read, then the longest run of decimal digits.
`none` is `failbit` (no digits, or a magnitude that does not fit `unsigned
int`); a leading minus negates the value modulo `2 ^ 32`. -/
def extractUnsigned (s : List Char) : Option Nat :=
  let signed := readSign (s.dropWhile isspace)
  let ds := signed.2.takeWhile (isDigitIn 10)
  if ds.isEmpty then none
  else
    let v := digitsValue 10 ds
    if v ≥ UINT_MOD then none
    else some (if signed.1 then (UINT_MOD - v) % UINT_MOD else v)

/-- Range of `int`. -/
def INT_MIN : Int := -(2 ^ 31)

/-- Range of `int`. -/
def INT_MAX : Int := 2 ^ 31 - 1

/-- The optional minus sign read by `std::from_chars` (a plus sign is not
accepted): whether it is there, and the rest of the input. -/
def readMinus : List Char → Bool × List Char
  | '-' :: r => (true, r)
  | t => (false, t)

/-- The call `std::from_chars(first, last, result, base)` for `int`: an optional
minus sign, then the longest run of digits of the base. `none` is an error code
(`invalid_argument` when there is no digit, `result_out_of_range` when the
value does not fit `int`). -/
def from_chars (base : Nat) (s : List Char) : Option Int :=
  let signed := readMinus s
  let ds := signed.2.takeWhile (isDigitIn base)
  if ds.isEmpty then none
  else
    let v : Int := if signed.1 then -(digitsValue base ds : Int) else (digitsValue base ds : Int)
    if v < INT_MIN ∨ INT_MAX < v then none else some v

/-- The template `adl_from_chars<base>` (ADLUtil.cpp 38-50). On a conversion
error the source runs `assert(false)` and then `return 0`; `ndebug` says
whether the build defines `NDEBUG`. -/
def adl_from_chars (ndebug : Bool) (base : Nat) (str : string_view) : Except Fault Int :=
  match from_chars base str.chars with
  | some result => .ok result
  | none => if ndebug then .ok 0 else .error .assert_failed

/-! ## `GetDriverVersion`: the parsing of the raw driver string -/

/-- The sub-minor stage of `GetDriverVersion` (ADLUtil.cpp 399-421), run on what
is left of `strDriverVersion` when `subMinorAvailable` is set: the value of
`subMinorVer`. -/
def parseSubMinor (strDriverVersion : string_view) : Except Fault Nat :=
  let pos := strDriverVersion.find '.'
  let token := if pos ≠ npos then strDriverVersion.substr 0 pos else .ok strDriverVersion
  match token with
  | .error e => .error e
  | .ok strToken => .ok ((extractUnsigned strToken.data).getD 0)

/-- The minor stage of `GetDriverVersion` and what follows it (ADLUtil.cpp
375-421), run on the current `strDriverVersion`: the values of `minorVer` and
`subMinorVer`. -/
def parseMinor (strDriverVersion : string_view) : Except Fault (Nat × Nat) :=
  let pos := strDriverVersion.find '.'
  if pos ≠ npos then
    match strDriverVersion.substr 0 pos with
    | .error e => .error e
    | .ok strToken =>
      let minorVer := (extractUnsigned strToken.data).getD 0
      match parseSubMinor (strDriverVersion.removePrefix ((pos + 1) % SIZE_MOD)) with
      | .error e => .error e
      | .ok subMinorVer => .ok (minorVer, subMinorVer)
  else
    .ok ((extractUnsigned strDriverVersion.data).getD 0, 0)

/-- The body of `GetDriverVersion` under `if (adlResult == ADL_SUCCESS)`
(ADLUtil.cpp 348-422), as a function of `driverVerInfo.strDriverVer`; the
result is `(majorVer, minorVer, subMinorVer)`. Each `ss.str(strToken.data())`
loads the stream with the C string at `strToken.data()`; the prefix is removed
from `strDriverVersion` only when the major token was read. -/
def parseDriverVersion (strDriverVer : List Char) : Except Fault (Nat × Nat × Nat) :=
  let whole := string_view.ofCStr strDriverVer
  -- truncate at the first dash
  match whole.substr 0 (whole.find '-') with
  | .error e => .error e
  | .ok strDriverVersion =>
    -- parse the major driver version
    let pos := strDriverVersion.find '.'
    if pos ≠ npos then
      match strDriverVersion.substr 0 pos with
      | .error e => .error e
      | .ok strToken =>
        match extractUnsigned strToken.data with
        | none =>
          match parseMinor strDriverVersion with
          | .error e => .error e
          | .ok (minorVer, subMinorVer) => .ok (0, minorVer, subMinorVer)
        | some majorVer =>
          match parseMinor (strDriverVersion.removePrefix ((pos + 1) % SIZE_MOD)) with
          | .error e => .error e
          | .ok (minorVer, subMinorVer) => .ok (majorVer, minorVer, subMinorVer)
    else .ok (0, 0, 0)

/-! ## The adapter loop of `GetAsicInfoList` -/

/-- Modelled from the spec: the ADL SDK header `adl_sdk.h` is not among the
sources. These are the four `char` array fields of its `AdapterInfo` record
that the loop reads (display name, composite identifier string, two driver
paths), each as a C string. -/
structure AdapterInfo where
  strUDID : List Char
  strAdapterName : List Char
  strDriverPath : List Char
  strDriverPathExt : List Char
  deriving DecidableEq, Repr

/-- A record of the scratch buffer after `memset(lpAdapterInfo, 0, ...)`. -/
def AdapterInfo.zero : AdapterInfo := ⟨[], [], [], []⟩

/-- The record `ADLUtil_ASICInfo` (ADLUtil.h 36-48). -/
structure ADLUtil_ASICInfo where
  adapterName : List Char
  deviceIDString : List Char
  vendorID : Int
  deviceID : Int
  revID : Int
  gpuIndex : Nat
  registryPath : List Char
  registryPathExt : List Char
  deriving DecidableEq, Repr

/-- The type `AsicInfoList`. -/
abbrev AsicInfoList := List ADLUtil_ASICInfo

/-- The loop `while (adapterName[lastNonSpace] == ' ') --lastNonSpace;`
(ADLUtil.cpp 232-235), started at `lastNonSpace`; the first argument bounds the
number of tests of the loop condition. -/
def trimLoop (adapterName : string_view) : Nat → Nat → Except Fault Nat
  | 0, _ => .error .out_of_fuel
  | fuel + 1, lastNonSpace =>
    match adapterName.index lastNonSpace with
    | .error e => .error e
    | .ok c =>
      if c = ' ' then trimLoop adapterName fuel ((lastNonSpace + SIZE_MOD - 1) % SIZE_MOD)
      else .ok lastNonSpace

/-- Trimming of trailing spaces (ADLUtil.cpp 229-238): the value assigned to
`asicInfo.adapterName`. The loop condition is tested at most `size() + 1`
times: once per character, and once more after the position has wrapped. -/
def trimAdapterName (adapterName : string_view) : Except Fault (List Char) := do
  let lastNonSpace ← trimLoop adapterName (adapterName.size + 1)
    ((adapterName.size + SIZE_MOD - 1) % SIZE_MOD)
  let r ← adapterName.substr 0 ((lastNonSpace + 1) % SIZE_MOD)
  pure r.chars

/-- The marker of the vendor code. -/
def PCI_VEN : List Char := "PCI_VEN_".toList

/-- The marker of the device code. -/
def DEV : List Char := "&DEV_".toList

/-- The marker of the revision code. -/
def REV : List Char := "&REV_".toList

/-- The expression `adapterInfo.find(marker) + strlen(marker)` in `size_t`. -/
def markerIndex (adapterInfo : string_view) (marker : List Char) : Nat :=
  (adapterInfo.findStr marker + marker.length) % SIZE_MOD

/-- The vendor block (ADLUtil.cpp 241, 245-253): `asicInfo.vendorID`. -/
def parseVendorID (ndebug : Bool) (adapterInfo : string_view) : Except Fault Int :=
  let vendorIndex := markerIndex adapterInfo PCI_VEN
  if vendorIndex ≠ npos then do
    let vendorIDString ← adapterInfo.substr vendorIndex 4
    adl_from_chars ndebug 16 vendorIDString
  else pure 0

/-- The device block (ADLUtil.cpp 242, 255-264): `asicInfo.deviceIDString` and
`asicInfo.deviceID`. -/
def parseDeviceID (ndebug : Bool) (adapterInfo : string_view) :
    Except Fault (List Char × Int) :=
  let devIndex := markerIndex adapterInfo DEV
  if devIndex ≠ npos then do
    let s ← adapterInfo.substr devIndex 4
    let deviceIDString := s.chars
    let deviceID ← adl_from_chars ndebug 16 (string_view.ofCStr deviceIDString)
    pure (deviceIDString, deviceID)
  else pure ([], 0)

/-- The revision block (ADLUtil.cpp 243, 266-274): `asicInfo.revID`. -/
def parseRevID (ndebug : Bool) (adapterInfo : string_view) : Except Fault Int :=
  let revIndex := markerIndex adapterInfo REV
  if revIndex ≠ npos then do
    let revIDString ← adapterInfo.substr revIndex 2
    adl_from_chars ndebug 16 revIDString
  else pure 0

/-- The body of the adapter loop (ADLUtil.cpp 226-279): the record pushed onto
`m_asicInfoList` for the scratch-buffer record `info`. -/
def buildAsicInfo (ndebug : Bool) (info : AdapterInfo) : Except Fault ADLUtil_ASICInfo := do
  let adapterName := string_view.ofCStr info.strAdapterName
  let adapterInfo := string_view.ofCStr info.strUDID
  let name ← trimAdapterName adapterName
  let vendorID ← parseVendorID ndebug adapterInfo
  let dev ← parseDeviceID ndebug adapterInfo
  let revID ← parseRevID ndebug adapterInfo
  pure {
    adapterName := name
    deviceIDString := dev.1
    vendorID := vendorID
    deviceID := dev.2
    revID := revID
    gpuIndex := 0
    registryPath := info.strDriverPath
    registryPathExt := info.strDriverPathExt }

/-- The loop `for (int i = 0; i < numAdapter; ++i)` over the records read from
the scratch buffer: the records pushed, in order, unless a body faults. -/
def buildAsicInfos (ndebug : Bool) : List AdapterInfo → Except Fault (List ADLUtil_ASICInfo)
  | [] => .ok []
  | info :: rest =>
    match buildAsicInfo ndebug info with
    | .error e => .error e
    | .ok r =>
      match buildAsicInfos ndebug rest with
      | .error e => .error e
      | .ok rs => .ok (r :: rs)

/-! ## The singleton `AMDTADLUtils`: state, environment, operations -/

/-- The enumeration `ADLUtil_Result` (ADLUtil.h 53-64). -/
inductive ADLUtil_Result
  | ADL_RESULT_NONE
  | ADL_SUCCESS
  | ADL_NOT_FOUND
  | ADL_MISSING_ENTRYPOINTS
  | ADL_INITIALIZATION_FAILED
  | ADL_GET_ADAPTER_COUNT_FAILED
  | ADL_GET_ADAPTER_INFO_FAILED
  | ADL_GRAPHICS_VERSIONS_GET_FAILED
  | ADL_WARNING
  deriving DecidableEq, Repr

open ADLUtil_Result

/-- The entry points named by the X-macro `ADL_INTERFACE_TABLE` (ADLUtil.h 91-101). -/
inductive Sym
  | ADL_Main_Control_Create
  | ADL_Main_Control_Destroy
  | ADL2_Main_Control_Create
  | ADL2_Main_Control_Destroy
  | ADL_Adapter_NumberOfAdapters_Get
  | ADL_Adapter_AdapterInfo_Get
  | ADL2_Adapter_NumberOfAdapters_Get
  | ADL2_Adapter_AdapterInfo_Get
  | ADL_Graphics_Versions_Get
  | ADL2_Graphics_Versions_Get
  deriving DecidableEq, Repr

/-- The table `ADL_INTERFACE_TABLE`, in the order of the X-macro. -/
def ADL_INTERFACE_TABLE : List Sym :=
  [.ADL_Main_Control_Create, .ADL_Main_Control_Destroy,
   .ADL2_Main_Control_Create, .ADL2_Main_Control_Destroy,
   .ADL_Adapter_NumberOfAdapters_Get, .ADL_Adapter_AdapterInfo_Get,
   .ADL2_Adapter_NumberOfAdapters_Get, .ADL2_Adapter_AdapterInfo_Get,
   .ADL_Graphics_Versions_Get, .ADL2_Graphics_Versions_Get]

/-- The ten members `m_SYM` (ADLUtil.h 158-160): `true` when the pointer is not
`nullptr`. -/
structure FunctionTable where
  m_ADL_Main_Control_Create : Bool
  m_ADL_Main_Control_Destroy : Bool
  m_ADL2_Main_Control_Create : Bool
  m_ADL2_Main_Control_Destroy : Bool
  m_ADL_Adapter_NumberOfAdapters_Get : Bool
  m_ADL_Adapter_AdapterInfo_Get : Bool
  m_ADL2_Adapter_NumberOfAdapters_Get : Bool
  m_ADL2_Adapter_AdapterInfo_Get : Bool
  m_ADL_Graphics_Versions_Get : Bool
  m_ADL2_Graphics_Versions_Get : Bool
  deriving DecidableEq, Repr

/-- The table after `#define X(SYM) m_##SYM = nullptr;`. -/
def FunctionTable.clear : FunctionTable :=
  ⟨false, false, false, false, false, false, false, false, false, false⟩

/-- The member `m_SYM` for a symbol. -/
def FunctionTable.get (t : FunctionTable) : Sym → Bool
  | .ADL_Main_Control_Create => t.m_ADL_Main_Control_Create
  | .ADL_Main_Control_Destroy => t.m_ADL_Main_Control_Destroy
  | .ADL2_Main_Control_Create => t.m_ADL2_Main_Control_Create
  | .ADL2_Main_Control_Destroy => t.m_ADL2_Main_Control_Destroy
  | .ADL_Adapter_NumberOfAdapters_Get => t.m_ADL_Adapter_NumberOfAdapters_Get
  | .ADL_Adapter_AdapterInfo_Get => t.m_ADL_Adapter_AdapterInfo_Get
  | .ADL2_Adapter_NumberOfAdapters_Get => t.m_ADL2_Adapter_NumberOfAdapters_Get
  | .ADL2_Adapter_AdapterInfo_Get => t.m_ADL2_Adapter_AdapterInfo_Get
  | .ADL_Graphics_Versions_Get => t.m_ADL_Graphics_Versions_Get
  | .ADL2_Graphics_Versions_Get => t.m_ADL2_Graphics_Versions_Get

/-- The assignment `m_SYM = p` for a symbol. -/
def FunctionTable.set (t : FunctionTable) (sym : Sym) (p : Bool) : FunctionTable :=
  match sym with
  | .ADL_Main_Control_Create => { t with m_ADL_Main_Control_Create := p }
  | .ADL_Main_Control_Destroy => { t with m_ADL_Main_Control_Destroy := p }
  | .ADL2_Main_Control_Create => { t with m_ADL2_Main_Control_Create := p }
  | .ADL2_Main_Control_Destroy => { t with m_ADL2_Main_Control_Destroy := p }
  | .ADL_Adapter_NumberOfAdapters_Get => { t with m_ADL_Adapter_NumberOfAdapters_Get := p }
  | .ADL_Adapter_AdapterInfo_Get => { t with m_ADL_Adapter_AdapterInfo_Get := p }
  | .ADL2_Adapter_NumberOfAdapters_Get => { t with m_ADL2_Adapter_NumberOfAdapters_Get := p }
  | .ADL2_Adapter_AdapterInfo_Get => { t with m_ADL2_Adapter_AdapterInfo_Get := p }
  | .ADL_Graphics_Versions_Get => { t with m_ADL_Graphics_Versions_Get := p }
  | .ADL2_Graphics_Versions_Get => { t with m_ADL2_Graphics_Versions_Get := p }

/-- Modelled from the spec: the ADL SDK header `adl_sdk.h` is not among the
sources. The record `ADLVersionsInfo` is "an opaque raw version string plus
auxiliary fields"; the raw string is `strDriverVer`. -/
structure ADLVersionsInfo where
  strDriverVer : List Char
  strCatalystVersion : List Char
  strCatalystWebLink : List Char
  deriving DecidableEq, Repr

/-- Modelled from the spec: the vendor return code for success (`ADL_OK` of the
ADL SDK, which is not among the sources). -/
def ADL_OK : Int := 0

/-- Modelled from the spec: the vendor "advisory-warning" return code
(`ADL_OK_WARNING` of the ADL SDK), a code different from `ADL_OK`. -/
def ADL_OK_WARNING : Int := 1

/-- A call that leaves the program: to the platform loader, to the allocator,
or through a bound entry point of the vendor library. -/
inductive Event
  | LoadLibraryA
  | GetProcAddress (hModule : Option Nat) (sym : Sym)
  | FreeLibrary (hModule : Nat)
  | malloc
  | vendor (sym : Sym)
  deriving DecidableEq, Repr

/-- The behaviour of everything outside the program. The first argument of each
answer is the number of external calls made before this one, so the answers may
change from call to call in any way.

* `LoadLibraryA`: the handle returned (`none` is `nullptr`).
* `GetProcAddress`: whether the symbol resolves in the given module
  (`none` is the null handle).
* `malloc`: whether the scratch buffer is obtained.
* `Main_Control_Create`: the return code and the value left in `m_adlContext`
  (only the context-aware variant is given a pointer to it).
* `NumberOfAdapters_Get`: the return code and the value left in `numAdapter`.
* `AdapterInfo_Get`: the return code and the records left in the buffer.
* `Graphics_Versions_Get`: the return code and the value left in
  `m_adlVersionsInfo`.
* `ndebug`: whether the build defines `NDEBUG`. -/
structure Env where
  ndebug : Bool
  LoadLibraryA : Nat → Option Nat
  GetProcAddress : Nat → Option Nat → Sym → Bool
  malloc : Nat → Bool
  Main_Control_Create : Nat → Sym → Option Nat → Int × Option Nat
  NumberOfAdapters_Get : Nat → Sym → Int × Int
  AdapterInfo_Get : Nat → Sym → Int → Int × List AdapterInfo
  Graphics_Versions_Get : Nat → Sym → ADLVersionsInfo → Int × ADLVersionsInfo

/-- The data members of `AMDTADLUtils` (ADLUtil.h 148-160), and `calls`, the log
of the external calls made so far (oldest first). -/
structure AMDTADLUtils where
  m_libHandle : Option Nat
  m_adlContext : Option Nat
  m_asicInfoList : AsicInfoList
  m_adlVersionsInfo : ADLVersionsInfo
  m_asicInfoListRetVal : ADLUtil_Result
  m_versionRetVal : ADLUtil_Result
  table : FunctionTable
  calls : List Event
  deriving DecidableEq, Repr

/-- The constructor (ADLUtil.cpp 65-74); `m_adlVersionsInfo` is not initialised
by it and is given here. -/
def AMDTADLUtils.new (info : ADLVersionsInfo) : AMDTADLUtils :=
  { m_libHandle := none
    m_adlContext := none
    m_asicInfoList := []
    m_adlVersionsInfo := info
    m_asicInfoListRetVal := ADL_RESULT_NONE
    m_versionRetVal := ADL_RESULT_NONE
    table := FunctionTable.clear
    calls := [] }

/-- Records one external call. -/
def AMDTADLUtils.log (st : AMDTADLUtils) (e : Event) : AMDTADLUtils :=
  { st with calls := st.calls ++ [e] }

/-- The member `Reset` (ADLUtil.cpp 428-433). -/
def Reset (st : AMDTADLUtils) : AMDTADLUtils :=
  { st with
    m_asicInfoList := []
    m_asicInfoListRetVal := ADL_RESULT_NONE
    m_versionRetVal := ADL_RESULT_NONE }

/-- The destroy step of `Unload` (ADLUtil.cpp 142-153). -/
def destroyContext (st : AMDTADLUtils) : AMDTADLUtils :=
  if st.table.m_ADL2_Main_Control_Destroy then
    match st.m_adlContext with
    | some _ => { st.log (.vendor .ADL2_Main_Control_Destroy) with m_adlContext := none }
    | none => st
  else if st.table.m_ADL_Main_Control_Destroy then
    st.log (.vendor .ADL_Main_Control_Destroy)
  else st

/-- The member `Unload` (ADLUtil.cpp 136-166). -/
def Unload (st : AMDTADLUtils) : ADLUtil_Result × AMDTADLUtils :=
  match st.m_libHandle with
  | some h =>
    let st1 := destroyContext st
    (ADL_SUCCESS,
      Reset { st1.log (.FreeLibrary h) with m_libHandle := none, table := FunctionTable.clear })
  | none => (ADL_SUCCESS, Reset st)

/-- The assignment `m_SYM = (SYM_fn)::GetProcAddress(m_libHandle, "SYM")`
(ADLUtil.cpp 101). -/
def resolveEntry (env : Env) (st : AMDTADLUtils) (sym : Sym) : AMDTADLUtils :=
  { st.log (.GetProcAddress st.m_libHandle sym) with
    table := st.table.set sym (env.GetProcAddress st.calls.length st.m_libHandle sym) }

/-- One expansion of the macro `X(SYM)` in `LoadAndInit` (ADLUtil.cpp 100-106),
acting on the local `result` and on the object. -/
def bindEntry (env : Env) (acc : ADLUtil_Result × AMDTADLUtils) (sym : Sym) :
    ADLUtil_Result × AMDTADLUtils :=
  let st1 := resolveEntry env acc.2 sym
  if env.GetProcAddress acc.2.calls.length acc.2.m_libHandle sym then (acc.1, st1)
  else (ADL_MISSING_ENTRYPOINTS, (Unload st1).2)

/-- The initialisation step of `LoadAndInit` (ADLUtil.cpp 110-130), run when the
local `result` is `ADL_SUCCESS`. -/
def createContext (env : Env) (st : AMDTADLUtils) :
    Except Fault (ADLUtil_Result × AMDTADLUtils) :=
  if st.table.m_ADL2_Main_Control_Create then
    let r := env.Main_Control_Create st.calls.length .ADL2_Main_Control_Create st.m_adlContext
    let st1 := { st.log (.vendor .ADL2_Main_Control_Create) with m_adlContext := r.2 }
    if r.1 ≠ ADL_OK ∧ r.1 ≠ ADL_OK_WARNING then
      .ok (ADL_INITIALIZATION_FAILED, (Unload st1).2)
    else .ok (ADL_SUCCESS, st1)
  else if st.table.m_ADL_Main_Control_Create then
    let r := env.Main_Control_Create st.calls.length .ADL_Main_Control_Create st.m_adlContext
    let st1 := st.log (.vendor .ADL_Main_Control_Create)
    if r.1 ≠ ADL_OK ∧ r.1 ≠ ADL_OK_WARNING then
      .ok (ADL_INITIALIZATION_FAILED, (Unload st1).2)
    else .ok (ADL_SUCCESS, st1)
  else .error .null_call

/-- The assignment `m_libHandle = LoadLibraryA(...)` (ADLUtil.cpp 87-93). -/
def loadLibrary (env : Env) (st : AMDTADLUtils) : AMDTADLUtils :=
  { st.log .LoadLibraryA with m_libHandle := env.LoadLibraryA st.calls.length }

/-- The member `LoadAndInit` (ADLUtil.cpp 81-134). -/
def LoadAndInit (env : Env) (st : AMDTADLUtils) :
    Except Fault (ADLUtil_Result × AMDTADLUtils) :=
  match st.m_libHandle with
  | some _ => .ok (ADL_SUCCESS, st)
  | none =>
    let st1 := loadLibrary env st
    let result := if st1.m_libHandle = none then ADL_NOT_FOUND else ADL_SUCCESS
    let acc := ADL_INTERFACE_TABLE.foldl (bindEntry env) (result, st1)
    if acc.1 = ADL_SUCCESS then createContext env acc.2
    else .ok acc

/-- The adapter-count query (ADLUtil.cpp 179-192): the return code, `numAdapter`
and the state after the call. -/
def queryNumAdapters (env : Env) (st : AMDTADLUtils) :
    Except Fault (Int × Int × AMDTADLUtils) :=
  if st.table.m_ADL2_Adapter_NumberOfAdapters_Get then
    let r := env.NumberOfAdapters_Get st.calls.length .ADL2_Adapter_NumberOfAdapters_Get
    .ok (r.1, r.2, st.log (.vendor .ADL2_Adapter_NumberOfAdapters_Get))
  else if st.table.m_ADL_Adapter_NumberOfAdapters_Get then
    let r := env.NumberOfAdapters_Get st.calls.length .ADL_Adapter_NumberOfAdapters_Get
    .ok (r.1, r.2, st.log (.vendor .ADL_Adapter_NumberOfAdapters_Get))
  else .error .null_call

/-- The adapter-info query (ADLUtil.cpp 210-220): the return code, the records
`lpAdapterInfo[0 .. numAdapter)` after the call (the buffer was zero-filled
before it), and the state after the call. -/
def queryAdapterInfo (env : Env) (st : AMDTADLUtils) (numAdapter : Int) :
    Except Fault (Int × List AdapterInfo × AMDTADLUtils) :=
  let buffer := fun (r : Int × List AdapterInfo) =>
    (List.range numAdapter.toNat).map (fun i => r.2.getD i AdapterInfo.zero)
  if st.table.m_ADL2_Adapter_AdapterInfo_Get then
    let r := env.AdapterInfo_Get st.calls.length .ADL2_Adapter_AdapterInfo_Get numAdapter
    .ok (r.1, buffer r, st.log (.vendor .ADL2_Adapter_AdapterInfo_Get))
  else if st.table.m_ADL_Adapter_AdapterInfo_Get then
    let r := env.AdapterInfo_Get st.calls.length .ADL_Adapter_AdapterInfo_Get numAdapter
    .ok (r.1, buffer r, st.log (.vendor .ADL_Adapter_AdapterInfo_Get))
  else .error .null_call

/-- The part of `GetAsicInfoList` run after `LoadAndInit` has given
`ADL_SUCCESS` (ADLUtil.cpp 179-290). The flag of the result is `true` when the
function leaves through `return ADL_GET_ADAPTER_INFO_FAILED` on line 206. -/
def enumerateAdapters (env : Env) (st : AMDTADLUtils) :
    Except Fault (Bool × AMDTADLUtils) :=
  match queryNumAdapters env st with
  | .error e => .error e
  | .ok (adlResult, numAdapter, st1) =>
    if ADL_OK ≠ adlResult then
      .ok (false, { st1 with m_asicInfoListRetVal := ADL_GET_ADAPTER_COUNT_FAILED })
    else if 0 < numAdapter then
      if env.malloc st1.calls.length = false then
        .ok (true, st1.log .malloc)
      else
        match queryAdapterInfo env (st1.log .malloc) numAdapter with
        | .error e => .error e
        | .ok (adlResult2, lpAdapterInfo, st3) =>
          if ADL_OK = adlResult2 then
            match buildAsicInfos env.ndebug lpAdapterInfo with
            | .error e => .error e
            | .ok pushed =>
              .ok (false, { st3 with m_asicInfoList := st3.m_asicInfoList ++ pushed })
          else
            .ok (false, { st3 with m_asicInfoListRetVal := ADL_GET_ADAPTER_INFO_FAILED })
    else .ok (false, st1)

/-- The member `GetAsicInfoList` (ADLUtil.cpp 169-296). The argument
`asicInfoList` is the caller's list before the call; the result holds the
returned status, the caller's list after the call, and the new state. -/
def GetAsicInfoList (env : Env) (st : AMDTADLUtils) (asicInfoList : AsicInfoList) :
    Except Fault (ADLUtil_Result × AsicInfoList × AMDTADLUtils) :=
  if st.m_asicInfoListRetVal = ADL_RESULT_NONE then
    match LoadAndInit env st with
    | .error e => .error e
    | .ok (result, st0) =>
      let st1 := { st0 with m_asicInfoListRetVal := result }
      if result = ADL_SUCCESS then
        match enumerateAdapters env st1 with
        | .error e => .error e
        | .ok (true, st2) => .ok (ADL_GET_ADAPTER_INFO_FAILED, asicInfoList, st2)
        | .ok (false, st2) => .ok (st2.m_asicInfoListRetVal, st2.m_asicInfoList, st2)
      else .ok (st1.m_asicInfoListRetVal, st1.m_asicInfoList, st1)
  else .ok (st.m_asicInfoListRetVal, st.m_asicInfoList, st)

/-- The version query (ADLUtil.cpp 308-317): the return code and the state after
the call, which wrote `m_adlVersionsInfo`. -/
def queryVersions (env : Env) (st : AMDTADLUtils) : Except Fault (Int × AMDTADLUtils) :=
  if st.table.m_ADL2_Graphics_Versions_Get then
    let r := env.Graphics_Versions_Get st.calls.length .ADL2_Graphics_Versions_Get
      st.m_adlVersionsInfo
    .ok (r.1, { st.log (.vendor .ADL2_Graphics_Versions_Get) with m_adlVersionsInfo := r.2 })
  else if st.table.m_ADL_Graphics_Versions_Get then
    let r := env.Graphics_Versions_Get st.calls.length .ADL_Graphics_Versions_Get
      st.m_adlVersionsInfo
    .ok (r.1, { st.log (.vendor .ADL_Graphics_Versions_Get) with m_adlVersionsInfo := r.2 })
  else .error .null_call

/-- The member `GetADLVersionsInfo` (ADLUtil.cpp 298-335): the returned status,
the value assigned to `adlVersionInfo`, and the new state. -/
def GetADLVersionsInfo (env : Env) (st : AMDTADLUtils) :
    Except Fault (ADLUtil_Result × ADLVersionsInfo × AMDTADLUtils) :=
  if st.m_versionRetVal = ADL_RESULT_NONE then
    match LoadAndInit env st with
    | .error e => .error e
    | .ok (result, st0) =>
      let st1 := { st0 with m_versionRetVal := result }
      if result = ADL_SUCCESS then
        match queryVersions env st1 with
        | .error e => .error e
        | .ok (adlResult, st2) =>
          let st3 :=
            if ADL_OK ≠ adlResult then
              if ADL_OK_WARNING = adlResult then { st2 with m_versionRetVal := ADL_WARNING }
              else { st2 with m_versionRetVal := ADL_GRAPHICS_VERSIONS_GET_FAILED }
            else st2
          .ok (st3.m_versionRetVal, st3.m_adlVersionsInfo, st3)
      else .ok (st1.m_versionRetVal, st1.m_adlVersionsInfo, st1)
  else .ok (st.m_versionRetVal, st.m_adlVersionsInfo, st)

/-- The member `GetDriverVersion` (ADLUtil.cpp 337-426): the returned status,
`majorVer`, `minorVer`, `subMinorVer`, and the new state. -/
def GetDriverVersion (env : Env) (st : AMDTADLUtils) :
    Except Fault (ADLUtil_Result × Nat × Nat × Nat × AMDTADLUtils) :=
  match GetADLVersionsInfo env st with
  | .error e => .error e
  | .ok (adlResult, driverVerInfo, st1) =>
    if adlResult = ADL_SUCCESS then
      match parseDriverVersion driverVerInfo.strDriverVer with
      | .error e => .error e
      | .ok (majorVer, minorVer, subMinorVer) =>
        .ok (ADL_SUCCESS, majorVer, minorVer, subMinorVer, st1)
    else .ok (adlResult, 0, 0, 0, st1)

/-! ## Sequences of public operations -/

/-- The public operations of `AMDTADLUtils` (ADLUtil.h 111-139). -/
inductive Op
  | LoadAndInit
  | Unload
  | Reset
  | GetAsicInfoList
  | GetADLVersionsInfo
  | GetDriverVersion
  deriving DecidableEq, Repr

/-- The state after one public operation (its outputs are dropped; the list
handed to `GetAsicInfoList` is empty). -/
def step (env : Env) (st : AMDTADLUtils) : Op → Except Fault AMDTADLUtils
  | .LoadAndInit => (LoadAndInit env st).map (·.2)
  | .Unload => .ok (Unload st).2
  | .Reset => .ok (Reset st)
  | .GetAsicInfoList => (GetAsicInfoList env st []).map (·.2.2)
  | .GetADLVersionsInfo => (GetADLVersionsInfo env st).map (·.2.2)
  | .GetDriverVersion => (GetDriverVersion env st).map (·.2.2.2.2)

/-- The state after a sequence of public operations, run one after the other. -/
def run (env : Env) (st : AMDTADLUtils) : List Op → Except Fault AMDTADLUtils
  | [] => .ok st
  | op :: ops =>
    match step env st op with
    | .error e => .error e
    | .ok st1 => run env st1 ops

/-- The external calls made between state `st` and a later state `st1`. -/
def callsSince (st st1 : AMDTADLUtils) : List Event :=
  st1.calls.drop st.calls.length

/-- A call of a vendor adapter-count entry point (either generation). -/
def Event.isAdapterCount : Event → Bool
  | .vendor .ADL_Adapter_NumberOfAdapters_Get => true
  | .vendor .ADL2_Adapter_NumberOfAdapters_Get => true
  | _ => false

/-- A call of a vendor adapter-info entry point (either generation). -/
def Event.isAdapterInfo : Event → Bool
  | .vendor .ADL_Adapter_AdapterInfo_Get => true
  | .vendor .ADL2_Adapter_AdapterInfo_Get => true
  | _ => false

/-- A call of a vendor context-creation entry point (either generation). -/
def Event.isCreate : Event → Bool
  | .vendor .ADL_Main_Control_Create => true
  | .vendor .ADL2_Main_Control_Create => true
  | _ => false

/-- A call that belongs to loading, binding, initialising or unloading the
library. -/
def Event.isLifecycle : Event → Bool
  | .LoadLibraryA => true
  | .GetProcAddress _ _ => true
  | .FreeLibrary _ => true
  | .vendor .ADL_Main_Control_Create => true
  | .vendor .ADL2_Main_Control_Create => true
  | .vendor .ADL_Main_Control_Destroy => true
  | .vendor .ADL2_Main_Control_Destroy => true
  | _ => false

/-! ## Vocabulary of the statements -/

/-- A decimal numeral whose value fits `unsigned int`: a non-empty string of
decimal digits with value below `2 ^ 32`. -/
def IsNumeral (a : List Char) : Prop :=
  a ≠ [] ∧ (∀ c ∈ a, isDigitIn 10 c = true) ∧ digitsValue 10 a < UINT_MOD

/-- A string of exactly `n` hexadecimal digits. -/
def IsHex (n : Nat) (ds : List Char) : Prop :=
  ds.length = n ∧ ∀ c ∈ ds, isDigitIn 16 c = true

/-- The characters of a string before its first dash. -/
def beforeDash (s : List Char) : List Char := s.takeWhile (· ≠ '-')

/-- The state held by a result, for runs that are known to return. -/
def stateAfter (r : Except Fault AMDTADLUtils) : AMDTADLUtils :=
  match r with
  | .ok st => st
  | .error _ => AMDTADLUtils.new ⟨[], [], []⟩

/-! ## Sample environments -/

/-- An environment in which everything works: the image loads (handle `1`),
every symbol resolves in a loaded image and none in the null module, context
creation gives `ADL_OK`, the vendor reports the given adapters and the given
raw driver string, allocations succeed. -/
def Env.healthy (strDriverVer : List Char) (adapters : List AdapterInfo) : Env :=
  { ndebug := true
    LoadLibraryA := fun _ => some 1
    GetProcAddress := fun _ h _ => h.isSome
    malloc := fun _ => true
    Main_Control_Create := fun _ _ _ => (ADL_OK, some 1)
    NumberOfAdapters_Get := fun _ _ => (ADL_OK, (adapters.length : Int))
    AdapterInfo_Get := fun _ _ _ => (ADL_OK, adapters)
    Graphics_Versions_Get := fun _ _ _ => (ADL_OK, ⟨strDriverVer, [], []⟩) }

/-- An environment without the vendor library: the image does not load, and no
symbol resolves in the null module. -/
def Env.noLibrary : Env :=
  { Env.healthy [] [] with
    LoadLibraryA := fun _ => none
    GetProcAddress := fun _ _ _ => false }

/-- An environment whose library exports the five legacy entry points only. -/
def Env.legacyOnly : Env :=
  { Env.healthy [] [] with
    GetProcAddress := fun _ h sym =>
      h.isSome && (sym = .ADL_Main_Control_Create || sym = .ADL_Main_Control_Destroy ||
        sym = .ADL_Adapter_NumberOfAdapters_Get || sym = .ADL_Adapter_AdapterInfo_Get ||
        sym = .ADL_Graphics_Versions_Get) }

/-- An environment in which the vendor reports the given adapters and the
allocation of the scratch buffer fails. -/
def Env.allocationFails (adapters : List AdapterInfo) : Env :=
  { Env.healthy [] adapters with malloc := fun _ => false }

/-- A sample adapter record: a display name with three trailing spaces and a
composite identifier string with the three markers. -/
def AdapterInfo.sample : AdapterInfo :=
  { strUDID := "PCI_VEN_1002&DEV_67DF&REV_C1".toList
    strAdapterName := "Radeon RX 6800   ".toList
    strDriverPath := []
    strDriverPathExt := [] }

/-- The freshly constructed singleton. -/
def AMDTADLUtils.fresh : AMDTADLUtils := AMDTADLUtils.new ⟨[], [], []⟩

/-- The table with all ten entry points bound. -/
def FunctionTable.full : FunctionTable :=
  ⟨true, true, true, true, true, true, true, true, true, true⟩

/-- A call of a vendor version entry point (either generation). -/
def Event.isVersionsGet : Event → Bool
  | .vendor .ADL_Graphics_Versions_Get => true
  | .vendor .ADL2_Graphics_Versions_Get => true
  | _ => false

/-- A healthy environment whose context-creation call returns the given code. -/
def Env.createCode (code : Int) : Env :=
  { Env.healthy [] [] with Main_Control_Create := fun _ _ _ => (code, some 1) }

/-- A healthy environment whose version query returns the given code. -/
def Env.versionCode (code : Int) (strDriverVer : List Char) : Env :=
  { Env.healthy strDriverVer [] with
    Graphics_Versions_Get := fun _ _ _ => (code, ⟨strDriverVer, [], []⟩) }

/-- The status cached by `GetADLVersionsInfo` for a return code of the vendor
version query (ADLUtil.cpp 319-329). -/
def versionStatusOf (adlResult : Int) : ADLUtil_Result :=
  if adlResult = ADL_OK then ADL_SUCCESS
  else if adlResult = ADL_OK_WARNING then ADL_WARNING
  else ADL_GRAPHICS_VERSIONS_GET_FAILED

/-- A healthy environment that reports the given adapter count and hands out the
given records. -/
def Env.adapterCount (n : Int) (adapters : List AdapterInfo) : Env :=
  { Env.healthy [] adapters with NumberOfAdapters_Get := fun _ _ => (ADL_OK, n) }

/-- A second sample adapter record, different from `AdapterInfo.sample`. -/
def AdapterInfo.second : AdapterInfo :=
  { strUDID := "PCI_VEN_1002&DEV_73E3&REV_00".toList
    strAdapterName := "Radeon Pro W6600".toList
    strDriverPath := []
    strDriverPathExt := [] }

/-- The singleton after an adapter query and a version query against a healthy
library with one adapter: loaded, both caches filled. -/
def AMDTADLUtils.queried : AMDTADLUtils :=
  stateAfter (run (Env.healthy "13.35.1005".toList [AdapterInfo.sample]) AMDTADLUtils.fresh
    [.GetAsicInfoList, .GetADLVersionsInfo])

/-- A call of a vendor context-destroy entry point (either generation). -/
def Event.isDestroy : Event → Bool
  | .vendor .ADL_Main_Control_Destroy => true
  | .vendor .ADL2_Main_Control_Destroy => true
  | _ => false

/-- A call through a legacy creation or query entry point: the `else` branches
of `LoadAndInit`, `GetAsicInfoList` and `GetADLVersionsInfo` (ADLUtil.cpp
120-123, 189-192, 217-220, 314-317). -/
def Event.isLegacyCreateOrQuery : Event → Bool
  | .vendor .ADL_Main_Control_Create => true
  | .vendor .ADL_Adapter_NumberOfAdapters_Get => true
  | .vendor .ADL_Adapter_AdapterInfo_Get => true
  | .vendor .ADL_Graphics_Versions_Get => true
  | _ => false

/-- A call made through a legacy fallback branch: a call of one of the five
legacy entry points, the four of `Event.isLegacyCreateOrQuery` and the legacy
destroy of `Unload` (ADLUtil.cpp 150-153). -/
def Event.isLegacyFallback : Event → Bool
  | .vendor .ADL_Main_Control_Create => true
  | .vendor .ADL_Main_Control_Destroy => true
  | .vendor .ADL_Adapter_NumberOfAdapters_Get => true
  | .vendor .ADL_Adapter_AdapterInfo_Get => true
  | .vendor .ADL_Graphics_Versions_Get => true
  | _ => false

/-- A call through a bound entry point of the vendor library. -/
def Event.isVendor : Event → Bool
  | .vendor _ => true
  | _ => false

/-- The record that the loop body builds from `AdapterInfo.sample`. -/
def ADLUtil_ASICInfo.sample : ADLUtil_ASICInfo :=
  { adapterName := "Radeon RX 6800".toList
    deviceIDString := "67DF".toList
    vendorID := 0x1002
    deviceID := 0x67DF
    revID := 0xC1
    gpuIndex := 0
    registryPath := []
    registryPathExt := [] }

/-! ## Lemmas and theorems -/

open string_view

theorem findCharIdx_append_cons (c : Char) (p s : List Char) (h : c ∉ p) :
    findCharIdx c (p ++ c :: s) = some p.length := by
  induction p with
  | nil => simp [findCharIdx]
  | cons x xs ih =>
    have hx : x ≠ c := fun e => h (by simp [e])
    have hxs : c ∉ xs := fun e => h (by simp [e])
    simp [findCharIdx, hx, ih hxs]

theorem findCharIdx_eq_none (c : Char) (l : List Char) (h : c ∉ l) :
    findCharIdx c l = none := by
  induction l with
  | nil => simp [findCharIdx]
  | cons x xs ih =>
    have hx : x ≠ c := fun e => h (by simp [e])
    have hxs : c ∉ xs := fun e => h (by simp [e])
    simp [findCharIdx, hx, ih hxs]

theorem findCharIdx_takeWhile (c : Char) (l : List Char) :
    (findCharIdx c l).getD l.length = (l.takeWhile (· ≠ c)).length := by
  induction l with
  | nil => simp [findCharIdx]
  | cons x xs ih =>
    by_cases hx : x = c
    · simp [findCharIdx, hx]
    · simp [findCharIdx, hx, List.takeWhile_cons]
      cases h : findCharIdx c xs <;> simp [h] at ih ⊢ <;> exact ih

theorem findCharIdx_lt (c : Char) (l : List Char) (i : Nat) (h : findCharIdx c l = some i) :
    i < l.length := by
  induction l generalizing i with
  | nil => simp [findCharIdx] at h
  | cons x xs ih =>
    by_cases hx : x = c
    · simp [findCharIdx, hx] at h; subst h; simp
    · simp [findCharIdx, hx] at h
      obtain ⟨j, hj, rfl⟩ := h
      have := ih j hj
      simp; omega

theorem take_length_takeWhile (p : Char → Bool) (l : List Char) :
    l.take (l.takeWhile p).length = l.takeWhile p := by
  induction l with
  | nil => simp
  | cons x xs ih =>
    by_cases hx : p x = true
    · simp [List.takeWhile_cons, hx, ih]
    · simp [List.takeWhile_cons, hx]

/-- Truncation at the first dash: the view keeps `data()` and covers the
characters before the first dash. -/
theorem truncate_at_dash (s : List Char) (hlen : s.length < SIZE_MOD) :
    (ofCStr s).substr 0 ((ofCStr s).find '-') = .ok ⟨s, (beforeDash s).length⟩ := by
  have hk := findCharIdx_takeWhile '-' s
  unfold beforeDash
  simp only [substr, ofCStr, find, chars, List.take_length]
  simp only [SIZE_MOD] at hlen
  cases h : findCharIdx '-' s with
  | none =>
    simp [h] at hk
    simp [npos, ← hk]
    omega
  | some i =>
    have := findCharIdx_lt _ _ _ h
    simp [h] at hk
    simp [← hk]
    omega

theorem find_of_chars (sv : string_view) (c : Char) (p s : List Char)
    (h : sv.chars = p ++ c :: s) (hc : c ∉ p) : sv.find c = p.length := by
  simp [find, h, findCharIdx_append_cons c p s hc]

theorem find_npos_of_chars (sv : string_view) (c : Char) (h : c ∉ sv.chars) :
    sv.find c = npos := by
  simp [find, findCharIdx_eq_none c _ h]

theorem substr_zero (sv : string_view) (n : Nat) :
    sv.substr 0 n = .ok ⟨sv.data, min n sv.size⟩ := by
  simp [substr]

theorem chars_removePrefix (sv : string_view) (n : Nat) :
    (sv.removePrefix n).chars = sv.chars.drop n := by
  simp [removePrefix, chars, List.drop_take]

theorem isDigitIn_ten_not_special (c : Char) (h : isDigitIn 10 c = true) :
    isspace c = false ∧ c ≠ '-' ∧ c ≠ '+' ∧ c ≠ '.' := by
  refine ⟨?_, ?_, ?_, ?_⟩
  · cases hs : isspace c with
    | false => rfl
    | true =>
      simp only [isspace, Bool.or_eq_true, decide_eq_true_eq] at hs
      rcases hs with ((((hs | hs) | hs) | hs) | hs) | hs <;> subst hs <;> exact absurd h (by decide)
  · intro e; subst e; exact absurd h (by decide)
  · intro e; subst e; exact absurd h (by decide)
  · intro e; subst e; exact absurd h (by decide)

theorem takeWhile_digits_append (base : Nat) (a rest : List Char)
    (hd : ∀ c ∈ a, isDigitIn base c = true)
    (hr : ∀ c, rest.head? = some c → isDigitIn base c = false) :
    (a ++ rest).takeWhile (isDigitIn base) = a := by
  rw [List.takeWhile_append_of_pos hd]
  cases rest with
  | nil => simp
  | cons y ys => simp [List.takeWhile_cons, hr y (by simp)]

/-- Extraction of an unsigned number from a stream that starts with a decimal
numeral followed by a character that is not a digit (or by nothing). -/
theorem extractUnsigned_numeral (a rest : List Char) (ha : a ≠ [])
    (hd : ∀ c ∈ a, isDigitIn 10 c = true) (hv : digitsValue 10 a < UINT_MOD)
    (hr : ∀ c, rest.head? = some c → isDigitIn 10 c = false) :
    extractUnsigned (a ++ rest) = some (digitsValue 10 a) := by
  obtain ⟨x, xs, rfl⟩ := List.exists_cons_of_ne_nil ha
  obtain ⟨hsp, hm, hp, -⟩ := isDigitIn_ten_not_special x (hd x (by simp))
  have htw := takeWhile_digits_append 10 (x :: xs) rest hd hr
  have hdw : ((x :: xs) ++ rest).dropWhile isspace = (x :: xs) ++ rest := by
    simp [List.dropWhile_cons, hsp]
  have hsign : readSign ((x :: xs) ++ rest) = (false, (x :: xs) ++ rest) := by
    simp only [List.cons_append]
    unfold readSign
    split
    · rename_i h; simp at h; exact absurd h.1 hm
    · rename_i h; simp at h; exact absurd h.1 hp
    · rfl
  unfold extractUnsigned
  rw [hdw]
  simp only []
  rw [hsign]
  simp only []
  rw [htw]
  simp [Nat.not_le.mpr hv]


theorem takeWhile_ne_of_digits (a rest : List Char) (x : Char) (hx : isDigitIn 10 x = false)
    (hd : ∀ c ∈ a, isDigitIn 10 c = true) :
    (a ++ rest).takeWhile (· ≠ x) = a ++ rest.takeWhile (· ≠ x) := by
  apply List.takeWhile_append_of_pos
  intro c hc
  have := hd c hc
  simp only [ne_eq, decide_not, Bool.not_eq_eq_eq_not, Bool.not_true, decide_eq_false_iff_not]
  intro e; subst e; simp [this] at hx

theorem not_mem_of_digits (a : List Char) (x : Char) (hx : isDigitIn 10 x = false)
    (hd : ∀ c ∈ a, isDigitIn 10 c = true) : x ∉ a := by
  intro h
  simp [hd x h] at hx

theorem parseSubMinor_eq (sv : string_view) :
    parseSubMinor sv = .ok ((extractUnsigned sv.data).getD 0) := by
  unfold parseSubMinor
  by_cases h : sv.find '.' = npos
  · simp [h]
  · simp [h, substr_zero]

theorem parseMinor_eq (sv : string_view) :
    parseMinor sv = .ok ((extractUnsigned sv.data).getD 0,
      if sv.find '.' ≠ npos then
        (extractUnsigned (sv.data.drop ((sv.find '.' + 1) % SIZE_MOD))).getD 0
      else 0) := by
  unfold parseMinor
  by_cases h : sv.find '.' = npos
  · simp [h]
  · simp [h, substr_zero, parseSubMinor_eq, removePrefix]

theorem parseDriverVersion_eq (s : List Char) (hlen : s.length < SIZE_MOD) :
    parseDriverVersion s =
      (let sv : string_view := ⟨s, (beforeDash s).length⟩
       let pos := sv.find '.'
       if pos ≠ npos then
         match extractUnsigned s with
         | none => .ok (0, (extractUnsigned s).getD 0,
             (extractUnsigned (s.drop ((pos + 1) % SIZE_MOD))).getD 0)
         | some majorVer =>
           let sv1 := sv.removePrefix ((pos + 1) % SIZE_MOD)
           .ok (majorVer, (extractUnsigned sv1.data).getD 0,
             if sv1.find '.' ≠ npos then
               (extractUnsigned (sv1.data.drop ((sv1.find '.' + 1) % SIZE_MOD))).getD 0
             else 0)
       else .ok (0, 0, 0)) := by
  unfold parseDriverVersion
  simp only [truncate_at_dash s hlen, substr_zero, parseMinor_eq]
  by_cases h : find ⟨s, (beforeDash s).length⟩ '.' = npos
  · simp [h]
  · cases hx : extractUnsigned s <;> simp [h]


theorem chars_truncated (s : List Char) :
    chars ⟨s, (beforeDash s).length⟩ = beforeDash s := by
  simp [chars, beforeDash, take_length_takeWhile]

theorem beforeDash_digits_append (a rest : List Char)
    (hd : ∀ c ∈ a, isDigitIn 10 c = true) :
    beforeDash (a ++ rest) = a ++ beforeDash rest := by
  unfold beforeDash
  exact takeWhile_ne_of_digits a rest '-' (by decide) hd

theorem beforeDash_dot (rest : List Char) :
    beforeDash ('.' :: rest) = '.' :: beforeDash rest := by
  simp [beforeDash, List.takeWhile_cons]

theorem parse_three (a b c tail : List Char) (ha : IsNumeral a) (hb : IsNumeral b)
    (hc : IsNumeral c)
    (ht : tail = [] ∨ tail.head? = some '-' ∨ tail.head? = some '.')
    (hlen : (a ++ '.' :: (b ++ '.' :: (c ++ tail))).length < SIZE_MOD) :
    parseDriverVersion (a ++ '.' :: (b ++ '.' :: (c ++ tail))) =
      .ok (digitsValue 10 a, digitsValue 10 b, digitsValue 10 c) := by
  obtain ⟨ha0, had, hav⟩ := ha
  obtain ⟨hb0, hbd, hbv⟩ := hb
  obtain ⟨hc0, hcd, hcv⟩ := hc
  have hdot : isDigitIn 10 '.' = false := by decide
  have hdash : isDigitIn 10 '-' = false := by decide
  have hnd : ∀ x, ('.' :: (b ++ '.' :: (c ++ tail))).head? = some x → isDigitIn 10 x = false := by
    intro x hx; simp at hx; subst hx; exact hdot
  have hnd2 : ∀ x, ('.' :: (c ++ tail)).head? = some x → isDigitIn 10 x = false := by
    intro x hx; simp at hx; subst hx; exact hdot
  have hnd3 : ∀ x, tail.head? = some x → isDigitIn 10 x = false := by
    intro x hx
    rcases ht with h | h | h
    · simp [h] at hx
    · rw [h] at hx; simp at hx; subst hx; exact hdash
    · rw [h] at hx; simp at hx; subst hx; exact hdot
  have hsz : (a ++ '.' :: (b ++ '.' :: (c ++ tail))).length < 2 ^ 64 := hlen
  simp only [List.length_append, List.length_cons] at hsz
  rw [parseDriverVersion_eq _ hlen]
  have hch0 : chars ⟨a ++ '.' :: (b ++ '.' :: (c ++ tail)),
      (beforeDash (a ++ '.' :: (b ++ '.' :: (c ++ tail)))).length⟩ =
      a ++ '.' :: (b ++ '.' :: (c ++ beforeDash tail)) := by
    rw [chars_truncated, beforeDash_digits_append a _ had, beforeDash_dot,
      beforeDash_digits_append b _ hbd, beforeDash_dot, beforeDash_digits_append c _ hcd]
  have hpos := find_of_chars _ '.' a _ hch0 (not_mem_of_digits a '.' hdot had)
  have hmod : (a.length + 1) % SIZE_MOD = a.length + 1 := by
    apply Nat.mod_eq_of_lt; simp only [SIZE_MOD]; omega
  have hne : a.length ≠ npos := by simp only [npos]; omega
  simp only [hpos, hmod, ne_eq, hne, not_false_eq_true, ↓reduceIte,
    extractUnsigned_numeral a _ ha0 had hav hnd]
  have hch1 : chars (removePrefix ⟨a ++ '.' :: (b ++ '.' :: (c ++ tail)),
      (beforeDash (a ++ '.' :: (b ++ '.' :: (c ++ tail)))).length⟩ (a.length + 1)) =
      b ++ '.' :: (c ++ beforeDash tail) := by
    rw [chars_removePrefix, hch0]
    simp
  have hdata1 : (removePrefix ⟨a ++ '.' :: (b ++ '.' :: (c ++ tail)),
      (beforeDash (a ++ '.' :: (b ++ '.' :: (c ++ tail)))).length⟩ (a.length + 1)).data =
      b ++ '.' :: (c ++ tail) := by
    simp [removePrefix]
  have hpos1 := find_of_chars _ '.' b _ hch1 (not_mem_of_digits b '.' hdot hbd)
  have hmod1 : (b.length + 1) % SIZE_MOD = b.length + 1 := by
    apply Nat.mod_eq_of_lt; simp only [SIZE_MOD]; omega
  have hne1 : b.length ≠ npos := by simp only [npos]; omega
  have hdrop : (b ++ '.' :: (c ++ tail)).drop (b.length + 1) = c ++ tail := by simp
  simp only [hpos1, hdata1, hmod1, hne1, ne_eq, not_false_eq_true, ↓reduceIte, hdrop,
    extractUnsigned_numeral b _ hb0 hbd hbv hnd2,
    extractUnsigned_numeral c _ hc0 hcd hcv hnd3, Option.getD_some]


/-- Every string is a part with no trailing space followed by a run of spaces. -/
theorem exists_trailing_spaces (raw : List Char) :
    ∃ (t : List Char) (k : Nat), raw = t ++ List.replicate k ' ' ∧ t.getLast? ≠ some ' ' := by
  induction raw with
  | nil => exact ⟨[], 0, by simp, by simp⟩
  | cons x xs ih =>
    obtain ⟨t, k, hxs, hl⟩ := ih
    cases t with
    | nil =>
      by_cases hx : x = ' '
      · refine ⟨[], k + 1, ?_, by simp⟩
        simp [hxs, hx, List.replicate_succ]
      · refine ⟨[x], k, by simp [hxs], ?_⟩
        simp [hx]
    | cons y ys =>
      refine ⟨x :: y :: ys, k, by simp [hxs], ?_⟩
      simpa [List.getLast?_cons_cons] using hl

theorem index_ofCStr (s : List Char) (i : Nat) (h : i < s.length) :
    (ofCStr s).index i = .ok (s.get ⟨i, h⟩) := by
  simp [index, ofCStr, h, List.get?_eq_get]

theorem trimLoop_spaces (t : List Char) (K : Nat) (ht : t ≠ []) (hl : t.getLast? ≠ some ' ')
    (hlen : (t ++ List.replicate K ' ').length < SIZE_MOD) :
    ∀ (k fuel : Nat), k ≤ K → k + 1 ≤ fuel →
      trimLoop (ofCStr (t ++ List.replicate K ' ')) fuel (t.length + k - 1) =
        .ok (t.length - 1) := by
  have htl : 0 < t.length := List.length_pos.mpr ht
  simp only [List.length_append, List.length_replicate, SIZE_MOD] at hlen
  intro k
  induction k with
  | zero =>
    intro fuel _ hf
    obtain ⟨f, rfl⟩ : ∃ f, fuel = f + 1 := ⟨fuel - 1, by omega⟩
    have hi : t.length + 0 - 1 < (t ++ List.replicate K ' ').length := by simp; omega
    rw [trimLoop, index_ofCStr _ _ hi]
    have hget : (t ++ List.replicate K ' ').get ⟨t.length + 0 - 1, hi⟩ = t.getLast ht := by
      simp only [List.get_eq_getElem]
      rw [List.getElem_append_left (by simp; omega), List.getLast_eq_getElem]
      simp
    have hne : t.getLast ht ≠ ' ' := by
      intro e
      apply hl
      rw [List.getLast?_eq_getLast _ ht, e]
    rw [hget]
    simp [hne]
  | succ k ih =>
    intro fuel hk hf
    obtain ⟨f, rfl⟩ : ∃ f, fuel = f + 1 := ⟨fuel - 1, by omega⟩
    have hi : t.length + (k + 1) - 1 < (t ++ List.replicate K ' ').length := by simp; omega
    rw [trimLoop, index_ofCStr _ _ hi]
    have hget : (t ++ List.replicate K ' ').get ⟨t.length + (k + 1) - 1, hi⟩ = ' ' := by
      simp only [List.get_eq_getElem]
      rw [List.getElem_append_right (by omega)]
      simp
    have hdec : (t.length + (k + 1) - 1 + SIZE_MOD - 1) % SIZE_MOD = t.length + k - 1 := by
      simp only [SIZE_MOD]
      omega
    rw [hget]
    simp only [↓reduceIte, hdec]
    exact ih f (by omega) (by omega)

theorem trimAdapterName_spaces (t : List Char) (K : Nat) (ht : t ≠ [])
    (hl : t.getLast? ≠ some ' ')
    (hlen : (t ++ List.replicate K ' ').length < SIZE_MOD) :
    trimAdapterName (ofCStr (t ++ List.replicate K ' ')) = .ok t := by
  have htl : 0 < t.length := List.length_pos.mpr ht
  have h := trimLoop_spaces t K ht hl hlen K ((t ++ List.replicate K ' ').length + 1)
    (le_refl _) (by simp)
  have hsz : (ofCStr (t ++ List.replicate K ' ')).size = t.length + K := by simp [ofCStr]
  have hlen' := hlen
  simp only [List.length_append, List.length_replicate, SIZE_MOD] at hlen'
  have hstart : ((ofCStr (t ++ List.replicate K ' ')).size + SIZE_MOD - 1) % SIZE_MOD =
      t.length + K - 1 := by
    rw [hsz]; simp only [SIZE_MOD]; omega
  have hend : (t.length - 1 + 1) % SIZE_MOD = t.length := by
    simp only [SIZE_MOD]; omega
  unfold trimAdapterName
  rw [hstart, hsz]
  simp only [List.length_append, List.length_replicate] at h
  simp only [bind, Except.bind, h, hend, substr_zero, pure, Except.pure]
  simp [chars, ofCStr]


theorem isPrefixOf_eq_true_iff (needle l : List Char) :
    needle.isPrefixOf l = true ↔ ∃ t, l = needle ++ t := by
  induction needle generalizing l with
  | nil => simp
  | cons a as ih =>
    cases l with
    | nil => simp
    | cons b bs =>
      simp only [List.isPrefixOf_cons₂, Bool.and_eq_true, beq_iff_eq, ih, List.cons_append,
        List.cons.injEq]
      constructor
      · rintro ⟨rfl, t, rfl⟩; exact ⟨t, rfl, rfl⟩
      · rintro ⟨t, rfl, rfl⟩; exact ⟨rfl, t, rfl⟩

/-- An occurrence of `needle` cannot start in `s` and run into `y :: rest` when
`needle` does not start `s` and `y` occurs in `needle` at its head only. -/
theorem isPrefixOf_straddle (needle s rest : List Char) (y : Char)
    (hs : ∀ t, s ≠ needle ++ t) (hy : y ∉ needle.tail) (hne : s ≠ []) :
    needle.isPrefixOf (s ++ y :: rest) = false := by
  cases h : needle.isPrefixOf (s ++ y :: rest) with
  | false => rfl
  | true =>
    exfalso
    obtain ⟨t, ht⟩ := (isPrefixOf_eq_true_iff _ _).mp h
    rcases List.append_eq_append_iff.mp ht with ⟨a', h1, h2⟩ | ⟨c', h1, h2⟩
    · cases a' with
      | nil =>
        simp at h2
        simp at h1
        exact hs [] (by simp [h1])
      | cons z zs =>
        simp at h2
        obtain ⟨rfl, rfl⟩ := h2
        obtain ⟨x, xs, rfl⟩ := List.exists_cons_of_ne_nil hne
        apply hy
        rw [h1]
        simp
    · exact hs c' h1

theorem findStrIdx_skip (needle pre rest : List Char) (y : Char)
    (hn : ¬ needle <:+: pre) (hy : y ∉ needle.tail) :
    findStrIdx needle (pre ++ y :: rest) =
      (findStrIdx needle (y :: rest)).map (· + pre.length) := by
  induction pre with
  | nil => simp
  | cons x xs ih =>
    have h1 : needle.isPrefixOf ((x :: xs) ++ y :: rest) = false := by
      apply isPrefixOf_straddle _ _ _ _ _ hy (by simp)
      intro t ht
      exact hn ⟨[], t, by simp [ht]⟩
    have h2 : ¬ needle <:+: xs := by
      rintro ⟨u, v, huv⟩
      exact hn ⟨x :: u, v, by simp [← huv]⟩
    simp only [List.cons_append] at h1
    rw [List.cons_append, findStrIdx, h1, ih h2]
    cases findStrIdx needle (y :: rest) <;> simp
    omega


theorem PCI_VEN_eq : PCI_VEN = ['P', 'C', 'I', '_', 'V', 'E', 'N', '_'] := rfl
theorem DEV_eq : DEV = ['&', 'D', 'E', 'V', '_'] := rfl
theorem REV_eq : REV = ['&', 'R', 'E', 'V', '_'] := rfl

theorem digitsValue_concat (base : Nat) (ds : List Char) (c : Char) :
    digitsValue base (ds ++ [c]) = base * digitsValue base ds + (digitOf c).getD 0 := by
  simp [digitsValue, List.foldl_append]

theorem digitOf_lt (base : Nat) (c : Char) (h : isDigitIn base c = true) :
    (digitOf c).getD 0 < base := by
  unfold isDigitIn at h
  cases hd : digitOf c with
  | none => simp [hd] at h
  | some d => simpa [hd] using h

theorem digitsValue_lt (base : Nat) (ds : List Char)
    (hd : ∀ c ∈ ds, isDigitIn base c = true) : digitsValue base ds < base ^ ds.length := by
  induction ds using List.reverseRecOn with
  | nil => simp [digitsValue]
  | append_singleton ds c ih =>
    have h1 := ih (fun x hx => hd x (by simp [hx]))
    have h2 := digitOf_lt base c (hd c (by simp))
    rw [digitsValue_concat, List.length_append, List.length_singleton, pow_succ]
    have h3 : base * (digitsValue base ds + 1) ≤ base * base ^ ds.length :=
      Nat.mul_le_mul_left _ h1
    rw [Nat.mul_comm (base ^ ds.length) base]
    have h4 : base * (digitsValue base ds + 1) = base * digitsValue base ds + base := by ring
    omega

theorem isDigitIn_hex_not_special (c : Char) (h : isDigitIn 16 c = true) :
    c ≠ '-' ∧ c ≠ '&' := by
  refine ⟨?_, ?_⟩
  · intro e; subst e; exact absurd h (by decide)
  · intro e; subst e; exact absurd h (by decide)

/-- The call `std::from_chars` in base 16 on a string of one to four hex digits. -/
theorem from_chars_hex (ds : List Char) (hne : ds ≠ [])
    (hd : ∀ c ∈ ds, isDigitIn 16 c = true) (hlen : ds.length ≤ 4) :
    from_chars 16 ds = some (digitsValue 16 ds : Int) := by
  obtain ⟨x, xs, rfl⟩ := List.exists_cons_of_ne_nil hne
  have hx := (isDigitIn_hex_not_special x (hd x (by simp))).1
  have hsign : readMinus (x :: xs) = (false, x :: xs) := by
    unfold readMinus
    split
    · rename_i h; simp at h; exact absurd h.1 hx
    · rfl
  have htw : (x :: xs).takeWhile (isDigitIn 16) = x :: xs := by
    rw [List.takeWhile_eq_self_iff]; exact hd
  have hlt := digitsValue_lt 16 (x :: xs) hd
  have hpow : 16 ^ (x :: xs).length ≤ 16 ^ 4 := Nat.pow_le_pow_right (by norm_num) hlen
  have hv : digitsValue 16 (x :: xs) < 65536 := by
    have : (16 : Nat) ^ 4 = 65536 := by norm_num
    omega
  unfold from_chars
  simp only []
  rw [hsign]
  simp only []
  rw [htw]
  simp only [List.isEmpty_cons, Bool.false_eq_true, ↓reduceIte, INT_MIN, INT_MAX]
  rw [if_neg]
  omega

theorem substr_ofCStr (s : List Char) (i n : Nat) (h : i ≤ s.length) :
    (ofCStr s).substr i n = .ok ⟨s.drop i, min n (s.length - i)⟩ := by
  simp [substr, ofCStr]
  omega

theorem chars_drop_min (s : List Char) (i n : Nat) :
    chars ⟨s.drop i, min n (s.length - i)⟩ = (s.drop i).take n := by
  simp only [chars]
  rw [← List.length_drop i s, List.take_eq_take]
  simp

theorem chars_ofCStr (s : List Char) : (ofCStr s).chars = s := by
  simp [chars, ofCStr]


theorem udid_fields (ndebug : Bool) (pre v d r post : List Char)
    (hv : IsHex 4 v) (hd : IsHex 4 d) (hr : IsHex 2 r)
    (hpv : ¬ PCI_VEN <:+: pre) (hpd : ¬ DEV <:+: pre) (hpr : ¬ REV <:+: pre)
    (hlen : (pre ++ PCI_VEN ++ v ++ DEV ++ d ++ REV ++ r ++ post).length < SIZE_MOD) :
    parseVendorID ndebug (ofCStr (pre ++ PCI_VEN ++ v ++ DEV ++ d ++ REV ++ r ++ post)) =
        .ok (digitsValue 16 v : Int) ∧
    parseDeviceID ndebug (ofCStr (pre ++ PCI_VEN ++ v ++ DEV ++ d ++ REV ++ r ++ post)) =
        .ok (d, (digitsValue 16 d : Int)) ∧
    parseRevID ndebug (ofCStr (pre ++ PCI_VEN ++ v ++ DEV ++ d ++ REV ++ r ++ post)) =
        .ok (digitsValue 16 r : Int) := by
  obtain ⟨hvl, hvd⟩ := hv
  obtain ⟨hdl, hdd⟩ := hd
  obtain ⟨hrl, hrd⟩ := hr
  have hfv := from_chars_hex v (by intro e; simp [e] at hvl) hvd (by omega)
  have hfd := from_chars_hex d (by intro e; simp [e] at hdl) hdd (by omega)
  have hfr := from_chars_hex r (by intro e; simp [e] at hrl) hrd (by omega)
  rcases v with _ | ⟨v0, _ | ⟨v1, _ | ⟨v2, _ | ⟨v3, _ | ⟨v4, vs⟩⟩⟩⟩⟩ <;> simp at hvl
  rcases d with _ | ⟨d0, _ | ⟨d1, _ | ⟨d2, _ | ⟨d3, _ | ⟨d4, ds⟩⟩⟩⟩⟩ <;> simp at hdl
  rcases r with _ | ⟨r0, _ | ⟨r1, _ | ⟨r2, rs⟩⟩⟩ <;> simp at hrl
  have a0 := (isDigitIn_hex_not_special v0 (hvd v0 (by simp))).2
  have a1 := (isDigitIn_hex_not_special v1 (hvd v1 (by simp))).2
  have a2 := (isDigitIn_hex_not_special v2 (hvd v2 (by simp))).2
  have a3 := (isDigitIn_hex_not_special v3 (hvd v3 (by simp))).2
  have b0 := (isDigitIn_hex_not_special d0 (hdd d0 (by simp))).2
  have b1 := (isDigitIn_hex_not_special d1 (hdd d1 (by simp))).2
  have b2 := (isDigitIn_hex_not_special d2 (hdd d2 (by simp))).2
  have b3 := (isDigitIn_hex_not_special d3 (hdd d3 (by simp))).2
  have hsz := hlen
  simp only [PCI_VEN_eq, DEV_eq, REV_eq, List.length_append, List.length_cons,
    List.length_nil, SIZE_MOD] at hsz
  have hshape : pre ++ PCI_VEN ++ [v0, v1, v2, v3] ++ DEV ++ [d0, d1, d2, d3] ++ REV ++ [r0, r1]
        ++ post =
      pre ++ 'P' :: ('C' :: 'I' :: '_' :: 'V' :: 'E' :: 'N' :: '_' :: v0 :: v1 :: v2 :: v3 ::
        '&' :: 'D' :: 'E' :: 'V' :: '_' :: d0 :: d1 :: d2 :: d3 ::
        '&' :: 'R' :: 'E' :: 'V' :: '_' :: r0 :: r1 :: post) := by
    simp [PCI_VEN_eq, DEV_eq, REV_eq]
  rw [hshape] at hlen ⊢
  have hiv : markerIndex (ofCStr (pre ++ 'P' :: ('C' :: 'I' :: '_' :: 'V' :: 'E' :: 'N' :: '_' ::
        v0 :: v1 :: v2 :: v3 :: '&' :: 'D' :: 'E' :: 'V' :: '_' :: d0 :: d1 :: d2 :: d3 ::
        '&' :: 'R' :: 'E' :: 'V' :: '_' :: r0 :: r1 :: post))) PCI_VEN = pre.length + 8 := by
    unfold markerIndex findStr
    rw [chars_ofCStr, findStrIdx_skip _ _ _ _ hpv (by simp [PCI_VEN_eq])]
    simp [findStrIdx, PCI_VEN_eq, SIZE_MOD]
    omega
  have hid : markerIndex (ofCStr (pre ++ 'P' :: ('C' :: 'I' :: '_' :: 'V' :: 'E' :: 'N' :: '_' ::
        v0 :: v1 :: v2 :: v3 :: '&' :: 'D' :: 'E' :: 'V' :: '_' :: d0 :: d1 :: d2 :: d3 ::
        '&' :: 'R' :: 'E' :: 'V' :: '_' :: r0 :: r1 :: post))) DEV = pre.length + 17 := by
    unfold markerIndex findStr
    rw [chars_ofCStr, findStrIdx_skip _ _ _ _ hpd (by simp [DEV_eq])]
    simp [findStrIdx, DEV_eq, SIZE_MOD, Ne.symm a0, Ne.symm a1, Ne.symm a2, Ne.symm a3]
    omega
  have hir : markerIndex (ofCStr (pre ++ 'P' :: ('C' :: 'I' :: '_' :: 'V' :: 'E' :: 'N' :: '_' ::
        v0 :: v1 :: v2 :: v3 :: '&' :: 'D' :: 'E' :: 'V' :: '_' :: d0 :: d1 :: d2 :: d3 ::
        '&' :: 'R' :: 'E' :: 'V' :: '_' :: r0 :: r1 :: post))) REV = pre.length + 26 := by
    unfold markerIndex findStr
    rw [chars_ofCStr, findStrIdx_skip _ _ _ _ hpr (by simp [REV_eq])]
    simp [findStrIdx, REV_eq, SIZE_MOD, Ne.symm a0, Ne.symm a1, Ne.symm a2, Ne.symm a3,
      Ne.symm b0, Ne.symm b1, Ne.symm b2, Ne.symm b3]
    omega
  have hn1 : pre.length + 8 ≠ npos := by simp only [npos]; omega
  have hn2 : pre.length + 17 ≠ npos := by simp only [npos]; omega
  have hn3 : pre.length + 26 ≠ npos := by simp only [npos]; omega
  refine ⟨?_, ?_, ?_⟩
  · unfold parseVendorID
    simp only [hiv, ne_eq, hn1, not_false_eq_true, ↓reduceIte]
    rw [substr_ofCStr _ _ _ (by simp)]
    simp only [bind, Except.bind, adl_from_chars, chars_drop_min]
    rw [List.drop_append]
    simp only [List.drop_succ_cons, List.drop_zero, List.take_succ_cons, List.take_zero, hfv]
  · unfold parseDeviceID
    simp only [hid, ne_eq, hn2, not_false_eq_true, ↓reduceIte]
    rw [substr_ofCStr _ _ _ (by simp)]
    simp only [bind, Except.bind, adl_from_chars, chars_drop_min, chars_ofCStr]
    rw [List.drop_append]
    simp only [List.drop_succ_cons, List.drop_zero, List.take_succ_cons, List.take_zero, hfd,
      pure, Except.pure]
  · unfold parseRevID
    simp only [hir, ne_eq, hn3, not_false_eq_true, ↓reduceIte]
    rw [substr_ofCStr _ _ _ (by simp)]
    simp only [bind, Except.bind, adl_from_chars, chars_drop_min]
    rw [List.drop_append]
    simp only [List.drop_succ_cons, List.drop_zero, List.take_succ_cons, List.take_zero, hfr]


/-- What `Unload` does to the members. -/
theorem Unload_fields (st : AMDTADLUtils) :
    (Unload st).2.m_libHandle = none ∧
    (st.m_adlContext = none → (Unload st).2.m_adlContext = none) ∧
    (Unload st).2.m_asicInfoListRetVal = ADL_RESULT_NONE ∧
    (Unload st).2.m_versionRetVal = ADL_RESULT_NONE ∧
    (Unload st).2.m_asicInfoList = [] := by
  unfold Unload
  cases h : st.m_libHandle with
  | none => simp [Reset, h]
  | some x =>
    simp only [Reset, AMDTADLUtils.log, destroyContext, true_and, and_true]
    intro hc
    simp only [hc]
    split
    · exact hc
    · split
      · rfl
      · exact hc

/-- The external calls made by `Unload`: destroy calls and `FreeLibrary`. -/
theorem Unload_calls (P : Event → Prop) (st : AMDTADLUtils)
    (h1 : P (.vendor .ADL2_Main_Control_Destroy)) (h2 : P (.vendor .ADL_Main_Control_Destroy))
    (h3 : ∀ h, P (.FreeLibrary h)) :
    ∃ evs, (Unload st).2.calls = st.calls ++ evs ∧ ∀ e ∈ evs, P e := by
  unfold Unload
  cases h : st.m_libHandle with
  | none => exact ⟨[], by simp [Reset], by simp⟩
  | some x =>
    simp only [Reset, AMDTADLUtils.log, destroyContext]
    by_cases ha : st.table.m_ADL2_Main_Control_Destroy = true
    · cases hc : st.m_adlContext with
      | none => exact ⟨[.FreeLibrary x], by simp [ha], by simpa using h3 x⟩
      | some c =>
        exact ⟨[.vendor .ADL2_Main_Control_Destroy, .FreeLibrary x], by simp [ha],
          by simpa using ⟨h1, h3 x⟩⟩
    · by_cases hb : st.table.m_ADL_Main_Control_Destroy = true
      · exact ⟨[.vendor .ADL_Main_Control_Destroy, .FreeLibrary x], by simp [ha, hb],
          by simpa using ⟨h2, h3 x⟩⟩
      · exact ⟨[.FreeLibrary x], by simp [ha, hb], by simpa using h3 x⟩


theorem resolveEntry_fields (env : Env) (st : AMDTADLUtils) (sym : Sym) :
    (resolveEntry env st sym).m_libHandle = st.m_libHandle ∧
    (resolveEntry env st sym).m_adlContext = st.m_adlContext ∧
    (resolveEntry env st sym).calls = st.calls ++ [.GetProcAddress st.m_libHandle sym] :=
  ⟨rfl, rfl, rfl⟩

/-- The external calls made by one expansion of `X(SYM)`. -/
theorem bindEntry_calls (P : Event → Prop) (env : Env) (acc : ADLUtil_Result × AMDTADLUtils)
    (sym : Sym)
    (h1 : P (.vendor .ADL2_Main_Control_Destroy)) (h2 : P (.vendor .ADL_Main_Control_Destroy))
    (h3 : ∀ h, P (.FreeLibrary h)) (h4 : ∀ h s, P (.GetProcAddress h s)) :
    ∃ evs, (bindEntry env acc sym).2.calls = acc.2.calls ++ evs ∧ ∀ e ∈ evs, P e := by
  unfold bindEntry
  by_cases hp : env.GetProcAddress acc.2.calls.length acc.2.m_libHandle sym = true
  · simp only [hp, ↓reduceIte]
    exact ⟨[.GetProcAddress acc.2.m_libHandle sym], rfl, by simpa using h4 _ _⟩
  · simp only [hp, Bool.false_eq_true, ↓reduceIte]
    obtain ⟨evs, he, hP⟩ := Unload_calls P (resolveEntry env acc.2 sym) h1 h2 h3
    refine ⟨.GetProcAddress acc.2.m_libHandle sym :: evs, ?_, ?_⟩
    · rw [he, (resolveEntry_fields env acc.2 sym).2.2]; simp
    · intro e hmem
      rcases List.mem_cons.mp hmem with rfl | hmem
      · exact h4 _ _
      · exact hP e hmem

/-- The external calls made by the whole symbol loop. -/
theorem bindLoop_calls (P : Event → Prop) (env : Env) (syms : List Sym)
    (h1 : P (.vendor .ADL2_Main_Control_Destroy)) (h2 : P (.vendor .ADL_Main_Control_Destroy))
    (h3 : ∀ h, P (.FreeLibrary h)) (h4 : ∀ h s, P (.GetProcAddress h s)) :
    ∀ acc : ADLUtil_Result × AMDTADLUtils,
      ∃ evs, (syms.foldl (bindEntry env) acc).2.calls = acc.2.calls ++ evs ∧ ∀ e ∈ evs, P e := by
  induction syms with
  | nil => intro acc; exact ⟨[], by simp, by simp⟩
  | cons s ss ih =>
    intro acc
    obtain ⟨e1, he1, hP1⟩ := bindEntry_calls P env acc s h1 h2 h3 h4
    obtain ⟨e2, he2, hP2⟩ := ih (bindEntry env acc s)
    refine ⟨e1 ++ e2, ?_, ?_⟩
    · rw [List.foldl_cons, he2, he1, List.append_assoc]
    · intro e hmem
      rcases List.mem_append.mp hmem with h | h
      · exact hP1 e h
      · exact hP2 e h

/-- The local `result` is never `ADL_RESULT_NONE` after the symbol loop. -/
theorem bindLoop_result (env : Env) (syms : List Sym) :
    ∀ acc : ADLUtil_Result × AMDTADLUtils, acc.1 ≠ ADL_RESULT_NONE →
      (syms.foldl (bindEntry env) acc).1 ≠ ADL_RESULT_NONE := by
  induction syms with
  | nil => intro acc h; simpa using h
  | cons s ss ih =>
    intro acc h
    rw [List.foldl_cons]
    apply ih
    unfold bindEntry
    by_cases hp : env.GetProcAddress acc.2.calls.length acc.2.m_libHandle s = true
    · simpa [hp] using h
    · simp [hp]

theorem bindEntry_of_true (env : Env) (acc : ADLUtil_Result × AMDTADLUtils) (s : Sym)
    (hp : env.GetProcAddress acc.2.calls.length acc.2.m_libHandle s = true) :
    bindEntry env acc s = (acc.1, resolveEntry env acc.2 s) := by
  simp [bindEntry, hp]

theorem bindEntry_of_false (env : Env) (acc : ADLUtil_Result × AMDTADLUtils) (s : Sym)
    (hp : env.GetProcAddress acc.2.calls.length acc.2.m_libHandle s = false) :
    bindEntry env acc s = (ADL_MISSING_ENTRYPOINTS, (Unload (resolveEntry env acc.2 s)).2) := by
  simp [bindEntry, hp]

/-- One expansion of `X(SYM)` for a symbol that does not resolve. -/
theorem bindEntry_fail (env : Env) (acc : ADLUtil_Result × AMDTADLUtils) (s : Sym)
    (hp : env.GetProcAddress acc.2.calls.length acc.2.m_libHandle s = false)
    (h3 : acc.2.m_adlContext = none) :
    (bindEntry env acc s).1 = ADL_MISSING_ENTRYPOINTS ∧
    (bindEntry env acc s).2.m_libHandle = none ∧
    (bindEntry env acc s).2.m_adlContext = none := by
  rw [bindEntry_of_false env acc s hp]
  have hU := Unload_fields (resolveEntry env acc.2 s)
  exact ⟨rfl, hU.1, hU.2.1 h3⟩

/-- One expansion of `X(SYM)` on an unloaded instance. -/
theorem bindEntry_down (env : Env) (acc : ADLUtil_Result × AMDTADLUtils) (s : Sym)
    (h1 : acc.1 = ADL_MISSING_ENTRYPOINTS) (h2 : acc.2.m_libHandle = none)
    (h3 : acc.2.m_adlContext = none) :
    (bindEntry env acc s).1 = ADL_MISSING_ENTRYPOINTS ∧
    (bindEntry env acc s).2.m_libHandle = none ∧
    (bindEntry env acc s).2.m_adlContext = none := by
  cases hp : env.GetProcAddress acc.2.calls.length acc.2.m_libHandle s with
  | true =>
    rw [bindEntry_of_true env acc s hp]
    exact ⟨h1, h2, h3⟩
  | false => exact bindEntry_fail env acc s hp h3

/-- Once a symbol was missing, the instance stays unloaded and `result` stays
`ADL_MISSING_ENTRYPOINTS` for the rest of the symbol loop. -/
theorem bindLoop_down (env : Env) (syms : List Sym) :
    ∀ acc : ADLUtil_Result × AMDTADLUtils,
      acc.1 = ADL_MISSING_ENTRYPOINTS → acc.2.m_libHandle = none → acc.2.m_adlContext = none →
      (syms.foldl (bindEntry env) acc).1 = ADL_MISSING_ENTRYPOINTS ∧
      (syms.foldl (bindEntry env) acc).2.m_libHandle = none ∧
      (syms.foldl (bindEntry env) acc).2.m_adlContext = none := by
  induction syms with
  | nil => intro acc h1 h2 h3; exact ⟨h1, h2, h3⟩
  | cons s ss ih =>
    intro acc h1 h2 h3
    rw [List.foldl_cons]
    obtain ⟨a, b, c⟩ := bindEntry_down env acc s h1 h2 h3
    exact ih _ a b c

/-- A symbol that the loaded image lacks brings the symbol loop down. -/
theorem bindLoop_missing (env : Env) (h : Nat) (bad : Sym)
    (hbad : ∀ t, env.GetProcAddress t (some h) bad = false) (syms : List Sym) :
    ∀ acc : ADLUtil_Result × AMDTADLUtils,
      bad ∈ syms → acc.2.m_libHandle = some h → acc.2.m_adlContext = none →
      (syms.foldl (bindEntry env) acc).1 = ADL_MISSING_ENTRYPOINTS ∧
      (syms.foldl (bindEntry env) acc).2.m_libHandle = none ∧
      (syms.foldl (bindEntry env) acc).2.m_adlContext = none := by
  induction syms with
  | nil => intro acc hmem; simp at hmem
  | cons s ss ih =>
    intro acc hmem h2 h3
    rw [List.foldl_cons]
    cases hp : env.GetProcAddress acc.2.calls.length acc.2.m_libHandle s with
    | true =>
      have hne : bad ≠ s := by
        intro e; subst e; rw [h2, hbad] at hp; simp at hp
      have hmem' : bad ∈ ss := by
        rcases List.mem_cons.mp hmem with e | e
        · exact absurd e hne
        · exact e
      rw [bindEntry_of_true env acc s hp]
      exact ih _ hmem' h2 h3
    | false =>
      obtain ⟨a, b, c⟩ := bindEntry_fail env acc s hp h3
      exact bindLoop_down env ss _ a b c

theorem mem_ADL_INTERFACE_TABLE (sym : Sym) : sym ∈ ADL_INTERFACE_TABLE := by
  cases sym <;> simp [ADL_INTERFACE_TABLE]

theorem loadLibrary_fields (env : Env) (st : AMDTADLUtils) :
    (loadLibrary env st).m_libHandle = env.LoadLibraryA st.calls.length ∧
    (loadLibrary env st).m_adlContext = st.m_adlContext ∧
    (loadLibrary env st).calls = st.calls ++ [.LoadLibraryA] :=
  ⟨rfl, rfl, rfl⟩

/-- Claim C10. When the library is not loaded (handle and context null), the
image loads (handle `h`) and at least one of the ten entry points does not
resolve in it, `LoadAndInit` returns `ADL_MISSING_ENTRYPOINTS`, makes no call of
a context-creation entry point (none of its external calls is one), and leaves
the instance unloaded: library handle null, context null. -/
theorem C10_missing_entry_point (env : Env) (st : AMDTADLUtils) (h : Nat) (bad : Sym)
    (hnull : st.m_libHandle = none) (hctx : st.m_adlContext = none)
    (hload : env.LoadLibraryA st.calls.length = some h)
    (hbad : ∀ t, env.GetProcAddress t (some h) bad = false) :
    ∃ st1, LoadAndInit env st = .ok (ADL_MISSING_ENTRYPOINTS, st1) ∧
      st1.m_libHandle = none ∧ st1.m_adlContext = none ∧
      ∃ evs, st1.calls = st.calls ++ evs ∧ ∀ e ∈ evs, e.isCreate = false := by
  obtain ⟨hl1, hl2, hl3⟩ := loadLibrary_fields env st
  rw [hload] at hl1
  have hdown := bindLoop_missing env h bad hbad ADL_INTERFACE_TABLE
    (ADL_SUCCESS, loadLibrary env st) (mem_ADL_INTERFACE_TABLE bad) hl1 (hl2.trans hctx)
  obtain ⟨evs, hev, hP⟩ := bindLoop_calls (fun e => e.isCreate = false) env ADL_INTERFACE_TABLE
    rfl rfl (fun _ => rfl) (fun _ _ => rfl) (ADL_SUCCESS, loadLibrary env st)
  refine ⟨_, ?_, hdown.2.1, hdown.2.2, .LoadLibraryA :: evs, ?_, ?_⟩
  · unfold LoadAndInit
    simp only [hnull, hl1, reduceCtorEq, ↓reduceIte, hdown.1]
    exact congrArg _ (Prod.ext hdown.1 rfl)
  · rw [hev, hl3]; simp
  · intro e hmem
    rcases List.mem_cons.mp hmem with rfl | hmem
    · rfl
    · exact hP e hmem

theorem queryNumAdapters_ok (env : Env) (st st1 : AMDTADLUtils) (c n : Int)
    (h : queryNumAdapters env st = .ok (c, n, st1)) :
    ∃ e, st1 = st.log e ∧ e.isAdapterCount = true ∧ e.isAdapterInfo = false := by
  unfold queryNumAdapters at h
  split at h
  · simp only [Except.ok.injEq, Prod.mk.injEq] at h
    exact ⟨_, h.2.2.symm, rfl, rfl⟩
  · split at h
    · simp only [Except.ok.injEq, Prod.mk.injEq] at h
      exact ⟨_, h.2.2.symm, rfl, rfl⟩
    · simp at h

theorem queryAdapterInfo_ok (env : Env) (st st1 : AMDTADLUtils) (c n : Int)
    (buf : List AdapterInfo) (h : queryAdapterInfo env st n = .ok (c, buf, st1)) :
    ∃ e, st1 = st.log e ∧ e.isAdapterCount = false ∧ e.isAdapterInfo = true := by
  unfold queryAdapterInfo at h
  split at h
  · simp only [Except.ok.injEq, Prod.mk.injEq] at h
    exact ⟨_, h.2.2.symm, rfl, rfl⟩
  · split at h
    · simp only [Except.ok.injEq, Prod.mk.injEq] at h
      exact ⟨_, h.2.2.symm, rfl, rfl⟩
    · simp at h

/-- What the enumeration after a successful `LoadAndInit` changes. -/
theorem enumerateAdapters_ok (env : Env) (st st1 : AMDTADLUtils) (flag : Bool)
    (h : enumerateAdapters env st = .ok (flag, st1)) :
    st1.m_libHandle = st.m_libHandle ∧ st1.m_versionRetVal = st.m_versionRetVal ∧
    st1.m_adlVersionsInfo = st.m_adlVersionsInfo ∧
    (st1.m_asicInfoListRetVal = st.m_asicInfoListRetVal ∨
      st1.m_asicInfoListRetVal = ADL_GET_ADAPTER_COUNT_FAILED ∨
      st1.m_asicInfoListRetVal = ADL_GET_ADAPTER_INFO_FAILED) ∧
    (flag = true → ∃ t, env.malloc t = false) ∧
    ∃ evs, st1.calls = st.calls ++ evs ∧ evs.countP Event.isAdapterCount ≤ 1 ∧
      evs.countP Event.isAdapterInfo ≤ 1 := by
  have hmc : Event.isAdapterCount .malloc = false := rfl
  have hmi : Event.isAdapterInfo .malloc = false := rfl
  unfold enumerateAdapters at h
  cases hq : queryNumAdapters env st with
  | error e => simp [hq] at h
  | ok r =>
    obtain ⟨c, n, s1⟩ := r
    obtain ⟨e1, rfl, hc1, hi1⟩ := queryNumAdapters_ok env st s1 c n hq
    simp only [hq] at h
    split at h
    · simp only [Except.ok.injEq, Prod.mk.injEq] at h
      obtain ⟨rfl, rfl⟩ := h
      refine ⟨rfl, rfl, rfl, Or.inr (Or.inl rfl), by simp, [e1], rfl, ?_, ?_⟩
      · simp [List.countP_cons, hc1]
      · simp [List.countP_cons, hi1]
    · split at h
      · split at h
        · simp only [Except.ok.injEq, Prod.mk.injEq] at h
          obtain ⟨rfl, rfl⟩ := h
          rename_i hm
          refine ⟨rfl, rfl, rfl, Or.inl rfl, fun _ => ⟨_, hm⟩, [e1, .malloc], ?_, ?_, ?_⟩
          · simp [AMDTADLUtils.log]
          · simp [List.countP_cons, hc1, hmc]
          · simp [List.countP_cons, hi1, hmi]
        · cases hq2 : queryAdapterInfo env ((st.log e1).log .malloc) n with
          | error e => simp [hq2] at h
          | ok r2 =>
            obtain ⟨c2, buf, s3⟩ := r2
            obtain ⟨e2, rfl, hc2, hi2⟩ := queryAdapterInfo_ok env _ s3 c2 n buf hq2
            simp only [hq2] at h
            split at h
            · cases hb : buildAsicInfos env.ndebug buf with
              | error e => simp [hb] at h
              | ok pushed =>
                simp only [hb, Except.ok.injEq, Prod.mk.injEq] at h
                obtain ⟨rfl, rfl⟩ := h
                refine ⟨rfl, rfl, rfl, Or.inl rfl, by simp, [e1, .malloc, e2], ?_, ?_, ?_⟩
                · simp [AMDTADLUtils.log]
                · simp [List.countP_cons, hc1, hc2, hmc]
                · simp [List.countP_cons, hi1, hi2, hmi]
            · simp only [Except.ok.injEq, Prod.mk.injEq] at h
              obtain ⟨rfl, rfl⟩ := h
              refine ⟨rfl, rfl, rfl, Or.inr (Or.inr rfl), by simp, [e1, .malloc, e2], ?_, ?_, ?_⟩
              · simp [AMDTADLUtils.log]
              · simp [List.countP_cons, hc1, hc2, hmc]
              · simp [List.countP_cons, hi1, hi2, hmi]
      · simp only [Except.ok.injEq, Prod.mk.injEq] at h
        obtain ⟨rfl, rfl⟩ := h
        refine ⟨rfl, rfl, rfl, Or.inl rfl, by simp, [e1], rfl, ?_, ?_⟩
        · simp [List.countP_cons, hc1]
        · simp [List.countP_cons, hi1]


theorem createContext_ok (env : Env) (st st1 : AMDTADLUtils) (r : ADLUtil_Result)
    (h : createContext env st = .ok (r, st1)) :
    r ≠ ADL_RESULT_NONE ∧
    ∃ evs, st1.calls = st.calls ++ evs ∧ ∀ e ∈ evs, e.isLifecycle = true := by
  unfold createContext at h
  split at h
  · dsimp only at h
    split at h
    · simp only [Except.ok.injEq, Prod.mk.injEq] at h
      obtain ⟨rfl, rfl⟩ := h
      obtain ⟨evs, he, hP⟩ := Unload_calls (fun e => e.isLifecycle = true)
        { st.log (.vendor .ADL2_Main_Control_Create) with
          m_adlContext := (env.Main_Control_Create st.calls.length .ADL2_Main_Control_Create
            st.m_adlContext).2 } rfl rfl (fun _ => rfl)
      refine ⟨by simp, .vendor .ADL2_Main_Control_Create :: evs, ?_, ?_⟩
      · rw [he]; simp [AMDTADLUtils.log]
      · intro e hmem
        rcases List.mem_cons.mp hmem with rfl | hmem
        · rfl
        · exact hP e hmem
    · simp only [Except.ok.injEq, Prod.mk.injEq] at h
      obtain ⟨rfl, rfl⟩ := h
      exact ⟨by simp, [.vendor .ADL2_Main_Control_Create], by simp [AMDTADLUtils.log],
        by simp [Event.isLifecycle]⟩
  · split at h
    · dsimp only at h
      split at h
      · simp only [Except.ok.injEq, Prod.mk.injEq] at h
        obtain ⟨rfl, rfl⟩ := h
        obtain ⟨evs, he, hP⟩ := Unload_calls (fun e => e.isLifecycle = true)
          (st.log (.vendor .ADL_Main_Control_Create)) rfl rfl (fun _ => rfl)
        refine ⟨by simp, .vendor .ADL_Main_Control_Create :: evs, ?_, ?_⟩
        · rw [he]; simp [AMDTADLUtils.log]
        · intro e hmem
          rcases List.mem_cons.mp hmem with rfl | hmem
          · rfl
          · exact hP e hmem
      · simp only [Except.ok.injEq, Prod.mk.injEq] at h
        obtain ⟨rfl, rfl⟩ := h
        exact ⟨by simp, [.vendor .ADL_Main_Control_Create], by simp [AMDTADLUtils.log],
          by simp [Event.isLifecycle]⟩
    · simp at h

/-- The member `LoadAndInit` does nothing on a loaded instance. -/
theorem LoadAndInit_loaded (env : Env) (st : AMDTADLUtils) (hl : st.m_libHandle ≠ none) :
    LoadAndInit env st = .ok (ADL_SUCCESS, st) := by
  unfold LoadAndInit
  cases h : st.m_libHandle with
  | none => exact absurd h hl
  | some x => rfl

/-- The member `LoadAndInit` never returns `ADL_RESULT_NONE`, and its external calls are
lifecycle calls. -/
theorem LoadAndInit_ok (env : Env) (st st1 : AMDTADLUtils) (r : ADLUtil_Result)
    (h : LoadAndInit env st = .ok (r, st1)) :
    r ≠ ADL_RESULT_NONE ∧
    ∃ evs, st1.calls = st.calls ++ evs ∧ ∀ e ∈ evs, e.isLifecycle = true := by
  unfold LoadAndInit at h
  cases hh : st.m_libHandle with
  | some x =>
    simp only [hh, Except.ok.injEq, Prod.mk.injEq] at h
    obtain ⟨rfl, rfl⟩ := h
    exact ⟨by simp, [], by simp, by simp⟩
  | none =>
    simp only [hh] at h
    have hres0 : (if (loadLibrary env st).m_libHandle = none then ADL_NOT_FOUND
        else ADL_SUCCESS) ≠ ADL_RESULT_NONE := by split <;> simp
    generalize (if (loadLibrary env st).m_libHandle = none then ADL_NOT_FOUND
        else ADL_SUCCESS) = res0 at h hres0
    obtain ⟨evs, hev, hP⟩ := bindLoop_calls (fun e => e.isLifecycle = true) env
      ADL_INTERFACE_TABLE rfl rfl (fun _ => rfl) (fun _ _ => rfl) (res0, loadLibrary env st)
    have hres := bindLoop_result env ADL_INTERFACE_TABLE (res0, loadLibrary env st) hres0
    simp only [(loadLibrary_fields env st).2.2] at hev
    split at h
    · obtain ⟨hr, evs2, hev2, hP2⟩ := createContext_ok env _ st1 r h
      refine ⟨hr, .LoadLibraryA :: (evs ++ evs2), ?_, ?_⟩
      · rw [hev2, hev]; simp
      · intro e hmem
        rcases List.mem_cons.mp hmem with rfl | hmem
        · rfl
        · rcases List.mem_append.mp hmem with hm | hm
          · exact hP e hm
          · exact hP2 e hm
    · simp only [Except.ok.injEq] at h
      rw [h] at hres hev
      refine ⟨hres, .LoadLibraryA :: evs, ?_, ?_⟩
      · rw [hev]; simp
      · intro e hmem
        rcases List.mem_cons.mp hmem with rfl | hmem
        · rfl
        · exact hP e hmem

theorem countP_lifecycle (evs : List Event) (h : ∀ e ∈ evs, e.isLifecycle = true) :
    evs.countP Event.isAdapterCount = 0 ∧ evs.countP Event.isAdapterInfo = 0 := by
  constructor
  · rw [List.countP_eq_zero]
    intro e he
    have := h e he
    cases e with
    | vendor s => cases s <;> simp_all [Event.isLifecycle, Event.isAdapterCount]
    | _ => simp [Event.isAdapterCount]
  · rw [List.countP_eq_zero]
    intro e he
    have := h e he
    cases e with
    | vendor s => cases s <;> simp_all [Event.isLifecycle, Event.isAdapterInfo]
    | _ => simp [Event.isAdapterInfo]

/-- A call of `GetAsicInfoList` on a cached result. -/
theorem GetAsicInfoList_cached (env : Env) (st : AMDTADLUtils) (out : AsicInfoList)
    (h : st.m_asicInfoListRetVal ≠ ADL_RESULT_NONE) :
    GetAsicInfoList env st out = .ok (st.m_asicInfoListRetVal, st.m_asicInfoList, st) := by
  simp [GetAsicInfoList, h]

/-- A first call of `GetAsicInfoList` that returns, with allocations that do
not fail: the result is what is cached, the cached status is terminal, and the
adapter entry points were called at most once each. -/
theorem GetAsicInfoList_first (env : Env) (st st1 : AMDTADLUtils) (out l : AsicInfoList)
    (r : ADLUtil_Result) (h0 : st.m_asicInfoListRetVal = ADL_RESULT_NONE)
    (hm : ∀ t, env.malloc t = true)
    (h : GetAsicInfoList env st out = .ok (r, l, st1)) :
    st1.m_asicInfoListRetVal = r ∧ st1.m_asicInfoList = l ∧ r ≠ ADL_RESULT_NONE ∧
    ∃ evs, st1.calls = st.calls ++ evs ∧ evs.countP Event.isAdapterCount ≤ 1 ∧
      evs.countP Event.isAdapterInfo ≤ 1 := by
  unfold GetAsicInfoList at h
  simp only [h0, ↓reduceIte] at h
  cases hL : LoadAndInit env st with
  | error e => simp [hL] at h
  | ok p =>
    obtain ⟨res, s0⟩ := p
    obtain ⟨hres, evs, hev, hP⟩ := LoadAndInit_ok env st s0 res hL
    obtain ⟨hz1, hz2⟩ := countP_lifecycle evs hP
    simp only [hL] at h
    split at h
    · rename_i hsucc
      cases hE : enumerateAdapters env { s0 with m_asicInfoListRetVal := res } with
      | error e => simp [hE] at h
      | ok q =>
        obtain ⟨flag, s2⟩ := q
        obtain ⟨-, -, -, hret, hflag, evs2, hev2, hc, hi⟩ := enumerateAdapters_ok env _ s2 flag hE
        cases flag with
        | true =>
          obtain ⟨t, ht⟩ := hflag rfl
          rw [hm t] at ht
          simp at ht
        | false =>
          simp only [hE, Except.ok.injEq, Prod.mk.injEq] at h
          obtain ⟨rfl, rfl, rfl⟩ := h
          refine ⟨rfl, rfl, ?_, evs ++ evs2, ?_, ?_, ?_⟩
          · rcases hret with hr | hr | hr
            · rw [hr]; exact hres
            · rw [hr]; simp
            · rw [hr]; simp
          · rw [hev2]; simp only []; rw [hev, List.append_assoc]
          · rw [List.countP_append, hz1]; omega
          · rw [List.countP_append, hz2]; omega
    · simp only [Except.ok.injEq, Prod.mk.injEq] at h
      obtain ⟨rfl, rfl, rfl⟩ := h
      exact ⟨rfl, rfl, hres, evs, hev, by omega, by omega⟩


theorem queryVersions_ok (env : Env) (st st1 : AMDTADLUtils) (c : Int)
    (h : queryVersions env st = .ok (c, st1)) :
    st1.m_libHandle = st.m_libHandle ∧ st1.m_versionRetVal = st.m_versionRetVal ∧
    st1.m_asicInfoListRetVal = st.m_asicInfoListRetVal ∧
    st1.m_asicInfoList = st.m_asicInfoList := by
  unfold queryVersions at h
  split at h
  · simp only [Except.ok.injEq, Prod.mk.injEq] at h
    obtain ⟨-, rfl⟩ := h
    exact ⟨rfl, rfl, rfl, rfl⟩
  · split at h
    · simp only [Except.ok.injEq, Prod.mk.injEq] at h
      obtain ⟨-, rfl⟩ := h
      exact ⟨rfl, rfl, rfl, rfl⟩
    · simp at h

/-- A call of `GetADLVersionsInfo` on a cached result. -/
theorem GetADLVersionsInfo_cached (env : Env) (st : AMDTADLUtils)
    (h : st.m_versionRetVal ≠ ADL_RESULT_NONE) :
    GetADLVersionsInfo env st = .ok (st.m_versionRetVal, st.m_adlVersionsInfo, st) := by
  simp [GetADLVersionsInfo, h]

/-- The state after `GetDriverVersion` is the state after `GetADLVersionsInfo`. -/
theorem GetDriverVersion_state (env : Env) (st st1 : AMDTADLUtils) (s : ADLUtil_Result)
    (a b c : Nat) (h : GetDriverVersion env st = .ok (s, a, b, c, st1)) :
    ∃ info, GetADLVersionsInfo env st = .ok (s, info, st1) := by
  unfold GetDriverVersion at h
  cases hq : GetADLVersionsInfo env st with
  | error e => simp [hq] at h
  | ok q =>
    obtain ⟨s', info, s2⟩ := q
    simp only [hq] at h
    split at h
    · rename_i hs
      cases hp : parseDriverVersion info.strDriverVer with
      | error e => simp [hp] at h
      | ok t =>
        obtain ⟨x, y, z⟩ := t
        simp only [hp, Except.ok.injEq, Prod.mk.injEq] at h
        obtain ⟨rfl, -, -, -, rfl⟩ := h
        exact ⟨info, by rw [hs]⟩
    · simp only [Except.ok.injEq, Prod.mk.injEq] at h
      obtain ⟨rfl, -, -, -, rfl⟩ := h
      exact ⟨info, rfl⟩

theorem parse_two (a b tail : List Char) (ha : IsNumeral a) (hb : IsNumeral b)
    (ht : tail = [] ∨ tail.head? = some '-')
    (hlen : (a ++ '.' :: (b ++ tail)).length < SIZE_MOD) :
    parseDriverVersion (a ++ '.' :: (b ++ tail)) =
      .ok (digitsValue 10 a, digitsValue 10 b, 0) := by
  obtain ⟨ha0, had, hav⟩ := ha
  obtain ⟨hb0, hbd, hbv⟩ := hb
  have hdot : isDigitIn 10 '.' = false := by decide
  have hdash : isDigitIn 10 '-' = false := by decide
  have hnd : ∀ x, ('.' :: (b ++ tail)).head? = some x → isDigitIn 10 x = false := by
    intro x hx; simp at hx; subst hx; exact hdot
  have hnd3 : ∀ x, tail.head? = some x → isDigitIn 10 x = false := by
    intro x hx
    rcases ht with h | h
    · simp [h] at hx
    · rw [h] at hx; simp at hx; subst hx; exact hdash
  have hbt : beforeDash tail = [] := by
    rcases ht with h | h
    · simp [h, beforeDash]
    · cases tail with
      | nil => simp at h
      | cons y ys => simp at h; simp [h, beforeDash, List.takeWhile_cons]
  have hsz : (a ++ '.' :: (b ++ tail)).length < 2 ^ 64 := hlen
  simp only [List.length_append, List.length_cons] at hsz
  rw [parseDriverVersion_eq _ hlen]
  have hch0 : chars ⟨a ++ '.' :: (b ++ tail), (beforeDash (a ++ '.' :: (b ++ tail))).length⟩ =
      a ++ '.' :: b := by
    rw [chars_truncated, beforeDash_digits_append a _ had, beforeDash_dot,
      beforeDash_digits_append b _ hbd, hbt, List.append_nil]
  have hpos := find_of_chars _ '.' a _ hch0 (not_mem_of_digits a '.' hdot had)
  have hmod : (a.length + 1) % SIZE_MOD = a.length + 1 := by
    apply Nat.mod_eq_of_lt; simp only [SIZE_MOD]; omega
  have hne : a.length ≠ npos := by simp only [npos]; omega
  simp only [hpos, hmod, ne_eq, hne, not_false_eq_true, ↓reduceIte,
    extractUnsigned_numeral a _ ha0 had hav hnd]
  have hch1 : chars (removePrefix ⟨a ++ '.' :: (b ++ tail),
      (beforeDash (a ++ '.' :: (b ++ tail))).length⟩ (a.length + 1)) = b := by
    rw [chars_removePrefix, hch0]
    simp
  have hdata1 : (removePrefix ⟨a ++ '.' :: (b ++ tail),
      (beforeDash (a ++ '.' :: (b ++ tail))).length⟩ (a.length + 1)).data = b ++ tail := by
    simp [removePrefix]
  have hpos1 := find_npos_of_chars (removePrefix ⟨a ++ '.' :: (b ++ tail),
      (beforeDash (a ++ '.' :: (b ++ tail))).length⟩ (a.length + 1)) '.'
      (by rw [hch1]; exact not_mem_of_digits b '.' hdot hbd)
  simp only [hpos1, hdata1, ne_eq, not_true_eq_false, ↓reduceIte,
    extractUnsigned_numeral b _ hb0 hbd hbv hnd3, Option.getD_some]

/-- The result of `GetDriverVersion` when the version query gives `ADL_SUCCESS`. -/
theorem GetDriverVersion_of_success (env : Env) (st st1 : AMDTADLUtils)
    (info : ADLVersionsInfo) (v : Nat × Nat × Nat)
    (hq : GetADLVersionsInfo env st = .ok (ADL_SUCCESS, info, st1))
    (hp : parseDriverVersion info.strDriverVer = .ok v) :
    GetDriverVersion env st = .ok (ADL_SUCCESS, v.1, v.2.1, v.2.2, st1) := by
  simp [GetDriverVersion, hq, hp]

/-- Claim C1. For decimal numerals `a`, `b`, `c` (non-empty digit strings with
value below `2 ^ 32`): when the version query succeeds with the raw driver
string `a.b.c` followed by a tail that is empty or starts with a dash or a
period, `GetDriverVersion` returns `ADL_SUCCESS` with `(a, b, c)`; and with the
raw string `a.b` followed by a tail that is empty or starts with a dash, it
returns `ADL_SUCCESS` with `(a, b, 0)`. The raw string is a C string in memory,
so its length is below `2 ^ 64`. -/
theorem C1_GetDriverVersion_numerals (env : Env) (st st1 : AMDTADLUtils)
    (info : ADLVersionsInfo) (a b c tail : List Char)
    (ha : IsNumeral a) (hb : IsNumeral b) (hc : IsNumeral c)
    (hq : GetADLVersionsInfo env st = .ok (ADL_SUCCESS, info, st1))
    (hlen : info.strDriverVer.length < SIZE_MOD) :
    ((tail = [] ∨ tail.head? = some '-' ∨ tail.head? = some '.') →
      info.strDriverVer = a ++ ['.'] ++ b ++ ['.'] ++ c ++ tail →
      GetDriverVersion env st =
        .ok (ADL_SUCCESS, digitsValue 10 a, digitsValue 10 b, digitsValue 10 c, st1)) ∧
    ((tail = [] ∨ tail.head? = some '-') →
      info.strDriverVer = a ++ ['.'] ++ b ++ tail →
      GetDriverVersion env st =
        .ok (ADL_SUCCESS, digitsValue 10 a, digitsValue 10 b, 0, st1)) := by
  constructor
  · intro ht hraw
    have hraw' : info.strDriverVer = a ++ '.' :: (b ++ '.' :: (c ++ tail)) := by
      rw [hraw]; simp
    rw [hraw'] at hlen
    have hp := parse_three a b c tail ha hb hc ht hlen
    rw [← hraw'] at hp
    exact GetDriverVersion_of_success env st st1 info _ hq hp
  · intro ht hraw
    have hraw' : info.strDriverVer = a ++ '.' :: (b ++ tail) := by
      rw [hraw]; simp
    rw [hraw'] at hlen
    have hp := parse_two a b tail ha hb ht hlen
    rw [← hraw'] at hp
    exact GetDriverVersion_of_success env st st1 info _ hq hp

/-- Witness of C1 on the two driver strings of the source comment, with the
version query answered by a healthy library. -/
theorem C1_GetDriverVersion_numerals_witness :
    GetDriverVersion (Env.healthy "13.35.1005-140131a-167669E-ATI".toList []) AMDTADLUtils.fresh =
      .ok (ADL_SUCCESS, 13, 35, 1005,
        stateAfter (run (Env.healthy "13.35.1005-140131a-167669E-ATI".toList [])
          AMDTADLUtils.fresh [.GetADLVersionsInfo])) ∧
    GetDriverVersion (Env.healthy "14.10-140115n-021649E-ATI".toList []) AMDTADLUtils.fresh =
      .ok (ADL_SUCCESS, 14, 10, 0,
        stateAfter (run (Env.healthy "14.10-140115n-021649E-ATI".toList [])
          AMDTADLUtils.fresh [.GetADLVersionsInfo])) :=
  ⟨(C1_GetDriverVersion_numerals (Env.healthy "13.35.1005-140131a-167669E-ATI".toList [])
      AMDTADLUtils.fresh _ ⟨"13.35.1005-140131a-167669E-ATI".toList, [], []⟩
      "13".toList "35".toList "1005".toList "-140131a-167669E-ATI".toList
      ⟨by decide, by decide, by decide⟩ ⟨by decide, by decide, by decide⟩
      ⟨by decide, by decide, by decide⟩ (by rfl) (by decide)).1 (by decide) (by rfl),
   (C1_GetDriverVersion_numerals (Env.healthy "14.10-140115n-021649E-ATI".toList [])
      AMDTADLUtils.fresh _ ⟨"14.10-140115n-021649E-ATI".toList, [], []⟩
      "14".toList "10".toList "1".toList "-140115n-021649E-ATI".toList
      ⟨by decide, by decide, by decide⟩ ⟨by decide, by decide, by decide⟩
      ⟨by decide, by decide, by decide⟩ (by rfl) (by decide)).2 (by decide) (by rfl)⟩

/-- Claim C2, evaluated on the code. With the version query succeeding on the
raw driver string `7` (no dash, no period), `GetDriverVersion` returns
`ADL_SUCCESS` with `(0, 0, 0)`: the major number is read only under
`if (pos != npos)`, that is when the string holds a period. The same holds for
`2024` and for `7-beta`. -/
theorem C2_no_period_gives_zero_major :
    (GetDriverVersion (Env.healthy "7".toList []) AMDTADLUtils.fresh).map
        (fun r => (r.1, r.2.1, r.2.2.1, r.2.2.2.1)) = .ok (ADL_SUCCESS, 0, 0, 0) ∧
    (GetDriverVersion (Env.healthy "2024".toList []) AMDTADLUtils.fresh).map
        (fun r => (r.1, r.2.1, r.2.2.1, r.2.2.2.1)) = .ok (ADL_SUCCESS, 0, 0, 0) ∧
    (GetDriverVersion (Env.healthy "7-beta".toList []) AMDTADLUtils.fresh).map
        (fun r => (r.1, r.2.1, r.2.2.1, r.2.2.2.1)) = .ok (ADL_SUCCESS, 0, 0, 0) := by
  refine ⟨?_, ?_, ?_⟩ <;> rfl

/-- The record built from an identifier string in which the three markers are
found and followed by hex digits. -/
theorem buildAsicInfo_of_fields (ndebug : Bool) (info : AdapterInfo) (d : List Char)
    (vv dv rv : Int)
    (h1 : parseVendorID ndebug (ofCStr info.strUDID) = .ok vv)
    (h2 : parseDeviceID ndebug (ofCStr info.strUDID) = .ok (d, dv))
    (h3 : parseRevID ndebug (ofCStr info.strUDID) = .ok rv) :
    buildAsicInfo ndebug info =
      (trimAdapterName (ofCStr info.strAdapterName)).map (fun name =>
        { adapterName := name
          deviceIDString := d
          vendorID := vv
          deviceID := dv
          revID := rv
          gpuIndex := 0
          registryPath := info.strDriverPath
          registryPathExt := info.strDriverPathExt }) := by
  unfold buildAsicInfo
  simp only [h1, h2, h3, bind, Except.bind, pure, Except.pure, Except.map]

/-- The loop body on a well-formed identifier string. For every composite
identifier string of the form
`pre ++ "PCI_VEN_" ++ v ++ "&DEV_" ++ d ++ "&REV_" ++ r ++ post`, where `v` and
`d` are four hex digits, `r` is two hex digits and `pre` contains none of the
three markers, the loop body gives exactly the record with `vendorID` the hex
value of `v`, `deviceID` the hex value of `d`, `deviceIDString = d`, `revID`
the hex value of `r` and the trimmed name, whenever the trimming of the name
gives one. -/
theorem buildAsicInfo_identifier_fields (ndebug : Bool) (info : AdapterInfo)
    (pre v d r post : List Char)
    (hv : IsHex 4 v) (hd : IsHex 4 d) (hr : IsHex 2 r)
    (hpv : ¬ PCI_VEN <:+: pre) (hpd : ¬ DEV <:+: pre) (hpr : ¬ REV <:+: pre)
    (hud : info.strUDID = pre ++ PCI_VEN ++ v ++ DEV ++ d ++ REV ++ r ++ post)
    (hlen : info.strUDID.length < SIZE_MOD) :
    buildAsicInfo ndebug info =
      (trimAdapterName (ofCStr info.strAdapterName)).map (fun name =>
        { adapterName := name
          deviceIDString := d
          vendorID := (digitsValue 16 v : Int)
          deviceID := (digitsValue 16 d : Int)
          revID := (digitsValue 16 r : Int)
          gpuIndex := 0
          registryPath := info.strDriverPath
          registryPathExt := info.strDriverPathExt }) := by
  rw [hud] at hlen
  obtain ⟨h1, h2, h3⟩ := udid_fields ndebug pre v d r post hv hd hr hpv hpd hpr hlen
  rw [← hud] at h1 h2 h3
  exact buildAsicInfo_of_fields ndebug info d _ _ _ h1 h2 h3

/-- Claim C4, evaluated on the code. For the identifier string `0123456789AB`,
which holds none of the three markers, the record built by the adapter loop has
`vendorID = 0x789A`, `deviceID = 0x4567`, `deviceIDString = 4567` and
`revID = 0x45`, not zero and the empty string: `find` gives `npos`, the length
of the marker is added before the comparison with `npos`, so the index is `7`
(or `4`) and the characters found there are parsed. For an empty identifier
string the loop body throws `std::out_of_range`. -/
theorem C4_missing_marker_fields_not_zero :
    buildAsicInfo true ⟨"0123456789AB".toList, "GPU".toList, [], []⟩ =
      .ok { adapterName := "GPU".toList
            deviceIDString := "4567".toList
            vendorID := 0x789A
            deviceID := 0x4567
            revID := 0x45
            gpuIndex := 0
            registryPath := []
            registryPathExt := [] } ∧
    buildAsicInfo true ⟨[], "GPU".toList, [], []⟩ = .error .out_of_range := by
  constructor <;> rfl

/-- The trimming on a name with a non-space character. For every raw adapter
name (shorter than `2 ^ 64`) that contains at least one non-space character,
the trimming returns a name with `raw = adapterName ++ (k spaces)` for some
`k`, the name does not end with a space, and every record that the loop body
builds from an adapter with this raw name carries it. -/
theorem trimAdapterName_trailing_spaces (raw : List Char) (hns : ∃ c ∈ raw, c ≠ ' ')
    (hlen : raw.length < SIZE_MOD) :
    ∃ (adapterName : List Char) (k : Nat),
      trimAdapterName (ofCStr raw) = .ok adapterName ∧
      raw = adapterName ++ List.replicate k ' ' ∧
      adapterName.getLast? ≠ some ' ' ∧
      ∀ (ndebug : Bool) (info : AdapterInfo) (asicInfo : ADLUtil_ASICInfo),
        info.strAdapterName = raw → buildAsicInfo ndebug info = .ok asicInfo →
        asicInfo.adapterName = adapterName := by
  obtain ⟨t, k, hraw, hl⟩ := exists_trailing_spaces raw
  have ht : t ≠ [] := by
    rintro rfl
    obtain ⟨c, hc, hne⟩ := hns
    rw [hraw] at hc
    simp at hc
    exact hne hc.2
  have htrim : trimAdapterName (ofCStr raw) = .ok t := by
    rw [hraw] at hlen ⊢
    exact trimAdapterName_spaces t k ht hl hlen
  refine ⟨t, k, htrim, hraw, hl, ?_⟩
  intro ndebug info asicInfo hn hb
  unfold buildAsicInfo at hb
  simp only [hn, htrim, bind, Except.bind, pure, Except.pure] at hb
  cases h1 : parseVendorID ndebug (ofCStr info.strUDID) with
  | error e => simp [h1] at hb
  | ok vv =>
    cases h2 : parseDeviceID ndebug (ofCStr info.strUDID) with
    | error e => simp [h1, h2] at hb
    | ok dv =>
      cases h3 : parseRevID ndebug (ofCStr info.strUDID) with
      | error e => simp [h1, h2, h3] at hb
      | ok rv =>
        simp only [h1, h2, h3, Except.ok.injEq] at hb
        rw [← hb]

/-- Claim C6, evaluated on the code. For the adapter names of three spaces, of
one space and of no character, the backward scan leaves the name: it ends in a
read through `operator[]` at a position that is not below `size()` (position
`2 ^ 64 - 1` after the scan position has wrapped), which is undefined
behaviour, and no `adapterName` is stored; so no record is built for such an
adapter. -/
theorem C6_all_spaces_scan_out_of_bounds :
    trimAdapterName (ofCStr "   ".toList) = .error .out_of_bounds ∧
    trimAdapterName (ofCStr " ".toList) = .error .out_of_bounds ∧
    trimAdapterName (ofCStr []) = .error .out_of_bounds ∧
    trimLoop (ofCStr "   ".toList) 1 npos = .error .out_of_bounds ∧
    buildAsicInfo true { AdapterInfo.sample with strAdapterName := "   ".toList } =
      .error .out_of_bounds := by
  refine ⟨?_, ?_, ?_, ?_, ?_⟩ <;> rfl

/-- Claim C7 as stated fails. With a healthy library that reports one adapter
and an allocator that does not give the scratch buffer, the first
`GetAsicInfoList` call on the fresh singleton returns
`ADL_GET_ADAPTER_INFO_FAILED` and the second call, with no operation in
between, returns `ADL_SUCCESS` with an empty list. And with a healthy library
that reports one adapter whose identifier string is empty, the first call
returns no status at all: it throws `std::out_of_range`. -/
theorem C7_counterexample_allocation_failure :
    AMDTADLUtils.fresh.m_asicInfoListRetVal = ADL_RESULT_NONE ∧
    (GetAsicInfoList (Env.allocationFails [AdapterInfo.sample]) AMDTADLUtils.fresh []).map
        (fun r => (r.1, r.2.1)) = .ok (ADL_GET_ADAPTER_INFO_FAILED, []) ∧
    (GetAsicInfoList (Env.allocationFails [AdapterInfo.sample])
        (stateAfter (run (Env.allocationFails [AdapterInfo.sample]) AMDTADLUtils.fresh
          [.GetAsicInfoList])) []).map
        (fun r => (r.1, r.2.1)) = .ok (ADL_SUCCESS, []) ∧
    GetAsicInfoList (Env.healthy [] [{ AdapterInfo.sample with strUDID := [] }])
        AMDTADLUtils.fresh [] = .error .out_of_range := by
  refine ⟨?_, ?_, ?_, ?_⟩ <;> rfl

/-- Claim C7, amended. Starting from a state with no cached adapter result, for
every behaviour of the loader and of the vendor library, when the allocation of
the scratch buffer does not fail and the first `GetAsicInfoList` call returns
(no fault while the records are built): a second call, with no operation in
between, returns the same status and the same list and leaves the state as it
is (so it makes no external call), and across the two calls the vendor
adapter-count entry points and the vendor adapter-info entry points are each
called at most once. -/
theorem C7_second_call_returns_cache (env : Env) (st st1 : AMDTADLUtils)
    (out l : AsicInfoList) (r : ADLUtil_Result)
    (h0 : st.m_asicInfoListRetVal = ADL_RESULT_NONE)
    (hm : ∀ t, env.malloc t = true)
    (h1 : GetAsicInfoList env st out = .ok (r, l, st1)) :
    (∀ out2, GetAsicInfoList env st1 out2 = .ok (r, l, st1)) ∧
    (callsSince st st1).countP Event.isAdapterCount ≤ 1 ∧
    (callsSince st st1).countP Event.isAdapterInfo ≤ 1 := by
  obtain ⟨hr, hl, hne, evs, hev, hc, hi⟩ := GetAsicInfoList_first env st st1 out l r h0 hm h1
  have hcs : callsSince st st1 = evs := by
    simp [callsSince, hev]
  refine ⟨?_, by rw [hcs]; exact hc, by rw [hcs]; exact hi⟩
  intro out2
  rw [GetAsicInfoList_cached env st1 out2 (by rw [hr]; exact hne), hr, hl]

/-- Witness of the amended C7: a healthy library that reports the sample
adapter; both calls return `ADL_SUCCESS` and the one record. -/
theorem C7_second_call_returns_cache_witness :
    (∀ out2, GetAsicInfoList (Env.healthy [] [AdapterInfo.sample])
        (stateAfter (run (Env.healthy [] [AdapterInfo.sample]) AMDTADLUtils.fresh
          [.GetAsicInfoList])) out2 =
      .ok (ADL_SUCCESS,
        [{ adapterName := "Radeon RX 6800".toList
           deviceIDString := "67DF".toList
           vendorID := 0x1002
           deviceID := 0x67DF
           revID := 0xC1
           gpuIndex := 0
           registryPath := []
           registryPathExt := [] }],
        stateAfter (run (Env.healthy [] [AdapterInfo.sample]) AMDTADLUtils.fresh
          [.GetAsicInfoList]))) ∧
    (callsSince AMDTADLUtils.fresh
      (stateAfter (run (Env.healthy [] [AdapterInfo.sample]) AMDTADLUtils.fresh
        [.GetAsicInfoList]))).countP Event.isAdapterCount ≤ 1 ∧
    (callsSince AMDTADLUtils.fresh
      (stateAfter (run (Env.healthy [] [AdapterInfo.sample]) AMDTADLUtils.fresh
        [.GetAsicInfoList]))).countP Event.isAdapterInfo ≤ 1 :=
  C7_second_call_returns_cache (Env.healthy [] [AdapterInfo.sample]) AMDTADLUtils.fresh _ [] _ _
    (by rfl) (fun _ => rfl) (by rfl)

/-- Claim C9, evaluated on the code. When the library is not loaded, the
platform loader fails to load the image and, as usual, no symbol resolves in
the null module, `LoadAndInit` returns `ADL_MISSING_ENTRYPOINTS`, not
`ADL_NOT_FOUND`: the symbol loop runs although the load failed and overwrites
`result`. A first-time `GetAsicInfoList` or `GetADLVersionsInfo` returns
`ADL_MISSING_ENTRYPOINTS` as well. -/
theorem C9_load_failure_returns_missing_entrypoints :
    AMDTADLUtils.fresh.m_libHandle = none ∧
    Env.noLibrary.LoadLibraryA AMDTADLUtils.fresh.calls.length = none ∧
    (LoadAndInit Env.noLibrary AMDTADLUtils.fresh).map (·.1) = .ok ADL_MISSING_ENTRYPOINTS ∧
    (GetAsicInfoList Env.noLibrary AMDTADLUtils.fresh []).map (·.1) =
      .ok ADL_MISSING_ENTRYPOINTS ∧
    (GetADLVersionsInfo Env.noLibrary AMDTADLUtils.fresh).map (·.1) =
      .ok ADL_MISSING_ENTRYPOINTS := by
  refine ⟨?_, ?_, ?_, ?_, ?_⟩ <;> rfl

/-- Witness of C10: a library that exports the five legacy entry points only,
on the fresh singleton; `ADL2_Main_Control_Create` does not resolve. -/
theorem C10_missing_entry_point_witness :
    ∃ st1, LoadAndInit Env.legacyOnly AMDTADLUtils.fresh =
        .ok (ADL_MISSING_ENTRYPOINTS, st1) ∧
      st1.m_libHandle = none ∧ st1.m_adlContext = none ∧
      ∃ evs, st1.calls = AMDTADLUtils.fresh.calls ++ evs ∧ ∀ e ∈ evs, e.isCreate = false :=
  C10_missing_entry_point Env.legacyOnly AMDTADLUtils.fresh 1 .ADL2_Main_Control_Create
    (by rfl) (by rfl) (by rfl) (fun _ => rfl)

theorem FunctionTable.get_set_same (t : FunctionTable) (s : Sym) (v : Bool) :
    (t.set s v).get s = v := by
  cases s <;> rfl

theorem FunctionTable.get_set_other (t : FunctionTable) (s s1 : Sym) (v : Bool)
    (h : s1 ≠ s) : (t.set s v).get s1 = t.get s1 := by
  cases s <;> cases s1 <;> first | rfl | exact absurd rfl h

theorem FunctionTable.eq_full (t : FunctionTable) (h : ∀ s, t.get s = true) :
    t = FunctionTable.full := by
  have h1 := h .ADL_Main_Control_Create
  have h2 := h .ADL_Main_Control_Destroy
  have h3 := h .ADL2_Main_Control_Create
  have h4 := h .ADL2_Main_Control_Destroy
  have h5 := h .ADL_Adapter_NumberOfAdapters_Get
  have h6 := h .ADL_Adapter_AdapterInfo_Get
  have h7 := h .ADL2_Adapter_NumberOfAdapters_Get
  have h8 := h .ADL2_Adapter_AdapterInfo_Get
  have h9 := h .ADL_Graphics_Versions_Get
  have h10 := h .ADL2_Graphics_Versions_Get
  cases t
  simp only [FunctionTable.get] at h1 h2 h3 h4 h5 h6 h7 h8 h9 h10
  simp [FunctionTable.full, h1, h2, h3, h4, h5, h6, h7, h8, h9, h10]

/-- What the look-up of one symbol leaves alone. -/
theorem resolveEntry_frame (env : Env) (st : AMDTADLUtils) (sym : Sym) :
    (resolveEntry env st sym).m_asicInfoList = st.m_asicInfoList ∧
    (resolveEntry env st sym).m_asicInfoListRetVal = st.m_asicInfoListRetVal ∧
    (resolveEntry env st sym).m_versionRetVal = st.m_versionRetVal ∧
    (resolveEntry env st sym).m_adlVersionsInfo = st.m_adlVersionsInfo ∧
    (resolveEntry env st sym).table =
      st.table.set sym (env.GetProcAddress st.calls.length st.m_libHandle sym) :=
  ⟨rfl, rfl, rfl, rfl, rfl⟩

/-- The symbol loop when every symbol resolves in the loaded image: `result`
and the members other than the table are kept, every symbol of the loop is
bound, and one look-up per symbol is made. -/
theorem bindLoop_all_resolve (env : Env) (h : Nat)
    (hall : ∀ t sym, env.GetProcAddress t (some h) sym = true) (syms : List Sym) :
    ∀ acc : ADLUtil_Result × AMDTADLUtils, acc.2.m_libHandle = some h →
      (syms.foldl (bindEntry env) acc).1 = acc.1 ∧
      (syms.foldl (bindEntry env) acc).2.m_libHandle = some h ∧
      (syms.foldl (bindEntry env) acc).2.m_adlContext = acc.2.m_adlContext ∧
      (syms.foldl (bindEntry env) acc).2.calls.length = acc.2.calls.length + syms.length ∧
      (∀ s, s ∈ syms ∨ acc.2.table.get s = true →
        (syms.foldl (bindEntry env) acc).2.table.get s = true) := by
  induction syms with
  | nil =>
    intro acc hh
    refine ⟨rfl, hh, rfl, rfl, ?_⟩
    intro s hs
    rcases hs with hs | hs
    · simp at hs
    · exact hs
  | cons x xs ih =>
    intro acc hh
    have hp : env.GetProcAddress acc.2.calls.length acc.2.m_libHandle x = true := by
      rw [hh]; exact hall _ _
    rw [List.foldl_cons, bindEntry_of_true env acc x hp]
    obtain ⟨a, b, c, d, e⟩ := ih (acc.1, resolveEntry env acc.2 x) hh
    refine ⟨a, b, c, ?_, ?_⟩
    · rw [d, (resolveEntry_fields env acc.2 x).2.2]
      simp
      omega
    · intro s hs
      apply e
      have hset : ∀ s1, s1 = x → (resolveEntry env acc.2 x).table.get s1 = true := by
        intro s1 h1
        subst h1
        rw [(resolveEntry_frame env acc.2 s1).2.2.2.2, hp]
        exact FunctionTable.get_set_same _ _ _
      rcases hs with hs | hs
      · rcases List.mem_cons.mp hs with hs | hs
        · exact Or.inr (hset s hs)
        · exact Or.inl hs
      · right
        by_cases hsx : s = x
        · exact hset s hsx
        · show (resolveEntry env acc.2 x).table.get s = true
          rw [(resolveEntry_frame env acc.2 x).2.2.2.2, FunctionTable.get_set_other _ _ _ _ hsx]
          exact hs

/-- What the symbol loop leaves alone when `result` is still `ADL_SUCCESS` after
it: no symbol was missing, so nothing was unloaded or reset. -/
theorem bindLoop_success_frame (env : Env) (syms : List Sym) :
    ∀ acc : ADLUtil_Result × AMDTADLUtils,
      (syms.foldl (bindEntry env) acc).1 = ADL_SUCCESS →
      acc.1 = ADL_SUCCESS ∧
      (syms.foldl (bindEntry env) acc).2.m_asicInfoList = acc.2.m_asicInfoList ∧
      (syms.foldl (bindEntry env) acc).2.m_asicInfoListRetVal = acc.2.m_asicInfoListRetVal ∧
      (syms.foldl (bindEntry env) acc).2.m_versionRetVal = acc.2.m_versionRetVal ∧
      (syms.foldl (bindEntry env) acc).2.m_adlVersionsInfo = acc.2.m_adlVersionsInfo := by
  induction syms with
  | nil => intro acc h; exact ⟨h, rfl, rfl, rfl, rfl⟩
  | cons x xs ih =>
    intro acc h
    rw [List.foldl_cons] at h ⊢
    obtain ⟨a, b, c, d, e⟩ := ih _ h
    cases hp : env.GetProcAddress acc.2.calls.length acc.2.m_libHandle x with
    | false =>
      rw [bindEntry_of_false env acc x hp] at a
      simp at a
    | true =>
      rw [bindEntry_of_true env acc x hp] at a b c d e ⊢
      obtain ⟨f1, f2, f3, f4, -⟩ := resolveEntry_frame env acc.2 x
      exact ⟨a, b.trans f1, c.trans f2, d.trans f3, e.trans f4⟩

/-- What a context creation that gives `ADL_SUCCESS` leaves alone. -/
theorem createContext_success_frame (env : Env) (st st1 : AMDTADLUtils)
    (h : createContext env st = .ok (ADL_SUCCESS, st1)) :
    st1.m_asicInfoList = st.m_asicInfoList ∧
    st1.m_asicInfoListRetVal = st.m_asicInfoListRetVal ∧
    st1.m_versionRetVal = st.m_versionRetVal ∧
    st1.m_adlVersionsInfo = st.m_adlVersionsInfo ∧
    st1.m_libHandle = st.m_libHandle ∧ st1.table = st.table := by
  unfold createContext at h
  split at h
  · dsimp only at h
    split at h
    · simp at h
    · simp only [Except.ok.injEq, Prod.mk.injEq, true_and] at h
      subst h
      exact ⟨rfl, rfl, rfl, rfl, rfl, rfl⟩
  · split at h
    · dsimp only at h
      split at h
      · simp at h
      · simp only [Except.ok.injEq, Prod.mk.injEq, true_and] at h
        subst h
        exact ⟨rfl, rfl, rfl, rfl, rfl, rfl⟩
    · simp at h

/-- What a `LoadAndInit` that gives `ADL_SUCCESS` leaves alone: the two caches. -/
theorem LoadAndInit_success_frame (env : Env) (st st1 : AMDTADLUtils)
    (h : LoadAndInit env st = .ok (ADL_SUCCESS, st1)) :
    st1.m_asicInfoList = st.m_asicInfoList ∧
    st1.m_asicInfoListRetVal = st.m_asicInfoListRetVal ∧
    st1.m_versionRetVal = st.m_versionRetVal ∧
    st1.m_adlVersionsInfo = st.m_adlVersionsInfo := by
  unfold LoadAndInit at h
  cases hh : st.m_libHandle with
  | some x =>
    simp only [hh, Except.ok.injEq, Prod.mk.injEq, true_and] at h
    subst h
    exact ⟨rfl, rfl, rfl, rfl⟩
  | none =>
    simp only [hh] at h
    generalize (if (loadLibrary env st).m_libHandle = none then ADL_NOT_FOUND
        else ADL_SUCCESS) = res0 at h
    split at h
    · rename_i hs
      obtain ⟨-, a, b, c, d⟩ := bindLoop_success_frame env ADL_INTERFACE_TABLE _ hs
      obtain ⟨a1, b1, c1, d1, -, -⟩ := createContext_success_frame env _ st1 h
      exact ⟨a1.trans a, b1.trans b, c1.trans c, d1.trans d⟩
    · rename_i hs
      simp only [Except.ok.injEq] at h
      rw [h] at hs
      exact absurd rfl hs

/-- Claim C11. When the library is not loaded, the image loads (handle `h`) and
all ten entry points resolve in it, `LoadAndInit` calls the context-creation
entry point as its twelfth external call (after one load and ten look-ups): if
that call returns `ADL_OK` or the advisory-warning code, `LoadAndInit` returns
`ADL_SUCCESS` and leaves the instance loaded (handle `h`, all ten table entries
bound); for every other return code it returns `ADL_INITIALIZATION_FAILED` and
leaves the instance unloaded (handle null, all table entries absent). -/
theorem C11_context_creation_decides (env : Env) (st : AMDTADLUtils) (h : Nat)
    (hnull : st.m_libHandle = none)
    (hload : env.LoadLibraryA st.calls.length = some h)
    (hall : ∀ t sym, env.GetProcAddress t (some h) sym = true) :
    ((env.Main_Control_Create (st.calls.length + 11) .ADL2_Main_Control_Create
          st.m_adlContext).1 = ADL_OK ∨
      (env.Main_Control_Create (st.calls.length + 11) .ADL2_Main_Control_Create
          st.m_adlContext).1 = ADL_OK_WARNING →
      ∃ st1, LoadAndInit env st = .ok (ADL_SUCCESS, st1) ∧
        st1.m_libHandle = some h ∧ st1.table = FunctionTable.full) ∧
    (¬ ((env.Main_Control_Create (st.calls.length + 11) .ADL2_Main_Control_Create
          st.m_adlContext).1 = ADL_OK ∨
        (env.Main_Control_Create (st.calls.length + 11) .ADL2_Main_Control_Create
          st.m_adlContext).1 = ADL_OK_WARNING) →
      ∃ st1, LoadAndInit env st = .ok (ADL_INITIALIZATION_FAILED, st1) ∧
        st1.m_libHandle = none ∧ st1.table = FunctionTable.clear) := by
  obtain ⟨hl1, hl2, hl3⟩ := loadLibrary_fields env st
  rw [hload] at hl1
  obtain ⟨a, b, c, d, e⟩ := bindLoop_all_resolve env h hall ADL_INTERFACE_TABLE
    (ADL_SUCCESS, loadLibrary env st) hl1
  have hfull : (ADL_INTERFACE_TABLE.foldl (bindEntry env)
      (ADL_SUCCESS, loadLibrary env st)).2.table = FunctionTable.full :=
    FunctionTable.eq_full _ (fun s => e s (Or.inl (mem_ADL_INTERFACE_TABLE s)))
  have hlen : (ADL_INTERFACE_TABLE.foldl (bindEntry env)
      (ADL_SUCCESS, loadLibrary env st)).2.calls.length = st.calls.length + 11 := by
    rw [d]
    simp only [hl3, List.length_append, List.length_singleton, ADL_INTERFACE_TABLE,
      List.length_cons, List.length_nil]
  have hctx : (ADL_INTERFACE_TABLE.foldl (bindEntry env)
      (ADL_SUCCESS, loadLibrary env st)).2.m_adlContext = st.m_adlContext := c.trans hl2
  have hLI : LoadAndInit env st = createContext env
      (ADL_INTERFACE_TABLE.foldl (bindEntry env) (ADL_SUCCESS, loadLibrary env st)).2 := by
    unfold LoadAndInit
    simp only [hnull, hl1, reduceCtorEq, ↓reduceIte, a]
  have hcreate : (ADL_INTERFACE_TABLE.foldl (bindEntry env)
      (ADL_SUCCESS, loadLibrary env st)).2.table.m_ADL2_Main_Control_Create = true := by
    rw [hfull]; rfl
  constructor
  · intro hcode
    rw [hLI]
    unfold createContext
    simp only [hcreate, ↓reduceIte, hlen, hctx]
    rw [if_neg (by
      intro hne
      rcases hcode with hc | hc
      · exact hne.1 hc
      · exact hne.2 hc)]
    exact ⟨_, rfl, b, hfull⟩
  · intro hcode
    have hne : (env.Main_Control_Create (st.calls.length + 11) .ADL2_Main_Control_Create
          st.m_adlContext).1 ≠ ADL_OK ∧
        (env.Main_Control_Create (st.calls.length + 11) .ADL2_Main_Control_Create
          st.m_adlContext).1 ≠ ADL_OK_WARNING :=
      ⟨fun hc => hcode (Or.inl hc), fun hc => hcode (Or.inr hc)⟩
    rw [hLI]
    unfold createContext
    simp only [hcreate, ↓reduceIte, hlen, hctx]
    rw [if_pos hne]
    refine ⟨_, rfl, (Unload_fields _).1, ?_⟩
    unfold Unload
    simp only [AMDTADLUtils.log, b, Reset]

/-- Witness of C11: a healthy library whose context creation returns `ADL_OK`,
and one whose context creation returns `-1`, both on the fresh singleton. -/
theorem C11_context_creation_decides_witness :
    (∃ st1, LoadAndInit (Env.createCode ADL_OK) AMDTADLUtils.fresh = .ok (ADL_SUCCESS, st1) ∧
      st1.m_libHandle = some 1 ∧ st1.table = FunctionTable.full) ∧
    (∃ st1, LoadAndInit (Env.createCode (-1)) AMDTADLUtils.fresh =
        .ok (ADL_INITIALIZATION_FAILED, st1) ∧
      st1.m_libHandle = none ∧ st1.table = FunctionTable.clear) :=
  ⟨(C11_context_creation_decides (Env.createCode ADL_OK) AMDTADLUtils.fresh 1
      (by rfl) (by rfl) (fun _ _ => rfl)).1 (Or.inl (by rfl)),
   (C11_context_creation_decides (Env.createCode (-1)) AMDTADLUtils.fresh 1
      (by rfl) (by rfl) (fun _ _ => rfl)).2 (by decide)⟩

/-- Claim C16. In a first-time `GetADLVersionsInfo` with a successful load, the
returned and cached status is determined by the return code of the vendor
version query: `ADL_OK` gives `ADL_SUCCESS`, the advisory-warning code gives
`ADL_WARNING`, every other code gives `ADL_GRAPHICS_VERSIONS_GET_FAILED`; and
in all three cases a second call returns the same status and the same record
and leaves the state as it is, so it does not call the version entry point
again. Here `s0` is the state after the load and `s2` the state after the
version query. -/
theorem C16_version_status_from_code (env : Env) (st s0 s2 : AMDTADLUtils) (code : Int)
    (h0 : st.m_versionRetVal = ADL_RESULT_NONE)
    (hload : LoadAndInit env st = .ok (ADL_SUCCESS, s0))
    (hq : queryVersions env { s0 with m_versionRetVal := ADL_SUCCESS } = .ok (code, s2)) :
    (code = ADL_OK → versionStatusOf code = ADL_SUCCESS) ∧
    (code = ADL_OK_WARNING → versionStatusOf code = ADL_WARNING) ∧
    (code ≠ ADL_OK → code ≠ ADL_OK_WARNING →
      versionStatusOf code = ADL_GRAPHICS_VERSIONS_GET_FAILED) ∧
    ∃ st1, GetADLVersionsInfo env st = .ok (versionStatusOf code, s2.m_adlVersionsInfo, st1) ∧
      st1.m_versionRetVal = versionStatusOf code ∧
      GetADLVersionsInfo env st1 = .ok (versionStatusOf code, s2.m_adlVersionsInfo, st1) := by
  refine ⟨?_, ?_, ?_, ?_⟩
  · intro hc; simp [versionStatusOf, hc]
  · intro hc; subst hc; simp [versionStatusOf, ADL_OK, ADL_OK_WARNING]
  · intro h1 h2; simp [versionStatusOf, h1, h2]
  · obtain ⟨-, hv, -, -⟩ := queryVersions_ok env _ s2 code hq
    have hfirst : ∃ st1, GetADLVersionsInfo env st =
          .ok (versionStatusOf code, s2.m_adlVersionsInfo, st1) ∧
        st1.m_versionRetVal = versionStatusOf code ∧
        st1.m_adlVersionsInfo = s2.m_adlVersionsInfo := by
      unfold GetADLVersionsInfo
      simp only [h0, ↓reduceIte, hload, hq]
      by_cases hc : code = ADL_OK
      · subst hc
        simp only [ne_eq, not_true_eq_false, ↓reduceIte, versionStatusOf]
        exact ⟨_, by rw [hv], hv, rfl⟩
      · have hc' : ¬ ADL_OK = code := fun e => hc e.symm
        by_cases hw : code = ADL_OK_WARNING
        · subst hw
          simp only [ne_eq, hc', not_false_eq_true, ↓reduceIte, versionStatusOf, hc]
          exact ⟨_, rfl, rfl, rfl⟩
        · have hw' : ¬ ADL_OK_WARNING = code := fun e => hw e.symm
          simp only [ne_eq, hc', not_false_eq_true, ↓reduceIte, versionStatusOf, hc, hw, hw']
          exact ⟨_, rfl, rfl, rfl⟩
    obtain ⟨st1, hcall, hs, hi⟩ := hfirst
    refine ⟨st1, hcall, hs, ?_⟩
    have hne : st1.m_versionRetVal ≠ ADL_RESULT_NONE := by
      rw [hs]
      unfold versionStatusOf
      split
      · simp
      · split <;> simp
    rw [GetADLVersionsInfo_cached env st1 hne, hs, hi]

/-- Witness of C16: a healthy library whose version query returns the
advisory-warning code; both calls return `ADL_WARNING`. -/
theorem C16_version_status_from_code_witness :
    (ADL_OK_WARNING = ADL_OK → versionStatusOf ADL_OK_WARNING = ADL_SUCCESS) ∧
    (ADL_OK_WARNING = ADL_OK_WARNING → versionStatusOf ADL_OK_WARNING = ADL_WARNING) ∧
    (ADL_OK_WARNING ≠ ADL_OK → ADL_OK_WARNING ≠ ADL_OK_WARNING →
      versionStatusOf ADL_OK_WARNING = ADL_GRAPHICS_VERSIONS_GET_FAILED) ∧
    ∃ st1, GetADLVersionsInfo (Env.versionCode ADL_OK_WARNING "1.2".toList) AMDTADLUtils.fresh =
        .ok (versionStatusOf ADL_OK_WARNING,
          ({ stateAfter (run (Env.versionCode ADL_OK_WARNING "1.2".toList) AMDTADLUtils.fresh
              [.GetADLVersionsInfo]) with
            m_versionRetVal := ADL_SUCCESS } : AMDTADLUtils).m_adlVersionsInfo, st1) ∧
      st1.m_versionRetVal = versionStatusOf ADL_OK_WARNING ∧
      GetADLVersionsInfo (Env.versionCode ADL_OK_WARNING "1.2".toList) st1 =
        .ok (versionStatusOf ADL_OK_WARNING,
          ({ stateAfter (run (Env.versionCode ADL_OK_WARNING "1.2".toList) AMDTADLUtils.fresh
              [.GetADLVersionsInfo]) with
            m_versionRetVal := ADL_SUCCESS } : AMDTADLUtils).m_adlVersionsInfo, st1) :=
  C16_version_status_from_code (Env.versionCode ADL_OK_WARNING "1.2".toList) AMDTADLUtils.fresh
    (stateAfter (run (Env.versionCode ADL_OK_WARNING "1.2".toList) AMDTADLUtils.fresh
      [.LoadAndInit]))
    { stateAfter (run (Env.versionCode ADL_OK_WARNING "1.2".toList) AMDTADLUtils.fresh
        [.GetADLVersionsInfo]) with m_versionRetVal := ADL_SUCCESS }
    ADL_OK_WARNING (by rfl) (by rfl) (by rfl)

/-- Claim C17. If the load succeeds (state `s0`) and the vendor adapter-count
query returns `ADL_OK` with a count of zero (state `s1`), a first-time
`GetAsicInfoList` (no cached status, empty cached list) returns `ADL_SUCCESS`
with an empty list, and calls no adapter-info entry point. -/
theorem C17_zero_adapters (env : Env) (st s0 s1 : AMDTADLUtils) (out : AsicInfoList)
    (h0 : st.m_asicInfoListRetVal = ADL_RESULT_NONE) (hl0 : st.m_asicInfoList = [])
    (hload : LoadAndInit env st = .ok (ADL_SUCCESS, s0))
    (hq : queryNumAdapters env { s0 with m_asicInfoListRetVal := ADL_SUCCESS } =
      .ok (ADL_OK, 0, s1)) :
    GetAsicInfoList env st out = .ok (ADL_SUCCESS, [], s1) ∧
    (callsSince st s1).countP Event.isAdapterInfo = 0 := by
  obtain ⟨hlist, -, -, -⟩ := LoadAndInit_success_frame env st s0 hload
  obtain ⟨-, evs, hev, hP⟩ := LoadAndInit_ok env st s0 ADL_SUCCESS hload
  obtain ⟨-, hz⟩ := countP_lifecycle evs hP
  obtain ⟨e1, hs1, -, hi1⟩ := queryNumAdapters_ok env _ s1 ADL_OK 0 hq
  have henum : enumerateAdapters env { s0 with m_asicInfoListRetVal := ADL_SUCCESS } =
      .ok (false, s1) := by
    unfold enumerateAdapters
    simp [hq]
  have hs1l : s1.m_asicInfoList = [] := by rw [hs1]; exact hlist.trans hl0
  have hs1r : s1.m_asicInfoListRetVal = ADL_SUCCESS := by rw [hs1]; rfl
  constructor
  · unfold GetAsicInfoList
    simp only [h0, ↓reduceIte, hload, henum, hs1l, hs1r]
  · have hc : s1.calls = st.calls ++ (evs ++ [e1]) := by
      rw [hs1]
      show s0.calls ++ [e1] = _
      rw [hev, List.append_assoc]
    simp [callsSince, hc, List.countP_append, hz, hi1]

/-- Witness of C17: a healthy library that reports zero adapters. -/
theorem C17_zero_adapters_witness :
    GetAsicInfoList (Env.adapterCount 0 []) AMDTADLUtils.fresh [] =
      .ok (ADL_SUCCESS, [],
        stateAfter (run (Env.adapterCount 0 []) AMDTADLUtils.fresh [.GetAsicInfoList])) ∧
    (callsSince AMDTADLUtils.fresh
      (stateAfter (run (Env.adapterCount 0 []) AMDTADLUtils.fresh [.GetAsicInfoList]))).countP
        Event.isAdapterInfo = 0 :=
  C17_zero_adapters (Env.adapterCount 0 []) AMDTADLUtils.fresh
    (stateAfter (run (Env.adapterCount 0 []) AMDTADLUtils.fresh [.LoadAndInit]))
    _ [] (by rfl) (by rfl) (by rfl) (by rfl)

/-- Claim C13, evaluated on the code. With a healthy library that reports one
adapter and an allocator that does not give the scratch buffer, the first
`GetAsicInfoList` call on the fresh singleton returns
`ADL_GET_ADAPTER_INFO_FAILED`, but the cached adapter status after it is
`ADL_SUCCESS`, not `ADL_RESULT_NONE`: it was stored from `LoadAndInit` before
the allocation and the early return leaves it there. So the next call does not
query again: it returns `ADL_SUCCESS` with an empty list and makes no external
call (it leaves the log as it is). -/
theorem C13_allocation_failure_caches_success :
    AMDTADLUtils.fresh.m_asicInfoListRetVal = ADL_RESULT_NONE ∧
    (GetAsicInfoList (Env.allocationFails [AdapterInfo.sample]) AMDTADLUtils.fresh []).map
        (·.1) = .ok ADL_GET_ADAPTER_INFO_FAILED ∧
    (run (Env.allocationFails [AdapterInfo.sample]) AMDTADLUtils.fresh
        [.GetAsicInfoList]).map (·.m_asicInfoListRetVal) = .ok ADL_SUCCESS ∧
    (GetAsicInfoList (Env.allocationFails [AdapterInfo.sample])
        (stateAfter (run (Env.allocationFails [AdapterInfo.sample]) AMDTADLUtils.fresh
          [.GetAsicInfoList])) []).map (fun r => (r.1, r.2.1)) = .ok (ADL_SUCCESS, []) ∧
    callsSince
      (stateAfter (run (Env.allocationFails [AdapterInfo.sample]) AMDTADLUtils.fresh
        [.GetAsicInfoList]))
      (stateAfter (run (Env.allocationFails [AdapterInfo.sample]) AMDTADLUtils.fresh
        [.GetAsicInfoList, .GetAsicInfoList])) = [] := by
  refine ⟨?_, ?_, ?_, ?_, ?_⟩ <;> rfl

/-- The allocation-failure path of `GetAsicInfoList` in general. If the
allocation of the scratch buffer fails during a first-time call (the load
succeeded, state `s0`; the adapter-count query returned `ADL_OK` with a count
above zero, state `s1`), the call returns `ADL_GET_ADAPTER_INFO_FAILED`, leaves
the caller's list and the cached list as they were and calls no adapter-info
entry point; the cached adapter status is then `ADL_SUCCESS`, stored from
`LoadAndInit` before the allocation, so the next call returns `ADL_SUCCESS`
with the cached list and leaves the state as it is. -/
theorem GetAsicInfoList_allocation_failure (env : Env) (st s0 s1 : AMDTADLUtils) (out : AsicInfoList)
    (n : Int) (h0 : st.m_asicInfoListRetVal = ADL_RESULT_NONE)
    (hload : LoadAndInit env st = .ok (ADL_SUCCESS, s0))
    (hq : queryNumAdapters env { s0 with m_asicInfoListRetVal := ADL_SUCCESS } =
      .ok (ADL_OK, n, s1))
    (hn : 0 < n) (hm : env.malloc s1.calls.length = false) :
    ∃ st1, GetAsicInfoList env st out = .ok (ADL_GET_ADAPTER_INFO_FAILED, out, st1) ∧
      st1.m_asicInfoListRetVal = ADL_SUCCESS ∧
      st1.m_asicInfoList = st.m_asicInfoList ∧
      (callsSince st st1).countP Event.isAdapterInfo = 0 ∧
      ∀ out2, GetAsicInfoList env st1 out2 = .ok (ADL_SUCCESS, st.m_asicInfoList, st1) := by
  obtain ⟨hlist, -, -, -⟩ := LoadAndInit_success_frame env st s0 hload
  obtain ⟨-, evs, hev, hP⟩ := LoadAndInit_ok env st s0 ADL_SUCCESS hload
  obtain ⟨-, hz⟩ := countP_lifecycle evs hP
  obtain ⟨e1, hs1, -, hi1⟩ := queryNumAdapters_ok env _ s1 ADL_OK n hq
  have henum : enumerateAdapters env { s0 with m_asicInfoListRetVal := ADL_SUCCESS } =
      .ok (true, s1.log .malloc) := by
    unfold enumerateAdapters
    simp [hq, hn, hm]
  have hr : (s1.log .malloc).m_asicInfoListRetVal = ADL_SUCCESS := by rw [hs1]; rfl
  have hl : (s1.log .malloc).m_asicInfoList = st.m_asicInfoList := by rw [hs1]; exact hlist
  have hc : (s1.log .malloc).calls = st.calls ++ (evs ++ [e1, .malloc]) := by
    rw [hs1]
    show (s0.calls ++ [e1]) ++ [Event.malloc] = _
    rw [hev]
    simp
  refine ⟨s1.log .malloc, ?_, hr, hl, ?_, ?_⟩
  · unfold GetAsicInfoList
    simp only [h0, ↓reduceIte, hload, henum]
  · have hmi : Event.isAdapterInfo .malloc = false := rfl
    simp [callsSince, hc, List.countP_append, hz, hi1, List.countP_cons, hmi]
  · intro out2
    rw [GetAsicInfoList_cached env _ out2 (by rw [hr]; simp), hr, hl]

/-- The allocation-failure path at a sample: a healthy library that reports one
adapter and an allocator that does not give the scratch buffer, on the fresh
singleton. -/
theorem GetAsicInfoList_allocation_failure_sample :
    ∃ st1, GetAsicInfoList (Env.allocationFails [AdapterInfo.sample]) AMDTADLUtils.fresh [] =
        .ok (ADL_GET_ADAPTER_INFO_FAILED, [], st1) ∧
      st1.m_asicInfoListRetVal = ADL_SUCCESS ∧
      st1.m_asicInfoList = AMDTADLUtils.fresh.m_asicInfoList ∧
      (callsSince AMDTADLUtils.fresh st1).countP Event.isAdapterInfo = 0 ∧
      ∀ out2, GetAsicInfoList (Env.allocationFails [AdapterInfo.sample]) st1 out2 =
        .ok (ADL_SUCCESS, AMDTADLUtils.fresh.m_asicInfoList, st1) :=
  GetAsicInfoList_allocation_failure (Env.allocationFails [AdapterInfo.sample]) AMDTADLUtils.fresh
    (stateAfter (run (Env.allocationFails [AdapterInfo.sample]) AMDTADLUtils.fresh
      [.LoadAndInit]))
    (stateAfter ((queryNumAdapters (Env.allocationFails [AdapterInfo.sample])
      { stateAfter (run (Env.allocationFails [AdapterInfo.sample]) AMDTADLUtils.fresh
          [.LoadAndInit]) with m_asicInfoListRetVal := ADL_SUCCESS }).map
        (fun (r : Int × Int × AMDTADLUtils) => r.2.2)))
    [] 1 (by rfl) (by rfl) (by rfl) (by decide) (by rfl)

/-- The parsing of the raw driver string never faults. -/
theorem parseDriverVersion_total (s : List Char) : ∃ v, parseDriverVersion s = .ok v := by
  unfold parseDriverVersion
  simp only [substr_zero, parseMinor_eq]
  split
  · cases extractUnsigned (ofCStr s).data <;> exact ⟨_, rfl⟩
  · exact ⟨_, rfl⟩

/-- Claim C15. The member `GetDriverVersion` returns exactly the status that
`GetADLVersionsInfo` returns for the same state, whatever the raw version
string is, and leaves the same state; and when that status is not
`ADL_SUCCESS` (for instance `ADL_WARNING`), the three outputs are `0`. -/
theorem C15_status_propagated (env : Env) (st st1 : AMDTADLUtils) (s : ADLUtil_Result)
    (info : ADLVersionsInfo) (hq : GetADLVersionsInfo env st = .ok (s, info, st1)) :
    ∃ majorVer minorVer subMinorVer,
      GetDriverVersion env st = .ok (s, majorVer, minorVer, subMinorVer, st1) ∧
      (s ≠ ADL_SUCCESS → majorVer = 0 ∧ minorVer = 0 ∧ subMinorVer = 0) := by
  obtain ⟨v, hv⟩ := parseDriverVersion_total info.strDriverVer
  by_cases hs : s = ADL_SUCCESS
  · subst hs
    exact ⟨v.1, v.2.1, v.2.2, by simp [GetDriverVersion, hq, hv], fun h => absurd rfl h⟩
  · exact ⟨0, 0, 0, by simp [GetDriverVersion, hq, hs], fun _ => ⟨rfl, rfl, rfl⟩⟩

/-- Witness of C15: a version query that returns the advisory-warning code on
the raw string `13.35.1005`; the status is `ADL_WARNING` and the outputs are `0`. -/
theorem C15_status_propagated_witness :
    ∃ majorVer minorVer subMinorVer,
      GetDriverVersion (Env.versionCode ADL_OK_WARNING "13.35.1005".toList) AMDTADLUtils.fresh =
        .ok (ADL_WARNING, majorVer, minorVer, subMinorVer,
          stateAfter (run (Env.versionCode ADL_OK_WARNING "13.35.1005".toList)
            AMDTADLUtils.fresh [.GetADLVersionsInfo])) ∧
      (ADL_WARNING ≠ ADL_SUCCESS → majorVer = 0 ∧ minorVer = 0 ∧ subMinorVer = 0) :=
  C15_status_propagated (Env.versionCode ADL_OK_WARNING "13.35.1005".toList) AMDTADLUtils.fresh
    _ ADL_WARNING ⟨"13.35.1005".toList, [], []⟩ (by rfl)

/-- Claim C18. When the version query succeeds with an empty raw driver string,
`GetDriverVersion` returns, with `ADL_SUCCESS` and `(0, 0, 0)`. -/
theorem C18_empty_driver_string (env : Env) (st st1 : AMDTADLUtils) (info : ADLVersionsInfo)
    (hq : GetADLVersionsInfo env st = .ok (ADL_SUCCESS, info, st1))
    (hempty : info.strDriverVer = []) :
    GetDriverVersion env st = .ok (ADL_SUCCESS, 0, 0, 0, st1) := by
  have hp : parseDriverVersion info.strDriverVer = .ok (0, 0, 0) := by
    rw [hempty]; rfl
  simp [GetDriverVersion, hq, hp]

/-- Witness of C18: a healthy library that reports an empty driver string. -/
theorem C18_empty_driver_string_witness :
    GetDriverVersion (Env.healthy [] []) AMDTADLUtils.fresh =
      .ok (ADL_SUCCESS, 0, 0, 0,
        stateAfter (run (Env.healthy [] []) AMDTADLUtils.fresh [.GetADLVersionsInfo])) :=
  C18_empty_driver_string (Env.healthy [] []) AMDTADLUtils.fresh _ ⟨[], [], []⟩ (by rfl) rfl

/-- Claim C19, evaluated on the code. With the version query succeeding on the
raw string `x.2.3`, whose first token is not a number, `GetDriverVersion`
returns `(0, 0, 2)`, not `(0, 2, 3)`: the prefix `x.` is removed from
`strDriverVersion` only when the major token was read, so the minor stage
reads the token `x` again and the sub-minor stage reads `2`. The same happens
for `beta.14.10`. A token that is not a number in second place costs its own
component only: `1.x.3` gives `(1, 0, 3)`. -/
theorem C19_malformed_major_shifts_tokens :
    (GetDriverVersion (Env.healthy "x.2.3".toList []) AMDTADLUtils.fresh).map
        (fun r => (r.1, r.2.1, r.2.2.1, r.2.2.2.1)) = .ok (ADL_SUCCESS, 0, 0, 2) ∧
    (GetDriverVersion (Env.healthy "beta.14.10".toList []) AMDTADLUtils.fresh).map
        (fun r => (r.1, r.2.1, r.2.2.1, r.2.2.2.1)) = .ok (ADL_SUCCESS, 0, 0, 14) ∧
    (GetDriverVersion (Env.healthy "1.x.3".toList []) AMDTADLUtils.fresh).map
        (fun r => (r.1, r.2.1, r.2.2.1, r.2.2.2.1)) = .ok (ADL_SUCCESS, 1, 0, 3) := by
  refine ⟨?_, ?_, ?_⟩ <;> rfl

/-- Claim C20, evaluated on the code. With the version query succeeding on the
raw string `1.-5`, `GetDriverVersion` returns the minor number `4294967291`
(the unsigned reading of `-5`), while for the string truncated at its first
dash, `1.`, it returns `(1, 0, 0)`; and `1.2.-7` gives the sub-minor number
`4294967289`, while `1.2.` gives `(1, 2, 0)`. The view is truncated, but the
stream is loaded from `strToken.data()`, the C string that runs on past the
dash to the end of the raw string. -/
theorem C20_tokens_read_past_dash :
    (GetDriverVersion (Env.healthy "1.-5".toList []) AMDTADLUtils.fresh).map
        (fun r => (r.1, r.2.1, r.2.2.1, r.2.2.2.1)) = .ok (ADL_SUCCESS, 1, 4294967291, 0) ∧
    (GetDriverVersion (Env.healthy "1.".toList []) AMDTADLUtils.fresh).map
        (fun r => (r.1, r.2.1, r.2.2.1, r.2.2.2.1)) = .ok (ADL_SUCCESS, 1, 0, 0) ∧
    (GetDriverVersion (Env.healthy "1.2.-7".toList []) AMDTADLUtils.fresh).map
        (fun r => (r.1, r.2.1, r.2.2.1, r.2.2.2.1)) = .ok (ADL_SUCCESS, 1, 2, 4294967289) ∧
    (GetDriverVersion (Env.healthy "1.2.".toList []) AMDTADLUtils.fresh).map
        (fun r => (r.1, r.2.1, r.2.2.1, r.2.2.2.1)) = .ok (ADL_SUCCESS, 1, 2, 0) ∧
    beforeDash "1.-5".toList = "1.".toList ∧ beforeDash "1.2.-7".toList = "1.2.".toList := by
  refine ⟨?_, ?_, ?_, ?_, ?_, ?_⟩ <;> rfl

/-- The loop body always stores `0` in `gpuIndex`. -/
theorem buildAsicInfo_gpuIndex (ndebug : Bool) (info : AdapterInfo) (r : ADLUtil_ASICInfo)
    (h : buildAsicInfo ndebug info = .ok r) : r.gpuIndex = 0 := by
  unfold buildAsicInfo at h
  cases h1 : trimAdapterName (ofCStr info.strAdapterName) <;>
  cases h2 : parseVendorID ndebug (ofCStr info.strUDID) <;>
  cases h3 : parseDeviceID ndebug (ofCStr info.strUDID) <;>
  cases h4 : parseRevID ndebug (ofCStr info.strUDID) <;>
  simp [h1, h2, h3, h4, bind, Except.bind, pure, Except.pure] at h
  subst h
  rfl

/-- The adapter loop pushes one record per buffer record, in buffer order. -/
theorem buildAsicInfos_ok (ndebug : Bool) :
    ∀ (infos : List AdapterInfo) (recs : List ADLUtil_ASICInfo),
      buildAsicInfos ndebug infos = .ok recs →
      List.Forall₂ (fun info r => buildAsicInfo ndebug info = .ok r) infos recs
  | [], recs, h => by
    simp only [buildAsicInfos, Except.ok.injEq] at h
    subst h
    exact .nil
  | info :: rest, recs, h => by
    unfold buildAsicInfos at h
    cases h1 : buildAsicInfo ndebug info with
    | error e => simp [h1] at h
    | ok r =>
      cases h2 : buildAsicInfos ndebug rest with
      | error e => simp [h1, h2] at h
      | ok rs =>
        simp only [h1, h2, Except.ok.injEq] at h
        subst h
        exact .cons h1 (buildAsicInfos_ok ndebug rest rs h2)

/-- Index form of a pointwise relation between two lists. -/
theorem forall₂_index {α β : Type} (R : α → β → Prop) (xs : List α) (ys : List β)
    (h : List.Forall₂ R xs ys) :
    ∀ k, k < xs.length → ∃ x y, xs[k]? = some x ∧ ys[k]? = some y ∧ R x y := by
  induction h with
  | nil =>
    intro k hk
    simp at hk
  | cons hab _ ih =>
    intro k hk
    cases k with
    | zero => exact ⟨_, _, by simp, by simp, hab⟩
    | succ k =>
      obtain ⟨x, y, hx, hy, hr⟩ := ih k (by simpa using hk)
      exact ⟨x, y, by simpa using hx, by simpa using hy, hr⟩

/-- The adapter-info query leaves `numAdapter` records in the buffer. -/
theorem queryAdapterInfo_length (env : Env) (st st1 : AMDTADLUtils) (c n : Int)
    (buf : List AdapterInfo) (h : queryAdapterInfo env st n = .ok (c, buf, st1)) :
    buf.length = n.toNat ∧ st1.m_asicInfoList = st.m_asicInfoList := by
  unfold queryAdapterInfo at h
  split at h
  · simp only [Except.ok.injEq, Prod.mk.injEq] at h
    obtain ⟨-, rfl, rfl⟩ := h
    simp [AMDTADLUtils.log]
  · split at h
    · simp only [Except.ok.injEq, Prod.mk.injEq] at h
      obtain ⟨-, rfl, rfl⟩ := h
      simp [AMDTADLUtils.log]
    · simp at h

/-- Claim C12, as stated, fails: with two adapters reported, the record at
position `1` has `gpuIndex` `0`, not `1` (both records carry `0`), while the
names show that the records are in the vendor's order. -/
theorem C12_counterexample_gpuIndex_zero :
    (GetAsicInfoList (Env.healthy [] [AdapterInfo.sample, AdapterInfo.second])
        AMDTADLUtils.fresh []).map
      (fun r => (r.1, r.2.1.map (fun a => (a.adapterName, a.gpuIndex)))) =
    .ok (ADL_SUCCESS,
      [("Radeon RX 6800".toList, 0), ("Radeon Pro W6600".toList, 0)]) := by
  rfl

/-- Claim C12, amended. After a successful first-time `GetAsicInfoList` (no
cached status, empty cached list; the load succeeded, state `s0`) in which the
vendor reports `n > 0` adapters (state `s1`) and the adapter-info query left
the records `lpAdapterInfo` in the scratch buffer, the returned list has
exactly `n` records in the vendor's return order: for every `k < n` the `k`-th
record of the list is the one the loop body builds from the `k`-th record of
the buffer; and the `gpuIndex` of every record is `0`. -/
theorem C12_records_in_order (env : Env) (st s0 s1 s3 st1 : AMDTADLUtils)
    (out l : AsicInfoList) (n code2 : Int) (lpAdapterInfo : List AdapterInfo)
    (h0 : st.m_asicInfoListRetVal = ADL_RESULT_NONE) (hl0 : st.m_asicInfoList = [])
    (hload : LoadAndInit env st = .ok (ADL_SUCCESS, s0))
    (hq : queryNumAdapters env { s0 with m_asicInfoListRetVal := ADL_SUCCESS } =
      .ok (ADL_OK, n, s1))
    (hn : 0 < n)
    (hi : queryAdapterInfo env (s1.log .malloc) n = .ok (code2, lpAdapterInfo, s3))
    (hcall : GetAsicInfoList env st out = .ok (ADL_SUCCESS, l, st1)) :
    l.length = n.toNat ∧
    ∀ k, k < n.toNat → ∃ info r, lpAdapterInfo[k]? = some info ∧ l[k]? = some r ∧
      buildAsicInfo env.ndebug info = .ok r ∧ r.gpuIndex = 0 := by
  obtain ⟨hlist, -, -, -⟩ := LoadAndInit_success_frame env st s0 hload
  obtain ⟨e1, hs1, -, -⟩ := queryNumAdapters_ok env _ s1 ADL_OK n hq
  obtain ⟨hlen, hl3⟩ := queryAdapterInfo_length env _ s3 code2 n lpAdapterInfo hi
  have hs3 : s3.m_asicInfoList = [] := by
    rw [hl3, hs1]
    exact hlist.trans hl0
  unfold GetAsicInfoList at hcall
  simp only [h0, ↓reduceIte, hload] at hcall
  unfold enumerateAdapters at hcall
  simp only [hq, ne_eq, not_true_eq_false, ↓reduceIte, hn] at hcall
  by_cases hm : env.malloc s1.calls.length = false
  · simp [hm] at hcall
  · simp only [hm, ↓reduceIte, hi] at hcall
    by_cases hc : ADL_OK = code2
    · simp only [hc, ↓reduceIte] at hcall
      cases hb : buildAsicInfos env.ndebug lpAdapterInfo with
      | error e => simp [hb] at hcall
      | ok pushed =>
        simp only [hb, Bool.true_eq_false, ↓reduceIte, Except.ok.injEq, Prod.mk.injEq] at hcall
        have hl := hcall.2.1
        rw [hs3, List.nil_append] at hl
        subst hl
        have hF := buildAsicInfos_ok env.ndebug lpAdapterInfo pushed hb
        refine ⟨by rw [← hF.length_eq, hlen], ?_⟩
        intro k hk
        obtain ⟨info, r, hx, hy, hr⟩ := forall₂_index _ _ _ hF k (by rw [hlen]; exact hk)
        exact ⟨info, r, hx, hy, hr, buildAsicInfo_gpuIndex _ _ _ hr⟩
    · simp [hc] at hcall

/-- Witness of the amended C12: a healthy library that reports two adapters, on
the fresh singleton. -/
theorem C12_records_in_order_witness :
    (stateAfter (run (Env.healthy [] [AdapterInfo.sample, AdapterInfo.second])
      AMDTADLUtils.fresh [.GetAsicInfoList])).m_asicInfoList.length = (2 : Int).toNat ∧
    ∀ k, k < (2 : Int).toNat → ∃ info r,
      [AdapterInfo.sample, AdapterInfo.second][k]? = some info ∧
      (stateAfter (run (Env.healthy [] [AdapterInfo.sample, AdapterInfo.second])
        AMDTADLUtils.fresh [.GetAsicInfoList])).m_asicInfoList[k]? = some r ∧
      buildAsicInfo (Env.healthy [] [AdapterInfo.sample, AdapterInfo.second]).ndebug info =
        .ok r ∧ r.gpuIndex = 0 :=
  C12_records_in_order (Env.healthy [] [AdapterInfo.sample, AdapterInfo.second])
    AMDTADLUtils.fresh
    (stateAfter (run (Env.healthy [] [AdapterInfo.sample, AdapterInfo.second])
      AMDTADLUtils.fresh [.LoadAndInit]))
    (stateAfter ((queryNumAdapters (Env.healthy [] [AdapterInfo.sample, AdapterInfo.second])
      { stateAfter (run (Env.healthy [] [AdapterInfo.sample, AdapterInfo.second])
          AMDTADLUtils.fresh [.LoadAndInit]) with m_asicInfoListRetVal := ADL_SUCCESS }).map
        (fun (r : Int × Int × AMDTADLUtils) => r.2.2)))
    { stateAfter (run (Env.healthy [] [AdapterInfo.sample, AdapterInfo.second])
        AMDTADLUtils.fresh [.GetAsicInfoList]) with m_asicInfoList := [] }
    (stateAfter (run (Env.healthy [] [AdapterInfo.sample, AdapterInfo.second])
      AMDTADLUtils.fresh [.GetAsicInfoList]))
    []
    (stateAfter (run (Env.healthy [] [AdapterInfo.sample, AdapterInfo.second])
      AMDTADLUtils.fresh [.GetAsicInfoList])).m_asicInfoList
    2 ADL_OK [AdapterInfo.sample, AdapterInfo.second]
    (by rfl) (by rfl) (by rfl) (by rfl) (by decide) (by rfl) (by rfl)

/-- Every returning run of the enumeration calls an adapter-count entry point
exactly once. -/
theorem enumerateAdapters_count (env : Env) (st st1 : AMDTADLUtils) (flag : Bool)
    (h : enumerateAdapters env st = .ok (flag, st1)) :
    ∃ evs, st1.calls = st.calls ++ evs ∧ evs.countP Event.isAdapterCount = 1 := by
  have hmc : Event.isAdapterCount .malloc = false := rfl
  unfold enumerateAdapters at h
  cases hq : queryNumAdapters env st with
  | error e => simp [hq] at h
  | ok r =>
    obtain ⟨c, n, s1⟩ := r
    obtain ⟨e1, rfl, hc1, hi1⟩ := queryNumAdapters_ok env st s1 c n hq
    simp only [hq] at h
    split at h
    · simp only [Except.ok.injEq, Prod.mk.injEq] at h
      obtain ⟨rfl, rfl⟩ := h
      exact ⟨[e1], rfl, by simp [List.countP_cons, hc1]⟩
    · split at h
      · split at h
        · simp only [Except.ok.injEq, Prod.mk.injEq] at h
          obtain ⟨rfl, rfl⟩ := h
          exact ⟨[e1, .malloc], by simp [AMDTADLUtils.log],
            by simp [List.countP_cons, hc1, hmc]⟩
        · cases hq2 : queryAdapterInfo env ((st.log e1).log .malloc) n with
          | error e => simp [hq2] at h
          | ok r2 =>
            obtain ⟨c2, buf, s3⟩ := r2
            obtain ⟨e2, rfl, hc2, hi2⟩ := queryAdapterInfo_ok env _ s3 c2 n buf hq2
            simp only [hq2] at h
            split at h
            · cases hb : buildAsicInfos env.ndebug buf with
              | error e => simp [hb] at h
              | ok pushed =>
                simp only [hb, Except.ok.injEq, Prod.mk.injEq] at h
                obtain ⟨rfl, rfl⟩ := h
                exact ⟨[e1, .malloc, e2], by simp [AMDTADLUtils.log],
                  by simp [List.countP_cons, hc1, hc2, hmc]⟩
            · simp only [Except.ok.injEq, Prod.mk.injEq] at h
              obtain ⟨rfl, rfl⟩ := h
              exact ⟨[e1, .malloc, e2], by simp [AMDTADLUtils.log],
                by simp [List.countP_cons, hc1, hc2, hmc]⟩
      · simp only [Except.ok.injEq, Prod.mk.injEq] at h
        obtain ⟨rfl, rfl⟩ := h
        exact ⟨[e1], rfl, by simp [List.countP_cons, hc1]⟩

/-- The adapter-count step returns when one of its two entry points is bound. -/
theorem queryNumAdapters_bound (env : Env) (st : AMDTADLUtils)
    (hc : st.table.m_ADL2_Adapter_NumberOfAdapters_Get = true ∨
      st.table.m_ADL_Adapter_NumberOfAdapters_Get = true) :
    ∃ c n e, queryNumAdapters env st = .ok (c, n, st.log e) ∧ e.isAdapterCount = true := by
  unfold queryNumAdapters
  by_cases h2 : st.table.m_ADL2_Adapter_NumberOfAdapters_Get = true
  · simp only [h2, ↓reduceIte]
    exact ⟨_, _, _, rfl, rfl⟩
  · have h1 : st.table.m_ADL_Adapter_NumberOfAdapters_Get = true := hc.resolve_left h2
    simp only [h2, h1, ↓reduceIte]
    exact ⟨_, _, _, rfl, rfl⟩

/-- The version step returns when one of its two entry points is bound. -/
theorem queryVersions_bound (env : Env) (st : AMDTADLUtils)
    (hv : st.table.m_ADL2_Graphics_Versions_Get = true ∨
      st.table.m_ADL_Graphics_Versions_Get = true) :
    ∃ c st1 e, queryVersions env st = .ok (c, st1) ∧ st1.calls = st.calls ++ [e] ∧
      e.isVersionsGet = true := by
  unfold queryVersions
  by_cases h2 : st.table.m_ADL2_Graphics_Versions_Get = true
  · simp only [h2, ↓reduceIte]
    exact ⟨_, _, _, rfl, rfl, rfl⟩
  · have h1 : st.table.m_ADL_Graphics_Versions_Get = true := hv.resolve_left h2
    simp only [h2, h1, ↓reduceIte]
    exact ⟨_, _, _, rfl, rfl, rfl⟩

/-- Claim C14. The member `Reset` sets both cached statuses to `ADL_RESULT_NONE`
and empties the cached adapter list; it leaves the library handle, the function
table, the vendor context and the stored version record as they were and makes
no external call. Consequently, on a loaded instance with an adapter-count and
a version entry point bound, after `Reset`: the adapter-count step of the next
`GetAsicInfoList` runs and calls the adapter-count entry point, every such call
that returns has called it exactly once, and the next `GetADLVersionsInfo`
returns after calling the version entry point exactly once. -/
theorem C14_reset_requeries (env : Env) (st : AMDTADLUtils) (hl : st.m_libHandle ≠ none)
    (hc : st.table.m_ADL2_Adapter_NumberOfAdapters_Get = true ∨
      st.table.m_ADL_Adapter_NumberOfAdapters_Get = true)
    (hv : st.table.m_ADL2_Graphics_Versions_Get = true ∨
      st.table.m_ADL_Graphics_Versions_Get = true) :
    ((Reset st).m_asicInfoListRetVal = ADL_RESULT_NONE ∧
      (Reset st).m_versionRetVal = ADL_RESULT_NONE ∧
      (Reset st).m_asicInfoList = [] ∧
      (Reset st).m_libHandle = st.m_libHandle ∧
      (Reset st).table = st.table ∧
      (Reset st).m_adlContext = st.m_adlContext ∧
      (Reset st).m_adlVersionsInfo = st.m_adlVersionsInfo ∧
      (Reset st).calls = st.calls) ∧
    (∃ code n s1,
      queryNumAdapters env { Reset st with m_asicInfoListRetVal := ADL_SUCCESS } =
        .ok (code, n, s1) ∧
      (callsSince (Reset st) s1).countP Event.isAdapterCount = 1) ∧
    (∀ out r l st1, GetAsicInfoList env (Reset st) out = .ok (r, l, st1) →
      (callsSince (Reset st) st1).countP Event.isAdapterCount = 1) ∧
    (∃ s info st1, GetADLVersionsInfo env (Reset st) = .ok (s, info, st1) ∧
      (callsSince (Reset st) st1).countP Event.isVersionsGet = 1) := by
  have hlR : (Reset st).m_libHandle ≠ none := hl
  refine ⟨⟨rfl, rfl, rfl, rfl, rfl, rfl, rfl, rfl⟩, ?_, ?_, ?_⟩
  · obtain ⟨c, n, e, hq, he⟩ := queryNumAdapters_bound env
      { Reset st with m_asicInfoListRetVal := ADL_SUCCESS } hc
    refine ⟨c, n, _, hq, ?_⟩
    simp [callsSince, AMDTADLUtils.log, Reset, List.countP_cons, he]
  · intro out r l st1 h
    unfold GetAsicInfoList at h
    have h0 : (Reset st).m_asicInfoListRetVal = ADL_RESULT_NONE := rfl
    simp only [h0, ↓reduceIte, LoadAndInit_loaded env (Reset st) hlR] at h
    cases hE : enumerateAdapters env { Reset st with m_asicInfoListRetVal := ADL_SUCCESS } with
    | error e => simp [hE] at h
    | ok q =>
      obtain ⟨flag, s2⟩ := q
      obtain ⟨evs, hev, hcount⟩ := enumerateAdapters_count env _ s2 flag hE
      have hs : st1 = s2 := by
        cases flag <;> simp [hE] at h <;> exact h.2.2.symm
      subst hs
      have hev2 : st1.calls = (Reset st).calls ++ evs := hev
      simp [callsSince, hev2, hcount]
  · have h0 : (Reset st).m_versionRetVal = ADL_RESULT_NONE := rfl
    obtain ⟨c, s2, e, hq, hcalls, he⟩ := queryVersions_bound env
      { Reset st with m_versionRetVal := ADL_SUCCESS } hv
    unfold GetADLVersionsInfo
    simp only [h0, ↓reduceIte, LoadAndInit_loaded env (Reset st) hlR, hq]
    refine ⟨_, _, _, rfl, ?_⟩
    have hcalls2 : s2.calls = (Reset st).calls ++ [e] := hcalls
    split <;> [split; skip] <;> simp [callsSince, hcalls2, List.countP_cons, he]

/-- Witness of C14: the singleton after an adapter query and a version query
against a healthy library. -/
theorem C14_reset_requeries_witness :
    ((Reset AMDTADLUtils.queried).m_asicInfoListRetVal = ADL_RESULT_NONE ∧
      (Reset AMDTADLUtils.queried).m_versionRetVal = ADL_RESULT_NONE ∧
      (Reset AMDTADLUtils.queried).m_asicInfoList = [] ∧
      (Reset AMDTADLUtils.queried).m_libHandle = AMDTADLUtils.queried.m_libHandle ∧
      (Reset AMDTADLUtils.queried).table = AMDTADLUtils.queried.table ∧
      (Reset AMDTADLUtils.queried).m_adlContext = AMDTADLUtils.queried.m_adlContext ∧
      (Reset AMDTADLUtils.queried).m_adlVersionsInfo =
        AMDTADLUtils.queried.m_adlVersionsInfo ∧
      (Reset AMDTADLUtils.queried).calls = AMDTADLUtils.queried.calls) ∧
    (∃ code n s1,
      queryNumAdapters (Env.healthy "13.35.1005".toList [AdapterInfo.sample])
        { Reset AMDTADLUtils.queried with m_asicInfoListRetVal := ADL_SUCCESS } =
        .ok (code, n, s1) ∧
      (callsSince (Reset AMDTADLUtils.queried) s1).countP Event.isAdapterCount = 1) ∧
    (∀ out r l st1,
      GetAsicInfoList (Env.healthy "13.35.1005".toList [AdapterInfo.sample])
        (Reset AMDTADLUtils.queried) out = .ok (r, l, st1) →
      (callsSince (Reset AMDTADLUtils.queried) st1).countP Event.isAdapterCount = 1) ∧
    (∃ s info st1,
      GetADLVersionsInfo (Env.healthy "13.35.1005".toList [AdapterInfo.sample])
        (Reset AMDTADLUtils.queried) = .ok (s, info, st1) ∧
      (callsSince (Reset AMDTADLUtils.queried) st1).countP Event.isVersionsGet = 1) :=
  C14_reset_requeries (Env.healthy "13.35.1005".toList [AdapterInfo.sample])
    AMDTADLUtils.queried (by decide) (Or.inl (by rfl)) (Or.inl (by rfl))

/-- The symbol loop on an unloaded instance leaves it unloaded. -/
theorem bindLoop_unloaded (env : Env) (syms : List Sym) :
    ∀ acc : ADLUtil_Result × AMDTADLUtils, acc.2.m_libHandle = none →
      (syms.foldl (bindEntry env) acc).2.m_libHandle = none := by
  induction syms with
  | nil => intro acc h; exact h
  | cons x xs ih =>
    intro acc h
    rw [List.foldl_cons]
    apply ih
    cases hp : env.GetProcAddress acc.2.calls.length acc.2.m_libHandle x with
    | true =>
      rw [bindEntry_of_true env acc x hp]
      exact (resolveEntry_fields env acc.2 x).1.trans h
    | false =>
      rw [bindEntry_of_false env acc x hp]
      exact (Unload_fields _).1

/-- The symbol loop in general: either every symbol of the loop resolved, and
then `result` and the handle are kept and the symbols of the loop are bound;
or `result` is `ADL_MISSING_ENTRYPOINTS` and the instance is unloaded. -/
theorem bindLoop_cases (env : Env) (syms : List Sym) :
    ∀ acc : ADLUtil_Result × AMDTADLUtils,
      ((syms.foldl (bindEntry env) acc).1 = acc.1 ∧
        (syms.foldl (bindEntry env) acc).2.m_libHandle = acc.2.m_libHandle ∧
        (∀ s, s ∈ syms ∨ acc.2.table.get s = true →
          (syms.foldl (bindEntry env) acc).2.table.get s = true)) ∨
      ((syms.foldl (bindEntry env) acc).1 = ADL_MISSING_ENTRYPOINTS ∧
        (syms.foldl (bindEntry env) acc).2.m_libHandle = none) := by
  induction syms with
  | nil =>
    intro acc
    left
    refine ⟨rfl, rfl, ?_⟩
    intro s hs
    rcases hs with hs | hs
    · simp at hs
    · exact hs
  | cons x xs ih =>
    intro acc
    rw [List.foldl_cons]
    cases hp : env.GetProcAddress acc.2.calls.length acc.2.m_libHandle x with
    | true =>
      rw [bindEntry_of_true env acc x hp]
      rcases ih (acc.1, resolveEntry env acc.2 x) with ⟨a, b, e⟩ | hr
      · left
        refine ⟨a, b.trans (resolveEntry_fields env acc.2 x).1, ?_⟩
        intro s hs
        apply e
        have hset : ∀ s1, s1 = x → (resolveEntry env acc.2 x).table.get s1 = true := by
          intro s1 h1
          subst h1
          rw [(resolveEntry_frame env acc.2 s1).2.2.2.2, hp]
          exact FunctionTable.get_set_same _ _ _
        rcases hs with hs | hs
        · rcases List.mem_cons.mp hs with hs | hs
          · exact Or.inr (hset s hs)
          · exact Or.inl hs
        · right
          by_cases hsx : s = x
          · exact hset s hsx
          · show (resolveEntry env acc.2 x).table.get s = true
            rw [(resolveEntry_frame env acc.2 x).2.2.2.2,
              FunctionTable.get_set_other _ _ _ _ hsx]
            exact hs
      · exact Or.inr hr
    | false =>
      rw [bindEntry_of_false env acc x hp]
      right
      rcases ih (ADL_MISSING_ENTRYPOINTS, (Unload (resolveEntry env acc.2 x)).2) with
        ⟨a, b, -⟩ | hr
      · exact ⟨a, b.trans (Unload_fields _).1⟩
      · exact hr

/-- The initialisation step on a full table calls the context-aware creation
entry point; it keeps handle and table when it gives `ADL_SUCCESS` and unloads
otherwise. -/
theorem createContext_full (env : Env) (st st1 : AMDTADLUtils) (r : ADLUtil_Result)
    (ht : st.table = FunctionTable.full) (h : createContext env st = .ok (r, st1)) :
    ((r = ADL_SUCCESS ∧ st1.table = FunctionTable.full ∧ st1.m_libHandle = st.m_libHandle) ∨
      (r = ADL_INITIALIZATION_FAILED ∧ st1.m_libHandle = none)) ∧
    ∃ evs, st1.calls = st.calls ++ evs ∧ ∀ e ∈ evs, e.isLegacyCreateOrQuery = false := by
  have hc : st.table.m_ADL2_Main_Control_Create = true := by rw [ht]; rfl
  unfold createContext at h
  simp only [hc, ↓reduceIte] at h
  split at h
  · simp only [Except.ok.injEq, Prod.mk.injEq] at h
    obtain ⟨rfl, rfl⟩ := h
    obtain ⟨evs, he, hP⟩ := Unload_calls (fun e => e.isLegacyCreateOrQuery = false)
      { st.log (.vendor .ADL2_Main_Control_Create) with
        m_adlContext := (env.Main_Control_Create st.calls.length .ADL2_Main_Control_Create
          st.m_adlContext).2 } rfl rfl (fun _ => rfl)
    refine ⟨Or.inr ⟨rfl, (Unload_fields _).1⟩, .vendor .ADL2_Main_Control_Create :: evs, ?_, ?_⟩
    · rw [he]; simp [AMDTADLUtils.log]
    · intro e hmem
      rcases List.mem_cons.mp hmem with rfl | hmem
      · rfl
      · exact hP e hmem
  · simp only [Except.ok.injEq, Prod.mk.injEq] at h
    obtain ⟨rfl, rfl⟩ := h
    exact ⟨Or.inl ⟨rfl, ht, rfl⟩, [.vendor .ADL2_Main_Control_Create],
      by simp [AMDTADLUtils.log], by simp [Event.isLegacyCreateOrQuery]⟩

/-- The member `LoadAndInit` keeps the invariant "loaded implies all ten entry
points bound", leaves a full table whenever it gives `ADL_SUCCESS`, and takes
no legacy fallback branch. -/
theorem LoadAndInit_good (env : Env) (st st1 : AMDTADLUtils) (r : ADLUtil_Result)
    (hinv : st.m_libHandle ≠ none → st.table = FunctionTable.full)
    (h : LoadAndInit env st = .ok (r, st1)) :
    (st1.m_libHandle ≠ none → st1.table = FunctionTable.full) ∧
    (r = ADL_SUCCESS → st1.table = FunctionTable.full) ∧
    ∃ evs, st1.calls = st.calls ++ evs ∧ ∀ e ∈ evs, e.isLegacyCreateOrQuery = false := by
  unfold LoadAndInit at h
  cases hh : st.m_libHandle with
  | some x =>
    simp only [hh, Except.ok.injEq, Prod.mk.injEq] at h
    obtain ⟨rfl, rfl⟩ := h
    have ht := hinv (by rw [hh]; simp)
    exact ⟨fun _ => ht, fun _ => ht, [], by simp, by simp⟩
  | none =>
    simp only [hh] at h
    obtain ⟨hl1, -, hl3⟩ := loadLibrary_fields env st
    obtain ⟨evs, hev, hP⟩ := bindLoop_calls (fun e => e.isLegacyCreateOrQuery = false) env
      ADL_INTERFACE_TABLE rfl rfl (fun _ => rfl) (fun _ _ => rfl)
      ((if (loadLibrary env st).m_libHandle = none then ADL_NOT_FOUND else ADL_SUCCESS),
        loadLibrary env st)
    have hcase := bindLoop_cases env ADL_INTERFACE_TABLE
      ((if (loadLibrary env st).m_libHandle = none then ADL_NOT_FOUND else ADL_SUCCESS),
        loadLibrary env st)
    generalize (if (loadLibrary env st).m_libHandle = none then ADL_NOT_FOUND
      else ADL_SUCCESS) = result0 at h hev hcase
    have hcalls0 : (ADL_INTERFACE_TABLE.foldl (bindEntry env)
        (result0, loadLibrary env st)).2.calls = st.calls ++ (.LoadLibraryA :: evs) := by
      rw [hev]
      show (loadLibrary env st).calls ++ evs = _
      rw [hl3]
      simp
    have hP0 : ∀ e ∈ Event.LoadLibraryA :: evs, e.isLegacyCreateOrQuery = false := by
      intro e hmem
      rcases List.mem_cons.mp hmem with rfl | hmem
      · rfl
      · exact hP e hmem
    split at h
    · rename_i hs
      have hfull : (ADL_INTERFACE_TABLE.foldl (bindEntry env)
          (result0, loadLibrary env st)).2.table = FunctionTable.full := by
        rcases hcase with ⟨-, -, e⟩ | ⟨a, -⟩
        · exact FunctionTable.eq_full _ (fun s => e s (Or.inl (mem_ADL_INTERFACE_TABLE s)))
        · rw [a] at hs
          exact absurd hs (by decide)
      obtain ⟨hres, evs2, hev2, hP2⟩ := createContext_full env _ st1 r hfull h
      refine ⟨?_, ?_, .LoadLibraryA :: evs ++ evs2, ?_, ?_⟩
      · intro hne
        rcases hres with ⟨-, ht, -⟩ | ⟨-, hn⟩
        · exact ht
        · exact absurd hn hne
      · intro hr
        rcases hres with ⟨-, ht, -⟩ | ⟨hf, -⟩
        · exact ht
        · rw [hf] at hr
          exact absurd hr (by decide)
      · rw [hev2, hcalls0]
        simp
      · intro e hmem
        rcases List.mem_append.mp hmem with hmem | hmem
        · exact hP0 e hmem
        · exact hP2 e hmem
    · rename_i hs
      simp only [Except.ok.injEq] at h
      have h1 : (ADL_INTERFACE_TABLE.foldl (bindEntry env)
          (result0, loadLibrary env st)).1 = r := by rw [h]
      have h2 : (ADL_INTERFACE_TABLE.foldl (bindEntry env)
          (result0, loadLibrary env st)).2 = st1 := by rw [h]
      rw [h1] at hs
      rw [h2] at hcalls0
      refine ⟨?_, fun hr => absurd hr hs, _, hcalls0, hP0⟩
      intro hne
      rw [← h2] at hne ⊢
      exact FunctionTable.eq_full _ (fun s => by
        rcases hcase with ⟨-, -, e⟩ | ⟨-, b⟩
        · exact e s (Or.inl (mem_ADL_INTERFACE_TABLE s))
        · exact absurd b hne)

/-- The enumeration on a full table keeps handle and table and calls the
context-aware adapter entry points only. -/
theorem enumerateAdapters_full (env : Env) (st st1 : AMDTADLUtils) (flag : Bool)
    (ht : st.table = FunctionTable.full) (h : enumerateAdapters env st = .ok (flag, st1)) :
    st1.m_libHandle = st.m_libHandle ∧ st1.table = st.table ∧
    ∃ evs, st1.calls = st.calls ++ evs ∧ ∀ e ∈ evs, e.isLegacyCreateOrQuery = false := by
  have hc : st.table.m_ADL2_Adapter_NumberOfAdapters_Get = true := by rw [ht]; rfl
  have hi : st.table.m_ADL2_Adapter_AdapterInfo_Get = true := by rw [ht]; rfl
  unfold enumerateAdapters at h
  unfold queryNumAdapters at h
  simp only [hc, ↓reduceIte] at h
  split at h
  · simp only [Except.ok.injEq, Prod.mk.injEq] at h
    obtain ⟨-, rfl⟩ := h
    exact ⟨rfl, rfl, [.vendor .ADL2_Adapter_NumberOfAdapters_Get], rfl,
      by simp [Event.isLegacyCreateOrQuery]⟩
  · split at h
    · split at h
      · simp only [Except.ok.injEq, Prod.mk.injEq] at h
        obtain ⟨-, rfl⟩ := h
        exact ⟨rfl, rfl, [.vendor .ADL2_Adapter_NumberOfAdapters_Get, .malloc],
          by simp [AMDTADLUtils.log], by simp [Event.isLegacyCreateOrQuery]⟩
      · unfold queryAdapterInfo at h
        simp only [AMDTADLUtils.log, hi, ↓reduceIte] at h
        split at h
        · split at h
          · simp at h
          · simp only [Except.ok.injEq, Prod.mk.injEq] at h
            obtain ⟨-, rfl⟩ := h
            exact ⟨rfl, rfl,
              [.vendor .ADL2_Adapter_NumberOfAdapters_Get, .malloc,
                .vendor .ADL2_Adapter_AdapterInfo_Get],
              by simp, by simp [Event.isLegacyCreateOrQuery]⟩
        · simp only [Except.ok.injEq, Prod.mk.injEq] at h
          obtain ⟨-, rfl⟩ := h
          exact ⟨rfl, rfl,
            [.vendor .ADL2_Adapter_NumberOfAdapters_Get, .malloc,
              .vendor .ADL2_Adapter_AdapterInfo_Get],
            by simp, by simp [Event.isLegacyCreateOrQuery]⟩
    · simp only [Except.ok.injEq, Prod.mk.injEq] at h
      obtain ⟨-, rfl⟩ := h
      exact ⟨rfl, rfl, [.vendor .ADL2_Adapter_NumberOfAdapters_Get], rfl,
        by simp [Event.isLegacyCreateOrQuery]⟩

/-- The version step on a full table keeps handle and table and calls the
context-aware version entry point. -/
theorem queryVersions_full (env : Env) (st st1 : AMDTADLUtils) (c : Int)
    (ht : st.table = FunctionTable.full) (h : queryVersions env st = .ok (c, st1)) :
    st1.m_libHandle = st.m_libHandle ∧ st1.table = st.table ∧
    st1.calls = st.calls ++ [.vendor .ADL2_Graphics_Versions_Get] := by
  have hv : st.table.m_ADL2_Graphics_Versions_Get = true := by rw [ht]; rfl
  unfold queryVersions at h
  simp only [hv, ↓reduceIte, Except.ok.injEq, Prod.mk.injEq] at h
  obtain ⟨-, rfl⟩ := h
  exact ⟨rfl, rfl, rfl⟩

/-- The member `GetAsicInfoList` keeps the invariant and takes no legacy
fallback branch. -/
theorem GetAsicInfoList_good (env : Env) (st st1 : AMDTADLUtils) (out l : AsicInfoList)
    (r : ADLUtil_Result)
    (hinv : st.m_libHandle ≠ none → st.table = FunctionTable.full)
    (h : GetAsicInfoList env st out = .ok (r, l, st1)) :
    (st1.m_libHandle ≠ none → st1.table = FunctionTable.full) ∧
    ∃ evs, st1.calls = st.calls ++ evs ∧ ∀ e ∈ evs, e.isLegacyCreateOrQuery = false := by
  unfold GetAsicInfoList at h
  split at h
  · cases hL : LoadAndInit env st with
    | error e => simp [hL] at h
    | ok p =>
      obtain ⟨res, s0⟩ := p
      obtain ⟨hi0, hs0, evs0, hev0, hP0⟩ := LoadAndInit_good env st s0 res hinv hL
      simp only [hL] at h
      split at h
      · rename_i hres
        cases hE : enumerateAdapters env { s0 with m_asicInfoListRetVal := res } with
        | error e => simp [hE] at h
        | ok q =>
          obtain ⟨flag, s2⟩ := q
          have ht0 : ({ s0 with m_asicInfoListRetVal := res } : AMDTADLUtils).table =
              FunctionTable.full := hs0 hres
          obtain ⟨-, htab, evs2, hev2, hP2⟩ := enumerateAdapters_full env _ s2 flag ht0 hE
          have hs : st1 = s2 := by
            cases flag <;> simp [hE] at h <;> exact h.2.2.symm
          subst hs
          refine ⟨fun _ => htab.trans ht0, evs0 ++ evs2, ?_, ?_⟩
          · rw [hev2]
            show s0.calls ++ evs2 = _
            rw [hev0]
            simp
          · intro e hmem
            rcases List.mem_append.mp hmem with hmem | hmem
            · exact hP0 e hmem
            · exact hP2 e hmem
      · simp only [Except.ok.injEq, Prod.mk.injEq] at h
        obtain ⟨-, -, rfl⟩ := h
        exact ⟨hi0, evs0, hev0, hP0⟩
  · simp only [Except.ok.injEq, Prod.mk.injEq] at h
    obtain ⟨-, -, rfl⟩ := h
    exact ⟨hinv, [], by simp, by simp⟩

/-- The member `GetADLVersionsInfo` keeps the invariant and takes no legacy
fallback branch. -/
theorem GetADLVersionsInfo_good (env : Env) (st st1 : AMDTADLUtils) (s : ADLUtil_Result)
    (info : ADLVersionsInfo)
    (hinv : st.m_libHandle ≠ none → st.table = FunctionTable.full)
    (h : GetADLVersionsInfo env st = .ok (s, info, st1)) :
    (st1.m_libHandle ≠ none → st1.table = FunctionTable.full) ∧
    ∃ evs, st1.calls = st.calls ++ evs ∧ ∀ e ∈ evs, e.isLegacyCreateOrQuery = false := by
  unfold GetADLVersionsInfo at h
  split at h
  · cases hL : LoadAndInit env st with
    | error e => simp [hL] at h
    | ok p =>
      obtain ⟨res, s0⟩ := p
      obtain ⟨hi0, hs0, evs0, hev0, hP0⟩ := LoadAndInit_good env st s0 res hinv hL
      simp only [hL] at h
      split at h
      · rename_i hres
        cases hQ : queryVersions env { s0 with m_versionRetVal := res } with
        | error e => simp [hQ] at h
        | ok q =>
          obtain ⟨c, s2⟩ := q
          have ht0 : ({ s0 with m_versionRetVal := res } : AMDTADLUtils).table =
              FunctionTable.full := hs0 hres
          obtain ⟨-, htab, hev2⟩ := queryVersions_full env _ s2 c ht0 hQ
          simp only [hQ, Except.ok.injEq, Prod.mk.injEq] at h
          obtain ⟨-, -, rfl⟩ := h
          refine ⟨fun _ => ?_, evs0 ++ [.vendor .ADL2_Graphics_Versions_Get], ?_, ?_⟩
          · split <;> [split; skip] <;> exact htab.trans ht0
          · have hc : s2.calls = st.calls ++ (evs0 ++ [.vendor .ADL2_Graphics_Versions_Get]) := by
              rw [hev2]
              show s0.calls ++ _ = _
              rw [hev0]
              simp
            split <;> [split; skip] <;> exact hc
          · intro e hmem
            rcases List.mem_append.mp hmem with hmem | hmem
            · exact hP0 e hmem
            · simp only [List.mem_singleton] at hmem
              subst hmem
              rfl
      · simp only [Except.ok.injEq, Prod.mk.injEq] at h
        obtain ⟨-, -, rfl⟩ := h
        exact ⟨hi0, evs0, hev0, hP0⟩
  · simp only [Except.ok.injEq, Prod.mk.injEq] at h
    obtain ⟨-, -, rfl⟩ := h
    exact ⟨hinv, [], by simp, by simp⟩

/-- Every public operation keeps the invariant and takes no legacy fallback
branch. -/
theorem step_good (env : Env) (st st1 : AMDTADLUtils) (op : Op)
    (hinv : st.m_libHandle ≠ none → st.table = FunctionTable.full)
    (h : step env st op = .ok st1) :
    (st1.m_libHandle ≠ none → st1.table = FunctionTable.full) ∧
    ∃ evs, st1.calls = st.calls ++ evs ∧ ∀ e ∈ evs, e.isLegacyCreateOrQuery = false := by
  cases op with
  | LoadAndInit =>
    simp only [step] at h
    cases hq : LoadAndInit env st with
    | error e => simp [hq, Except.map] at h
    | ok p =>
      obtain ⟨r, s⟩ := p
      simp only [hq, Except.map, Except.ok.injEq] at h
      subst h
      obtain ⟨a, -, c⟩ := LoadAndInit_good env st s r hinv hq
      exact ⟨a, c⟩
  | Unload =>
    simp only [step, Except.ok.injEq] at h
    subst h
    refine ⟨fun hne => absurd (Unload_fields st).1 hne, ?_⟩
    exact Unload_calls (fun e => e.isLegacyCreateOrQuery = false) st rfl rfl (fun _ => rfl)
  | Reset =>
    simp only [step, Except.ok.injEq] at h
    subst h
    exact ⟨hinv, [], by simp [Reset], by simp⟩
  | GetAsicInfoList =>
    simp only [step] at h
    cases hq : GetAsicInfoList env st [] with
    | error e => simp [hq, Except.map] at h
    | ok p =>
      obtain ⟨r, l, s⟩ := p
      simp only [hq, Except.map, Except.ok.injEq] at h
      subst h
      exact GetAsicInfoList_good env st s [] l r hinv hq
  | GetADLVersionsInfo =>
    simp only [step] at h
    cases hq : GetADLVersionsInfo env st with
    | error e => simp [hq, Except.map] at h
    | ok p =>
      obtain ⟨r, info, s⟩ := p
      simp only [hq, Except.map, Except.ok.injEq] at h
      subst h
      exact GetADLVersionsInfo_good env st s r info hinv hq
  | GetDriverVersion =>
    simp only [step] at h
    cases hq : GetDriverVersion env st with
    | error e => simp [hq, Except.map] at h
    | ok p =>
      obtain ⟨r, a, b, c, s⟩ := p
      simp only [hq, Except.map, Except.ok.injEq] at h
      subst h
      obtain ⟨info, hv⟩ := GetDriverVersion_state env st s r a b c hq
      exact GetADLVersionsInfo_good env st s r info hinv hv

/-- Every sequence of public operations keeps the invariant and takes no
legacy fallback branch. -/
theorem run_good (env : Env) (ops : List Op) :
    ∀ (st st1 : AMDTADLUtils),
      (st.m_libHandle ≠ none → st.table = FunctionTable.full) →
      run env st ops = .ok st1 →
      (st1.m_libHandle ≠ none → st1.table = FunctionTable.full) ∧
      ∃ evs, st1.calls = st.calls ++ evs ∧ ∀ e ∈ evs, e.isLegacyCreateOrQuery = false := by
  induction ops with
  | nil =>
    intro st st1 hinv h
    simp only [run, Except.ok.injEq] at h
    subst h
    exact ⟨hinv, [], by simp, by simp⟩
  | cons op ops ih =>
    intro st st1 hinv h
    simp only [run] at h
    cases hs : step env st op with
    | error e => simp [hs] at h
    | ok s =>
      simp only [hs] at h
      obtain ⟨hi1, evs1, hev1, hP1⟩ := step_good env st s op hinv hs
      obtain ⟨hi2, evs2, hev2, hP2⟩ := ih s st1 hi1 h
      refine ⟨hi2, evs1 ++ evs2, by rw [hev2, hev1]; simp, ?_⟩
      intro e hmem
      rcases List.mem_append.mp hmem with hmem | hmem
      · exact hP1 e hmem
      · exact hP2 e hmem

/-- Once a symbol was missing, the rest of the symbol loop keeps `result`, the
null handle and the two reset statuses. -/
theorem bindLoop_keeps_missing (env : Env) (syms : List Sym) :
    ∀ acc : ADLUtil_Result × AMDTADLUtils,
      acc.1 = ADL_MISSING_ENTRYPOINTS → acc.2.m_libHandle = none →
      acc.2.m_asicInfoListRetVal = ADL_RESULT_NONE →
      acc.2.m_versionRetVal = ADL_RESULT_NONE →
      (syms.foldl (bindEntry env) acc).1 = ADL_MISSING_ENTRYPOINTS ∧
      (syms.foldl (bindEntry env) acc).2.m_libHandle = none ∧
      (syms.foldl (bindEntry env) acc).2.m_asicInfoListRetVal = ADL_RESULT_NONE ∧
      (syms.foldl (bindEntry env) acc).2.m_versionRetVal = ADL_RESULT_NONE := by
  induction syms with
  | nil => intro acc h1 h2 h3 h4; exact ⟨h1, h2, h3, h4⟩
  | cons x xs ih =>
    intro acc h1 h2 h3 h4
    rw [List.foldl_cons]
    cases hp : env.GetProcAddress acc.2.calls.length acc.2.m_libHandle x with
    | true =>
      rw [bindEntry_of_true env acc x hp]
      exact ih _ h1 ((resolveEntry_fields env acc.2 x).1.trans h2)
        ((resolveEntry_frame env acc.2 x).2.1.trans h3)
        ((resolveEntry_frame env acc.2 x).2.2.1.trans h4)
    | false =>
      rw [bindEntry_of_false env acc x hp]
      obtain ⟨a, -, b, c, -⟩ := Unload_fields (resolveEntry env acc.2 x)
      exact ih _ rfl a b c

/-- The symbol loop over a list that holds a symbol which never resolves ends
with `ADL_MISSING_ENTRYPOINTS`, the null handle and the two statuses reset. -/
theorem bindLoop_never_resolves (env : Env) (bad : Sym)
    (hbad : ∀ t h, env.GetProcAddress t h bad = false) (syms : List Sym) :
    ∀ acc : ADLUtil_Result × AMDTADLUtils, bad ∈ syms →
      (syms.foldl (bindEntry env) acc).1 = ADL_MISSING_ENTRYPOINTS ∧
      (syms.foldl (bindEntry env) acc).2.m_libHandle = none ∧
      (syms.foldl (bindEntry env) acc).2.m_asicInfoListRetVal = ADL_RESULT_NONE ∧
      (syms.foldl (bindEntry env) acc).2.m_versionRetVal = ADL_RESULT_NONE := by
  induction syms with
  | nil => intro acc hmem; simp at hmem
  | cons x xs ih =>
    intro acc hmem
    rw [List.foldl_cons]
    by_cases hx : bad = x
    · subst hx
      rw [bindEntry_of_false env acc bad (hbad _ _)]
      obtain ⟨a, -, b, c, -⟩ := Unload_fields (resolveEntry env acc.2 bad)
      exact bindLoop_keeps_missing env xs _ rfl a b c
    · have hmem2 : bad ∈ xs := by
        rcases List.mem_cons.mp hmem with h | h
        · exact absurd h hx
        · exact h
      exact ih _ hmem2

/-- With an entry point that never resolves, `LoadAndInit` on an unloaded
instance returns `ADL_MISSING_ENTRYPOINTS` and leaves the instance unloaded with
both statuses reset. -/
theorem LoadAndInit_never_resolves (env : Env) (bad : Sym)
    (hbad : ∀ t h, env.GetProcAddress t h bad = false) (st : AMDTADLUtils)
    (hnull : st.m_libHandle = none) :
    ∃ st1, LoadAndInit env st = .ok (ADL_MISSING_ENTRYPOINTS, st1) ∧
      st1.m_libHandle = none ∧ st1.m_asicInfoListRetVal = ADL_RESULT_NONE ∧
      st1.m_versionRetVal = ADL_RESULT_NONE := by
  obtain ⟨a, b, c, d⟩ := bindLoop_never_resolves env bad hbad ADL_INTERFACE_TABLE
    ((if (loadLibrary env st).m_libHandle = none then ADL_NOT_FOUND else ADL_SUCCESS),
      loadLibrary env st) (mem_ADL_INTERFACE_TABLE bad)
  unfold LoadAndInit
  simp only [hnull]
  generalize (if (loadLibrary env st).m_libHandle = none then ADL_NOT_FOUND
    else ADL_SUCCESS) = result0 at a b c d ⊢
  rw [if_neg (by rw [a]; decide)]
  refine ⟨(ADL_INTERFACE_TABLE.foldl (bindEntry env) (result0, loadLibrary env st)).2,
    ?_, b, c, d⟩
  rw [← a]

/-- With an entry point that never resolves, every public operation on an
unloaded instance whose statuses are `ADL_RESULT_NONE` or
`ADL_MISSING_ENTRYPOINTS` returns and leaves such an instance. -/
theorem step_never_resolves (env : Env) (bad : Sym)
    (hbad : ∀ t h, env.GetProcAddress t h bad = false) (st : AMDTADLUtils) (op : Op)
    (hnull : st.m_libHandle = none)
    (ha : st.m_asicInfoListRetVal = ADL_RESULT_NONE ∨
      st.m_asicInfoListRetVal = ADL_MISSING_ENTRYPOINTS)
    (hv : st.m_versionRetVal = ADL_RESULT_NONE ∨
      st.m_versionRetVal = ADL_MISSING_ENTRYPOINTS) :
    ∃ st1, step env st op = .ok st1 ∧ st1.m_libHandle = none ∧
      (st1.m_asicInfoListRetVal = ADL_RESULT_NONE ∨
        st1.m_asicInfoListRetVal = ADL_MISSING_ENTRYPOINTS) ∧
      (st1.m_versionRetVal = ADL_RESULT_NONE ∨
        st1.m_versionRetVal = ADL_MISSING_ENTRYPOINTS) := by
  obtain ⟨s0, hL, h1, h2, h3⟩ := LoadAndInit_never_resolves env bad hbad st hnull
  cases op with
  | LoadAndInit =>
    exact ⟨s0, by simp [step, hL, Except.map], h1, Or.inl h2, Or.inl h3⟩
  | Unload =>
    obtain ⟨a, -, b, c, -⟩ := Unload_fields st
    exact ⟨(Unload st).2, rfl, a, Or.inl b, Or.inl c⟩
  | Reset =>
    exact ⟨Reset st, rfl, hnull, Or.inl rfl, Or.inl rfl⟩
  | GetAsicInfoList =>
    rcases ha with ha | ha
    · refine ⟨{ s0 with m_asicInfoListRetVal := ADL_MISSING_ENTRYPOINTS }, ?_, h1,
        Or.inr rfl, Or.inl h3⟩
      simp [step, GetAsicInfoList, ha, hL, Except.map]
    · refine ⟨st, ?_, hnull, Or.inr ha, hv⟩
      simp [step, GetAsicInfoList, ha, Except.map]
  | GetADLVersionsInfo =>
    rcases hv with hv | hv
    · refine ⟨{ s0 with m_versionRetVal := ADL_MISSING_ENTRYPOINTS }, ?_, h1,
        Or.inl h2, Or.inr rfl⟩
      simp [step, GetADLVersionsInfo, hv, hL, Except.map]
    · refine ⟨st, ?_, hnull, ha, Or.inr hv⟩
      simp [step, GetADLVersionsInfo, hv, Except.map]
  | GetDriverVersion =>
    rcases hv with hv | hv
    · refine ⟨{ s0 with m_versionRetVal := ADL_MISSING_ENTRYPOINTS }, ?_, h1,
        Or.inl h2, Or.inr rfl⟩
      simp [step, GetDriverVersion, GetADLVersionsInfo, hv, hL, Except.map]
    · refine ⟨st, ?_, hnull, ha, Or.inr hv⟩
      simp [step, GetDriverVersion, GetADLVersionsInfo, hv, Except.map]

/-- With an entry point that never resolves, every sequence of public
operations from such an instance returns and leaves such an instance. -/
theorem run_never_resolves (env : Env) (bad : Sym)
    (hbad : ∀ t h, env.GetProcAddress t h bad = false) (ops : List Op) :
    ∀ st : AMDTADLUtils, st.m_libHandle = none →
      (st.m_asicInfoListRetVal = ADL_RESULT_NONE ∨
        st.m_asicInfoListRetVal = ADL_MISSING_ENTRYPOINTS) →
      (st.m_versionRetVal = ADL_RESULT_NONE ∨
        st.m_versionRetVal = ADL_MISSING_ENTRYPOINTS) →
      ∃ st1, run env st ops = .ok st1 ∧ st1.m_libHandle = none ∧
        (st1.m_asicInfoListRetVal = ADL_RESULT_NONE ∨
          st1.m_asicInfoListRetVal = ADL_MISSING_ENTRYPOINTS) ∧
        (st1.m_versionRetVal = ADL_RESULT_NONE ∨
          st1.m_versionRetVal = ADL_MISSING_ENTRYPOINTS) := by
  induction ops with
  | nil => intro st h1 h2 h3; exact ⟨st, rfl, h1, h2, h3⟩
  | cons op ops ih =>
    intro st h1 h2 h3
    obtain ⟨s, hs, a, b, c⟩ := step_never_resolves env bad hbad st op h1 h2 h3
    obtain ⟨s1, hr, a1, b1, c1⟩ := ih s a b c
    exact ⟨s1, by simp only [run, hs, hr], a1, b1, c1⟩

/-- With an entry point that never resolves, the three queries on such an
instance return `ADL_MISSING_ENTRYPOINTS`. -/
theorem queries_never_resolve (env : Env) (bad : Sym)
    (hbad : ∀ t h, env.GetProcAddress t h bad = false) (st : AMDTADLUtils)
    (hnull : st.m_libHandle = none)
    (ha : st.m_asicInfoListRetVal = ADL_RESULT_NONE ∨
      st.m_asicInfoListRetVal = ADL_MISSING_ENTRYPOINTS)
    (hv : st.m_versionRetVal = ADL_RESULT_NONE ∨
      st.m_versionRetVal = ADL_MISSING_ENTRYPOINTS) :
    (∀ out, ∃ l st1, GetAsicInfoList env st out = .ok (ADL_MISSING_ENTRYPOINTS, l, st1)) ∧
    (∃ info st1, GetADLVersionsInfo env st = .ok (ADL_MISSING_ENTRYPOINTS, info, st1)) ∧
    (∃ st1, GetDriverVersion env st = .ok (ADL_MISSING_ENTRYPOINTS, 0, 0, 0, st1)) := by
  obtain ⟨s0, hL, -, -, -⟩ := LoadAndInit_never_resolves env bad hbad st hnull
  refine ⟨?_, ?_, ?_⟩
  · intro out
    rcases ha with ha | ha
    · exact ⟨_, _, by simp [GetAsicInfoList, ha, hL]; exact ⟨rfl, rfl⟩⟩
    · exact ⟨_, _, by simp [GetAsicInfoList, ha]; exact ⟨rfl, rfl⟩⟩
  · rcases hv with hv | hv
    · exact ⟨_, _, by simp [GetADLVersionsInfo, hv, hL]; exact ⟨rfl, rfl⟩⟩
    · exact ⟨_, _, by simp [GetADLVersionsInfo, hv]; exact ⟨rfl, rfl⟩⟩
  · rcases hv with hv | hv
    · exact ⟨_, by simp [GetDriverVersion, GetADLVersionsInfo, hv, hL]; rfl⟩
    · exact ⟨_, by simp [GetDriverVersion, GetADLVersionsInfo, hv]; rfl⟩

/-- Claim C21, evaluated on the code. With a library that exports only the five
legacy entry points, `LoadAndInit` on the fresh singleton returns
`ADL_MISSING_ENTRYPOINTS` after one context-destroy call and no
context-creation call: the look-up of `ADL2_Main_Control_Create` fails when the
two legacy control symbols are already bound, and the `Unload` of that failure
calls the legacy `ADL_Main_Control_Destroy` (the log shows it as the fifth
external call, before `FreeLibrary`). Two first-time queries in a row give two
destroy calls and no creation call. With a healthy library the calls are
paired: a load and two unloads give one creation and one destroy call. -/
theorem C21_destroy_without_create :
    (LoadAndInit Env.legacyOnly AMDTADLUtils.fresh).map
        (fun r => (r.1, r.2.calls.countP Event.isDestroy, r.2.calls.countP Event.isCreate,
          r.2.calls.take 6)) =
      .ok (ADL_MISSING_ENTRYPOINTS, 1, 0,
        [.LoadLibraryA,
          .GetProcAddress (some 1) .ADL_Main_Control_Create,
          .GetProcAddress (some 1) .ADL_Main_Control_Destroy,
          .GetProcAddress (some 1) .ADL2_Main_Control_Create,
          .vendor .ADL_Main_Control_Destroy,
          .FreeLibrary 1]) ∧
    (run Env.legacyOnly AMDTADLUtils.fresh [.GetAsicInfoList, .GetADLVersionsInfo]).map
        (fun st => (st.calls.countP Event.isDestroy, st.calls.countP Event.isCreate)) =
      .ok (2, 0) ∧
    (run (Env.healthy [] []) AMDTADLUtils.fresh [.LoadAndInit, .Unload, .Unload]).map
        (fun st => (st.calls.countP Event.isDestroy, st.calls.countP Event.isCreate)) =
      .ok (1, 1) := by
  refine ⟨?_, ?_, ?_⟩ <;> rfl

/-- Claim C22 as stated fails: a first-time `GetAsicInfoList` against a
library that exports only the five legacy entry points makes exactly one
vendor call, and that call goes to the legacy entry point
`ADL_Main_Control_Destroy`, through the legacy fallback branch of `Unload`;
the call returns `ADL_MISSING_ENTRYPOINTS`. So not every vendor call made by
`GetAsicInfoList` uses a context-aware entry point. -/
theorem C22_counterexample_legacy_destroy :
    (GetAsicInfoList Env.legacyOnly AMDTADLUtils.fresh []).map
        (fun r => (r.1, r.2.2.calls.filter Event.isVendor)) =
      .ok (ADL_MISSING_ENTRYPOINTS, [.vendor .ADL_Main_Control_Destroy]) ∧
    Event.isLegacyFallback (.vendor .ADL_Main_Control_Destroy) = true := by
  constructor <;> rfl

/-- Claim C22, amended. In every state reached from the constructed singleton
through a sequence of public operations (`LoadAndInit`, `Unload`, `Reset` and
the three queries), for every behaviour of the loader and the vendor library:
if the library handle is non-null, all ten function-table entries are bound.
Consequently every call in the log that went through a legacy fallback branch
is a call of the legacy destroy entry point: the legacy fallback branches of
context creation, of the adapter-count and adapter-info queries and of the
version query are never taken, every such call goes to the context-aware
entry point. And with a library in which some entry point never resolves (such
as one that exports only the five legacy entry points), the instance is
unloaded in every such state and `LoadAndInit` and the three queries return
`ADL_MISSING_ENTRYPOINTS` there. -/
theorem C22_loaded_implies_all_bound (env : Env) (info : ADLVersionsInfo) (ops : List Op)
    (st : AMDTADLUtils) (hrun : run env (AMDTADLUtils.new info) ops = .ok st) :
    (st.m_libHandle ≠ none → st.table = FunctionTable.full) ∧
    (∀ e ∈ st.calls, e.isLegacyFallback = true → e = .vendor .ADL_Main_Control_Destroy) ∧
    (∀ bad, (∀ t h, env.GetProcAddress t h bad = false) →
      st.m_libHandle = none ∧
      (∃ st1, LoadAndInit env st = .ok (ADL_MISSING_ENTRYPOINTS, st1)) ∧
      (∀ out, ∃ l st1, GetAsicInfoList env st out = .ok (ADL_MISSING_ENTRYPOINTS, l, st1)) ∧
      (∃ info1 st1, GetADLVersionsInfo env st = .ok (ADL_MISSING_ENTRYPOINTS, info1, st1)) ∧
      (∃ st1, GetDriverVersion env st = .ok (ADL_MISSING_ENTRYPOINTS, 0, 0, 0, st1))) := by
  have hinv0 : (AMDTADLUtils.new info).m_libHandle ≠ none →
      (AMDTADLUtils.new info).table = FunctionTable.full := fun h => absurd rfl h
  obtain ⟨hinv, evs, hev, hP⟩ := run_good env ops (AMDTADLUtils.new info) st hinv0 hrun
  refine ⟨hinv, ?_, ?_⟩
  · intro e hmem hleg
    rw [hev] at hmem
    have hq : e.isLegacyCreateOrQuery = false :=
      hP e (by simpa [AMDTADLUtils.new] using hmem)
    cases e with
    | vendor sym =>
      cases sym <;>
        first
          | rfl
          | exact absurd hq (by decide)
          | exact absurd hleg (by decide)
    | LoadLibraryA => exact absurd hleg (by decide)
    | GetProcAddress h sym => exact absurd hleg (by simp [Event.isLegacyFallback])
    | FreeLibrary h => exact absurd hleg (by simp [Event.isLegacyFallback])
    | malloc => exact absurd hleg (by decide)
  · intro bad hbad
    obtain ⟨s, hs, hnull, ha, hv⟩ := run_never_resolves env bad hbad ops
      (AMDTADLUtils.new info) rfl (Or.inl rfl) (Or.inl rfl)
    rw [hrun, Except.ok.injEq] at hs
    subst hs
    obtain ⟨s0, hL, -, -, -⟩ := LoadAndInit_never_resolves env bad hbad st hnull
    obtain ⟨q1, q2, q3⟩ := queries_never_resolve env bad hbad st hnull ha hv
    exact ⟨hnull, ⟨s0, hL⟩, q1, q2, q3⟩

/-- Witness of the amended C22: the singleton after an adapter query and a
version query against a healthy library (loaded, table full, no call through a
legacy creation or query entry point), and after the same two queries against a
library that exports only the five legacy entry points (unloaded, every load
and query gives `ADL_MISSING_ENTRYPOINTS`). -/
theorem C22_loaded_implies_all_bound_witness :
    (AMDTADLUtils.queried.m_libHandle ≠ none ∧
      AMDTADLUtils.queried.table = FunctionTable.full ∧
      ∀ e ∈ AMDTADLUtils.queried.calls,
        e.isLegacyFallback = true → e = .vendor .ADL_Main_Control_Destroy) ∧
    ((stateAfter (run Env.legacyOnly AMDTADLUtils.fresh
        [.GetAsicInfoList, .GetADLVersionsInfo])).m_libHandle = none ∧
      (∃ st1, LoadAndInit Env.legacyOnly
        (stateAfter (run Env.legacyOnly AMDTADLUtils.fresh
          [.GetAsicInfoList, .GetADLVersionsInfo])) = .ok (ADL_MISSING_ENTRYPOINTS, st1)) ∧
      (∀ out, ∃ l st1, GetAsicInfoList Env.legacyOnly
        (stateAfter (run Env.legacyOnly AMDTADLUtils.fresh
          [.GetAsicInfoList, .GetADLVersionsInfo])) out =
          .ok (ADL_MISSING_ENTRYPOINTS, l, st1)) ∧
      (∃ info1 st1, GetADLVersionsInfo Env.legacyOnly
        (stateAfter (run Env.legacyOnly AMDTADLUtils.fresh
          [.GetAsicInfoList, .GetADLVersionsInfo])) =
          .ok (ADL_MISSING_ENTRYPOINTS, info1, st1)) ∧
      (∃ st1, GetDriverVersion Env.legacyOnly
        (stateAfter (run Env.legacyOnly AMDTADLUtils.fresh
          [.GetAsicInfoList, .GetADLVersionsInfo])) =
          .ok (ADL_MISSING_ENTRYPOINTS, 0, 0, 0, st1))) :=
  ⟨⟨by decide,
      (C22_loaded_implies_all_bound (Env.healthy "13.35.1005".toList [AdapterInfo.sample])
        ⟨[], [], []⟩ [.GetAsicInfoList, .GetADLVersionsInfo] AMDTADLUtils.queried
        (by rfl)).1 (by decide),
      (C22_loaded_implies_all_bound (Env.healthy "13.35.1005".toList [AdapterInfo.sample])
        ⟨[], [], []⟩ [.GetAsicInfoList, .GetADLVersionsInfo] AMDTADLUtils.queried
        (by rfl)).2.1⟩,
    (C22_loaded_implies_all_bound Env.legacyOnly ⟨[], [], []⟩
      [.GetAsicInfoList, .GetADLVersionsInfo]
      (stateAfter (run Env.legacyOnly AMDTADLUtils.fresh
        [.GetAsicInfoList, .GetADLVersionsInfo]))
      (by rfl)).2.2 .ADL2_Main_Control_Create (fun _ h => by cases h <;> rfl)⟩

/-- The list returned by a successful first-time `GetAsicInfoList` with a
count above zero: the records that the loop body builds from the records of
the scratch buffer, one per buffer record and in buffer order. -/
theorem GetAsicInfoList_records (env : Env) (st s0 s1 s3 st1 : AMDTADLUtils)
    (out l : AsicInfoList) (n code2 : Int) (lpAdapterInfo : List AdapterInfo)
    (h0 : st.m_asicInfoListRetVal = ADL_RESULT_NONE) (hl0 : st.m_asicInfoList = [])
    (hload : LoadAndInit env st = .ok (ADL_SUCCESS, s0))
    (hq : queryNumAdapters env { s0 with m_asicInfoListRetVal := ADL_SUCCESS } =
      .ok (ADL_OK, n, s1))
    (hn : 0 < n)
    (hi : queryAdapterInfo env (s1.log .malloc) n = .ok (code2, lpAdapterInfo, s3))
    (hcall : GetAsicInfoList env st out = .ok (ADL_SUCCESS, l, st1)) :
    List.Forall₂ (fun info r => buildAsicInfo env.ndebug info = .ok r) lpAdapterInfo l := by
  obtain ⟨hlist, -, -, -⟩ := LoadAndInit_success_frame env st s0 hload
  obtain ⟨e1, hs1, -, -⟩ := queryNumAdapters_ok env _ s1 ADL_OK n hq
  obtain ⟨-, hl3⟩ := queryAdapterInfo_length env _ s3 code2 n lpAdapterInfo hi
  have hs3 : s3.m_asicInfoList = [] := by
    rw [hl3, hs1]
    exact hlist.trans hl0
  unfold GetAsicInfoList at hcall
  simp only [h0, ↓reduceIte, hload] at hcall
  unfold enumerateAdapters at hcall
  simp only [hq, ne_eq, not_true_eq_false, ↓reduceIte, hn] at hcall
  by_cases hm : env.malloc s1.calls.length = false
  · simp [hm] at hcall
  · simp only [hm, ↓reduceIte, hi] at hcall
    by_cases hc : ADL_OK = code2
    · simp only [hc, ↓reduceIte] at hcall
      cases hb : buildAsicInfos env.ndebug lpAdapterInfo with
      | error e => simp [hb] at hcall
      | ok pushed =>
        simp only [hb, Bool.true_eq_false, ↓reduceIte, Except.ok.injEq, Prod.mk.injEq] at hcall
        have hl := hcall.2.1
        rw [hs3, List.nil_append] at hl
        subst hl
        exact buildAsicInfos_ok env.ndebug lpAdapterInfo pushed hb
    · simp [hc] at hcall

/-- The record at a position of the list returned by a successful first-time
`GetAsicInfoList`: the one the loop body builds from the buffer record at that
position. -/
theorem GetAsicInfoList_record_at (env : Env) (st s0 s1 s3 st1 : AMDTADLUtils)
    (out l : AsicInfoList) (n code2 : Int) (lpAdapterInfo : List AdapterInfo)
    (k : Nat) (info : AdapterInfo)
    (h0 : st.m_asicInfoListRetVal = ADL_RESULT_NONE) (hl0 : st.m_asicInfoList = [])
    (hload : LoadAndInit env st = .ok (ADL_SUCCESS, s0))
    (hq : queryNumAdapters env { s0 with m_asicInfoListRetVal := ADL_SUCCESS } =
      .ok (ADL_OK, n, s1))
    (hn : 0 < n)
    (hi : queryAdapterInfo env (s1.log .malloc) n = .ok (code2, lpAdapterInfo, s3))
    (hcall : GetAsicInfoList env st out = .ok (ADL_SUCCESS, l, st1))
    (hk : lpAdapterInfo[k]? = some info) :
    ∃ asicInfo, l[k]? = some asicInfo ∧ buildAsicInfo env.ndebug info = .ok asicInfo := by
  have hF := GetAsicInfoList_records env st s0 s1 s3 st1 out l n code2 lpAdapterInfo
    h0 hl0 hload hq hn hi hcall
  have hlt : k < lpAdapterInfo.length := by
    by_contra hge
    rw [List.getElem?_eq_none (by omega)] at hk
    simp at hk
  obtain ⟨x, y, hx, hy, hr⟩ := forall₂_index _ _ _ hF k hlt
  rw [hk] at hx
  simp only [Option.some.injEq] at hx
  subst hx
  exact ⟨y, hy, hr⟩

/-- Claim C3. For every adapter whose composite identifier string has the form
`pre ++ "PCI_VEN_" ++ v ++ "&DEV_" ++ d ++ "&REV_" ++ r ++ post`, where `v` and
`d` are four hex digits, `r` is two hex digits and `pre` contains none of the
three markers, the record that `GetAsicInfoList` builds for it has `vendorID`
the hex value of `v`, `deviceID` the hex value of `d`, `deviceIDString = d`
and `revID` the hex value of `r`: in a successful first-time `GetAsicInfoList`
(no cached status, empty cached list; the load succeeded, state `s0`; the
vendor reported `n > 0` adapters, state `s1`; the adapter-info query left the
records `lpAdapterInfo` in the scratch buffer) with this adapter at position
`k` of the buffer, the returned list holds at position `k` a record with
these four fields; and the loop body gives exactly this record, with the
trimmed name, whenever the trimming of the name gives one. The string is a C
string in memory, so its length is below `2 ^ 64`. -/
theorem C3_identifier_fields (env : Env) (st s0 s1 s3 st1 : AMDTADLUtils)
    (out l : AsicInfoList) (n code2 : Int) (lpAdapterInfo : List AdapterInfo)
    (k : Nat) (info : AdapterInfo) (pre v d r post : List Char)
    (hv : IsHex 4 v) (hd : IsHex 4 d) (hr : IsHex 2 r)
    (hpv : ¬ PCI_VEN <:+: pre) (hpd : ¬ DEV <:+: pre) (hpr : ¬ REV <:+: pre)
    (hud : info.strUDID = pre ++ PCI_VEN ++ v ++ DEV ++ d ++ REV ++ r ++ post)
    (hlen : info.strUDID.length < SIZE_MOD)
    (h0 : st.m_asicInfoListRetVal = ADL_RESULT_NONE) (hl0 : st.m_asicInfoList = [])
    (hload : LoadAndInit env st = .ok (ADL_SUCCESS, s0))
    (hq : queryNumAdapters env { s0 with m_asicInfoListRetVal := ADL_SUCCESS } =
      .ok (ADL_OK, n, s1))
    (hn : 0 < n)
    (hi : queryAdapterInfo env (s1.log .malloc) n = .ok (code2, lpAdapterInfo, s3))
    (hcall : GetAsicInfoList env st out = .ok (ADL_SUCCESS, l, st1))
    (hk : lpAdapterInfo[k]? = some info) :
    (∃ asicInfo, l[k]? = some asicInfo ∧
      asicInfo.vendorID = (digitsValue 16 v : Int) ∧
      asicInfo.deviceID = (digitsValue 16 d : Int) ∧
      asicInfo.deviceIDString = d ∧
      asicInfo.revID = (digitsValue 16 r : Int)) ∧
    buildAsicInfo env.ndebug info =
      (trimAdapterName (ofCStr info.strAdapterName)).map (fun name =>
        { adapterName := name
          deviceIDString := d
          vendorID := (digitsValue 16 v : Int)
          deviceID := (digitsValue 16 d : Int)
          revID := (digitsValue 16 r : Int)
          gpuIndex := 0
          registryPath := info.strDriverPath
          registryPathExt := info.strDriverPathExt }) := by
  have hbody := buildAsicInfo_identifier_fields env.ndebug info pre v d r post
    hv hd hr hpv hpd hpr hud hlen
  refine ⟨?_, hbody⟩
  obtain ⟨asicInfo, hget, hb⟩ := GetAsicInfoList_record_at env st s0 s1 s3 st1 out l n code2
    lpAdapterInfo k info h0 hl0 hload hq hn hi hcall hk
  refine ⟨asicInfo, hget, ?_⟩
  rw [hbody] at hb
  cases ht : trimAdapterName (ofCStr info.strAdapterName) with
  | error e => simp [ht, Except.map] at hb
  | ok name =>
    simp only [ht, Except.map, Except.ok.injEq] at hb
    subst hb
    exact ⟨rfl, rfl, rfl, rfl⟩

/-- Witness of C3: a healthy library that reports the adapter
`AdapterInfo.sample`, whose identifier string is
`PCI_VEN_1002&DEV_67DF&REV_C1`; the first `GetAsicInfoList` on the fresh
singleton returns one record, with vendor `0x1002`, device `0x67DF` (string
`67DF`) and revision `0xC1`. -/
theorem C3_identifier_fields_witness :
    (GetAsicInfoList (Env.healthy [] [AdapterInfo.sample]) AMDTADLUtils.fresh []).map
        (fun r => (r.1, r.2.1)) = .ok (ADL_SUCCESS, [ADLUtil_ASICInfo.sample]) ∧
    ∃ asicInfo, [ADLUtil_ASICInfo.sample][0]? = some asicInfo ∧
      asicInfo.vendorID = 0x1002 ∧ asicInfo.deviceID = 0x67DF ∧
      asicInfo.deviceIDString = "67DF".toList ∧ asicInfo.revID = 0xC1 :=
  ⟨by rfl,
    (C3_identifier_fields (Env.healthy [] [AdapterInfo.sample]) AMDTADLUtils.fresh
      (stateAfter (run (Env.healthy [] [AdapterInfo.sample]) AMDTADLUtils.fresh [.LoadAndInit]))
      (stateAfter ((queryNumAdapters (Env.healthy [] [AdapterInfo.sample])
        { stateAfter (run (Env.healthy [] [AdapterInfo.sample]) AMDTADLUtils.fresh
            [.LoadAndInit]) with m_asicInfoListRetVal := ADL_SUCCESS }).map
          (fun (r : Int × Int × AMDTADLUtils) => r.2.2)))
      { stateAfter (run (Env.healthy [] [AdapterInfo.sample]) AMDTADLUtils.fresh
          [.GetAsicInfoList]) with m_asicInfoList := [] }
      (stateAfter (run (Env.healthy [] [AdapterInfo.sample]) AMDTADLUtils.fresh
        [.GetAsicInfoList]))
      [] [ADLUtil_ASICInfo.sample] 1 ADL_OK [AdapterInfo.sample] 0 AdapterInfo.sample
      [] "1002".toList "67DF".toList "C1".toList []
      ⟨by decide, by decide⟩ ⟨by decide, by decide⟩ ⟨by decide, by decide⟩
      (by decide) (by decide) (by decide) (by rfl) (by decide)
      (by rfl) (by rfl) (by rfl) (by rfl) (by decide) (by rfl) (by rfl) (by rfl)).1⟩

/-- Claim C5. For every adapter whose raw name contains at least one non-space
character, the `adapterName` stored by `GetAsicInfoList` is the raw name with
all trailing spaces removed: in a successful first-time `GetAsicInfoList` (no
cached status, empty cached list; the load succeeded, state `s0`; the vendor
reported `n > 0` adapters, state `s1`; the adapter-info query left the records
`lpAdapterInfo` in the scratch buffer) with this adapter at position `k` of the
buffer, the returned list holds at position `k` a record whose `adapterName`
satisfies `raw = adapterName ++ (j spaces)` for some `j` and does not end with
a space; and the trimming of such a name always returns, with this name. The
name is a C string in memory, so its length is below `2 ^ 64`. -/
theorem C5_trailing_spaces_removed (env : Env) (st s0 s1 s3 st1 : AMDTADLUtils)
    (out l : AsicInfoList) (n code2 : Int) (lpAdapterInfo : List AdapterInfo)
    (k : Nat) (info : AdapterInfo)
    (hns : ∃ c ∈ info.strAdapterName, c ≠ ' ')
    (hlen : info.strAdapterName.length < SIZE_MOD)
    (h0 : st.m_asicInfoListRetVal = ADL_RESULT_NONE) (hl0 : st.m_asicInfoList = [])
    (hload : LoadAndInit env st = .ok (ADL_SUCCESS, s0))
    (hq : queryNumAdapters env { s0 with m_asicInfoListRetVal := ADL_SUCCESS } =
      .ok (ADL_OK, n, s1))
    (hn : 0 < n)
    (hi : queryAdapterInfo env (s1.log .malloc) n = .ok (code2, lpAdapterInfo, s3))
    (hcall : GetAsicInfoList env st out = .ok (ADL_SUCCESS, l, st1))
    (hk : lpAdapterInfo[k]? = some info) :
    ∃ (asicInfo : ADLUtil_ASICInfo) (j : Nat), l[k]? = some asicInfo ∧
      info.strAdapterName = asicInfo.adapterName ++ List.replicate j ' ' ∧
      asicInfo.adapterName.getLast? ≠ some ' ' ∧
      trimAdapterName (ofCStr info.strAdapterName) = .ok asicInfo.adapterName := by
  obtain ⟨name, j, htrim, hraw, hlast, hall⟩ :=
    trimAdapterName_trailing_spaces info.strAdapterName hns hlen
  obtain ⟨asicInfo, hget, hb⟩ := GetAsicInfoList_record_at env st s0 s1 s3 st1 out l n code2
    lpAdapterInfo k info h0 hl0 hload hq hn hi hcall hk
  have hname : asicInfo.adapterName = name := hall env.ndebug info asicInfo rfl hb
  rw [← hname] at hraw hlast htrim
  exact ⟨asicInfo, j, hget, hraw, hlast, htrim⟩

/-- Witness of C5: a healthy library that reports the adapter
`AdapterInfo.sample`, whose raw name is `Radeon RX 6800` followed by three
spaces; the first `GetAsicInfoList` on the fresh singleton returns one record,
with the name `Radeon RX 6800`. -/
theorem C5_trailing_spaces_removed_witness :
    ((GetAsicInfoList (Env.healthy [] [AdapterInfo.sample]) AMDTADLUtils.fresh []).map
        (fun r => (r.1, r.2.1)) = .ok (ADL_SUCCESS, [ADLUtil_ASICInfo.sample]) ∧
      ADLUtil_ASICInfo.sample.adapterName = "Radeon RX 6800".toList) ∧
    ∃ (asicInfo : ADLUtil_ASICInfo) (j : Nat),
      [ADLUtil_ASICInfo.sample][0]? = some asicInfo ∧
      "Radeon RX 6800   ".toList = asicInfo.adapterName ++ List.replicate j ' ' ∧
      asicInfo.adapterName.getLast? ≠ some ' ' ∧
      trimAdapterName (ofCStr "Radeon RX 6800   ".toList) = .ok asicInfo.adapterName :=
  ⟨⟨by rfl, by rfl⟩,
    C5_trailing_spaces_removed (Env.healthy [] [AdapterInfo.sample]) AMDTADLUtils.fresh
      (stateAfter (run (Env.healthy [] [AdapterInfo.sample]) AMDTADLUtils.fresh [.LoadAndInit]))
      (stateAfter ((queryNumAdapters (Env.healthy [] [AdapterInfo.sample])
        { stateAfter (run (Env.healthy [] [AdapterInfo.sample]) AMDTADLUtils.fresh
            [.LoadAndInit]) with m_asicInfoListRetVal := ADL_SUCCESS }).map
          (fun (r : Int × Int × AMDTADLUtils) => r.2.2)))
      { stateAfter (run (Env.healthy [] [AdapterInfo.sample]) AMDTADLUtils.fresh
          [.GetAsicInfoList]) with m_asicInfoList := [] }
      (stateAfter (run (Env.healthy [] [AdapterInfo.sample]) AMDTADLUtils.fresh
        [.GetAsicInfoList]))
      [] [ADLUtil_ASICInfo.sample] 1 ADL_OK [AdapterInfo.sample] 0 AdapterInfo.sample
      ⟨'R', by decide, by decide⟩ (by decide)
      (by rfl) (by rfl) (by rfl) (by rfl) (by decide) (by rfl) (by rfl) (by rfl)⟩

end ADLUtil
